import Mathlib

/-!
StarFive / Innosilicon HDMI transmitter: PLL selection, mode programming, DDC
master, interrupt handlers and bind; and the tuning of the StarFive SD/MMC host.

A shallow embedding of `drivers/gpu/drm/verisilicon/inno_hdmi.c` (namespace
`InnoHdmi`) and of `dw_mci_starfive_execute_tuning` in
`drivers/mmc/host/dw_mmc-starfive.c` (namespace `DwMciStarfive`).

* Pointers into the two static coefficient tables are table indices; the
  tables are lists that end with their all-zero sentinel row, as the C arrays do.
* `unsigned long` values are `Nat`; `int` results are `Int`; bytes are reduced
  `% 256` where the C code stores into a `u8`.
* Memory-mapped I/O is a trace of 32-bit loads and stores at byte offsets from
  `hdmi->regs`.  What a load returns is decided by a hardware model, an arbitrary
  function of the accesses made so far and of the offset read.
* The two busy-wait loops on the PLL lock bits take a fuel argument; `none`
  means the loop is still spinning when the fuel is used up.
* The register offsets and masks of the absent `inno_hdmi.h` are a parameter,
  `inno_hdmi_h`, of the functions that use them.
* The completion is its count of pending signals; whether the interrupt signals
  it before a wait times out is given by an oracle on the accesses made so far.
  The mutex is a flag; blocking on it, like a null `hdmi->i2c`, is `none`.
* What the kernel answers to the calls of `inno_hdmi_bind` is a parameter,
  `bind_env`; the calls that took effect in the regulator, clock, reset, I2C and
  DRM cores are kept as a list, oldest first.
* What the syscon update and the tuning command of the SD/MMC host return is a
  parameter, `tuning_env`; the updates, stores and commands are kept as a list.
-/

namespace InnoHdmi

/-! ## Coefficient rows and tables -/

/-- Modelled from the spec: `struct pre_pll_config` is declared in `inno_hdmi.h`,
which is not part of the sources at hand.  The fields and their order are those of
the data model: pixclock, tmdsclock, prediv, fbdiv, tmds_div_a/b/c,
pclk_div_a/b/c/d, vco_div_5_en, fracdiv. -/
structure pre_pll_config where
  pixclock : Nat
  tmdsclock : Nat
  prediv : Nat
  fbdiv : Nat
  tmds_div_a : Nat
  tmds_div_b : Nat
  tmds_div_c : Nat
  pclk_div_a : Nat
  pclk_div_b : Nat
  pclk_div_c : Nat
  pclk_div_d : Nat
  vco_div_5_en : Nat
  fracdiv : Nat
  deriving DecidableEq, Repr

/-- Modelled from the spec: `struct post_pll_config` is declared in `inno_hdmi.h`,
which is not part of the sources at hand.  The fields and their order are those of
the data model: tmdsclock (the ceiling), prediv, fbdiv, postdiv, post_div_en,
version. -/
structure post_pll_config where
  tmdsclock : Nat
  prediv : Nat
  fbdiv : Nat
  postdiv : Nat
  post_div_en : Nat
  version : Nat
  deriving DecidableEq, Repr

/-- The row `{ /* sentinel */ }`: every field zero. -/
def pre_pll_sentinel : pre_pll_config :=
  ⟨0, 0, 0, 0, 0, 0, 0, 0, 0, 0, 0, 0, 0⟩

/-- The row `{ /* sentinel */ }`: every field zero. -/
def post_pll_sentinel : post_pll_config :=
  ⟨0, 0, 0, 0, 0, 0⟩

/-- The array `static const struct pre_pll_config pre_pll_cfg_table[]`: 28 rows and the sentinel. -/
def pre_pll_cfg_table : List pre_pll_config :=
  [ ⟨ 25175000,  25175000, 1,  100, 2, 3, 3, 12, 3, 3, 4, 0, 0⟩,
    ⟨ 25200000,  25200000, 1,  100, 2, 3, 3, 12, 3, 3, 4, 0, 0⟩,
    ⟨ 27000000,  27000000, 1,  90, 3, 2, 2, 10, 3, 3, 4, 0, 0⟩,
    ⟨ 27027000,  27027000, 1,  90, 3, 2, 2, 10, 3, 3, 4, 0, 0⟩,
    ⟨ 27000000,  33750000, 1,  90, 1, 3, 3, 10, 3, 3, 4, 0, 0⟩,
    ⟨ 40000000,  40000000, 1,  80, 2, 2, 2, 12, 2, 2, 2, 0, 0⟩,
    ⟨ 59341000,  59341000, 1,  98, 3, 1, 2,  1, 3, 3, 4, 0, 0xE6AE6B⟩,
    ⟨ 59400000,  59400000, 1,  99, 3, 1, 1,  1, 3, 3, 4, 0, 0⟩,
    ⟨ 59341000,  74176250, 1,  98, 0, 3, 3,  1, 3, 3, 4, 0, 0xE6AE6B⟩,
    ⟨ 59400000,  74250000, 1,  99, 1, 2, 2,  1, 3, 3, 4, 0, 0⟩,
    ⟨ 74176000,  74176000, 1,  98, 1, 2, 2,  1, 2, 3, 4, 0, 0xE6AE6B⟩,
    ⟨ 74250000,  74250000, 1,  99, 1, 2, 2,  1, 2, 3, 4, 0, 0⟩,
    ⟨ 74176000,  92720000, 4, 494, 1, 2, 2,  1, 3, 3, 4, 0, 0x816817⟩,
    ⟨ 74250000,  92812500, 4, 495, 1, 2, 2,  1, 3, 3, 4, 0, 0⟩,
    ⟨148352000, 148352000, 1,  98, 1, 1, 1,  1, 2, 2, 2, 0, 0xE6AE6B⟩,
    ⟨148500000, 148500000, 1,  99, 1, 1, 1,  1, 2, 2, 2, 0, 0⟩,
    ⟨148352000, 185440000, 4, 494, 0, 2, 2,  1, 3, 2, 2, 0, 0x816817⟩,
    ⟨148500000, 185625000, 4, 495, 0, 2, 2,  1, 3, 2, 2, 0, 0⟩,
    ⟨296703000, 296703000, 1,  98, 0, 1, 1,  1, 0, 2, 2, 0, 0xE6AE6B⟩,
    ⟨297000000, 297000000, 1,  99, 1, 0, 0,  1, 2, 1, 1, 0, 0⟩,
    ⟨296703000, 370878750, 4, 494, 1, 2, 0,  1, 3, 1, 1, 0, 0x816817⟩,
    ⟨297000000, 371250000, 4, 495, 1, 2, 0,  1, 3, 1, 1, 0, 0⟩,
    ⟨593407000, 296703500, 1,  98, 0, 1, 1,  1, 0, 2, 1, 0, 0xE6AE6B⟩,
    ⟨594000000, 297000000, 1,  99, 0, 1, 1,  1, 0, 2, 1, 0, 0⟩,
    ⟨593407000, 370879375, 4, 494, 1, 2, 0,  1, 3, 1, 1, 1, 0x816817⟩,
    ⟨594000000, 371250000, 4, 495, 1, 2, 0,  1, 3, 1, 1, 1, 0⟩,
    ⟨593407000, 593407000, 1,  98, 0, 2, 0,  1, 0, 1, 1, 0, 0xE6AE6B⟩,
    ⟨594000000, 594000000, 1,  99, 0, 2, 0,  1, 0, 1, 1, 0, 0⟩,
    pre_pll_sentinel ]

/-- The array `static const struct post_pll_config post_pll_cfg_table[]`: 7 rows and the sentinel. -/
def post_pll_cfg_table : List post_pll_config :=
  [ ⟨25200000,  1, 80, 7, 3, 1⟩,
    ⟨27000000,  1, 40, 11, 3, 1⟩,
    ⟨33750000,  1, 40, 8, 3, 1⟩,
    ⟨74250000,  1, 20, 1, 3, 1⟩,
    ⟨148500000, 1, 20, 1, 3, 3⟩,
    ⟨297000000, 4, 20, 0, 0, 3⟩,
    ⟨594000000, 4, 20, 0, 0, 0⟩,
    post_pll_sentinel ]

/-- Dereference of a pointer `pre_pll_cfg_table + i`. -/
def pre_row (i : Nat) : pre_pll_config :=
  pre_pll_cfg_table.getD i pre_pll_sentinel

/-- Dereference of a pointer `post_pll_cfg_table + i`. -/
def post_row (i : Nat) : post_pll_config :=
  post_pll_cfg_table.getD i post_pll_sentinel

deriving instance DecidableEq for Except

/-- The errno `EINVAL` of the kernel's errno-base.h. -/
def EINVAL : Int := 22

/-! ## Pre-PLL lookup -/

/-- The loop of `inno_hdmi_phy_get_pre_pll_cfg`,
`for (; cfg->pixclock != 0; cfg++) if (cfg->tmdsclock == rate && cfg->pixclock == rate) break;`
run from the row at index `i`, whose row and successors are the list.  The
result is the index `cfg` points at when the loop is left. -/
def pre_pll_scan (rate : Nat) : List pre_pll_config → Nat → Nat
  | [], i => i
  | cfg :: rest, i =>
    if cfg.pixclock = 0 then i
    else if cfg.tmdsclock = rate ∧ cfg.pixclock = rate then i
    else pre_pll_scan rate rest (i + 1)

/-- Function `inno_hdmi_phy_get_pre_pll_cfg`: the pointer returned is `.ok` of the row's
index, `ERR_PTR(-EINVAL)` is `.error (-EINVAL)`.  The `hdmi` argument of the C
function is not used by it. -/
def inno_hdmi_phy_get_pre_pll_cfg (rate : Nat) : Except Int Nat :=
  let rate := (rate / 1000) * 1000
  let cfg := pre_pll_scan rate pre_pll_cfg_table 0
  if (pre_row cfg).pixclock = 0 then .error (-EINVAL) else .ok cfg

/-! ## Post-PLL first-fit scan -/

/-- The loop of `inno_hdmi_phy_clk_set_rate`,
`for (; hdmi->post_cfg->tmdsclock != 0; hdmi->post_cfg++) if (tmdsclock <= hdmi->post_cfg->tmdsclock) break;`
run from the row at index `i`. -/
def post_pll_scan (tmdsclock : Nat) : List post_pll_config → Nat → Nat
  | [], i => i
  | cfg :: rest, i =>
    if cfg.tmdsclock = 0 then i
    else if tmdsclock ≤ cfg.tmdsclock then i
    else post_pll_scan tmdsclock rest (i + 1)

/-! ## Register window -/

/-- One access to the register window: a 32-bit load or store at a byte offset
from `hdmi->regs`, with the value loaded or stored. -/
inductive io_event where
  | read (addr : Nat) (val : Nat)
  | write (addr : Nat) (val : Nat)
  deriving DecidableEq, Repr

/-- The device as the driver sees it: the 32-bit value a load returns, given the
accesses made so far (oldest first) and the byte offset loaded. -/
abbrev hw_model := List io_event → Nat → Nat

/-- The part of `struct drm_display_mode` (a DRM core type) that names a timing. -/
structure drm_display_mode where
  clock : Int
  hdisplay : Nat
  hsync_start : Nat
  hsync_end : Nat
  htotal : Nat
  hskew : Nat
  vdisplay : Nat
  vsync_start : Nat
  vsync_end : Nat
  vtotal : Nat
  vscan : Nat
  flags : Nat
  deriving DecidableEq, Repr

/-- The type `struct hdmi_data_info`. -/
structure hdmi_data_info where
  vic : Int
  sink_is_hdmi : Bool
  sink_has_audio : Bool
  enc_in_format : Nat
  enc_out_format : Nat
  colorimetry : Nat
  deriving DecidableEq, Repr

/-- The type `struct inno_hdmi_i2c`: the two latched bytes, whether the mutex is held, and
the `done` count of the completion. -/
structure inno_hdmi_i2c where
  ddc_addr : Nat
  segment_addr : Nat
  lock : Bool
  cmp : Nat
  deriving DecidableEq, Repr

/-- The type `struct inno_hdmi`, the device handle.  `regs` is the trace of accesses made
through the register window, oldest first.  `pre_cfg` is `none` for the null
pointer left by the zeroing allocation, else what the pre-PLL lookup returned;
`post_cfg` is `none` for the null pointer, else an index into
`post_pll_cfg_table`.  Handles of clocks, regulators, resets and DRM objects are
left out. -/
structure inno_hdmi where
  regs : List io_event
  i2c : Option inno_hdmi_i2c
  tmds_rate : Nat
  hdmi_data : hdmi_data_info
  previous_mode : drm_display_mode
  pre_cfg : Option (Except Int Nat)
  post_cfg : Option Nat
  deriving DecidableEq

/-- The load `readl_relaxed(hdmi->regs + addr)`: the load is appended to the trace. -/
def readl_relaxed (hw : hw_model) (hdmi : inno_hdmi) (addr : Nat) : Nat × inno_hdmi :=
  let val := hw hdmi.regs addr % 2 ^ 32
  (val, { hdmi with regs := hdmi.regs ++ [io_event.read addr val] })

/-- The store `writel_relaxed(val, hdmi->regs + addr)`: the store is appended to the trace. -/
def writel_relaxed (hdmi : inno_hdmi) (val : Nat) (addr : Nat) : inno_hdmi :=
  { hdmi with regs := hdmi.regs ++ [io_event.write addr (val % 2 ^ 32)] }

/-- Function `hdmi_readb`: the load's value converted to `u8`. -/
def hdmi_readb (hw : hw_model) (hdmi : inno_hdmi) (offset : Nat) : Nat × inno_hdmi :=
  let r := readl_relaxed hw hdmi (offset * 0x04)
  (r.1 % 256, r.2)

/-- Function `hdmi_writeb`: `val` is a `u32`. -/
def hdmi_writeb (hdmi : inno_hdmi) (offset : Nat) (val : Nat) : inno_hdmi :=
  writel_relaxed hdmi val (offset * 0x04)

/-- Bitwise complement of a `u32`. -/
def not32 (x : Nat) : Nat := (2 ^ 32 - 1) ^^^ (x % 2 ^ 32)

/-- Function `hdmi_modb`: read-modify-write through a `u8` temporary. -/
def hdmi_modb (hw : hw_model) (hdmi : inno_hdmi) (offset msk val : Nat) : inno_hdmi :=
  let r := hdmi_readb hw hdmi offset
  let temp := (r.1 &&& not32 msk) % 256
  let temp := (temp ||| (val &&& msk)) % 256
  hdmi_writeb r.2 offset temp

/-- A busy-wait `while (!(rd() & 0x1)) ;` on a register read `rd`.  Each turn
performs one read; the loop is left after the first read with bit 0 set.  `none`:
the fuel is used up and the loop is still spinning. -/
def while_not_bit0 (rd : inno_hdmi → Nat × inno_hdmi) : Nat → inno_hdmi → Option inno_hdmi
  | 0, _ => none
  | fuel + 1, hdmi =>
    let r := rd hdmi
    if r.1 &&& 0x1 ≠ 0 then some r.2 else while_not_bit0 rd fuel r.2

/-! ## PHY power-up -/

/-- Function `inno_hdmi_power_up`; `none` while a lock poll is still spinning. -/
def inno_hdmi_power_up (hw : hw_model) (fuel : Nat) (hdmi : inno_hdmi) : Option inno_hdmi := do
  let r := readl_relaxed hw hdmi (0x1b0 * 0x04)
  let val := (r.1 % 256 ||| 0x4) % 256
  let hdmi := writel_relaxed r.2 val (0x1b0 * 0x04)
  let hdmi := writel_relaxed hdmi 0xf (0x1cc * 0x04)
  -- turn on pre-PLL
  let r := readl_relaxed hw hdmi (0x1a0 * 0x04)
  let val := (r.1 % 256 &&& not32 0x1) % 256
  let hdmi := writel_relaxed r.2 val (0x1a0 * 0x04)
  -- turn on post-PLL
  let r := readl_relaxed hw hdmi (0x1aa * 0x04)
  let val := (r.1 % 256 &&& not32 0x1) % 256
  let hdmi := writel_relaxed r.2 val (0x1aa * 0x04)
  let hdmi ← while_not_bit0 (fun h => readl_relaxed hw h (0x1a9 * 0x04)) fuel hdmi
  let hdmi ← while_not_bit0 (fun h => readl_relaxed hw h (0x1af * 0x04)) fuel hdmi
  -- turn on LDO
  let hdmi := writel_relaxed hdmi 0x7 (0x1b4 * 0x04)
  -- turn on serializer
  let hdmi := writel_relaxed hdmi 0x70 (0x1be * 0x04)
  pure hdmi

/-- Function `inno_hdmi_tx_phy_power_down`. -/
def inno_hdmi_tx_phy_power_down (hdmi : inno_hdmi) : inno_hdmi :=
  hdmi_writeb hdmi 0x00 0x63

/-! ## PLL programming -/

/-- Modelled from the spec: `reg_value_t` is declared in `inno_hdmi.h`, which is
not part of the sources at hand.  A register offset and the byte to write to it
(the register window's `write(offset, u8)`). -/
structure reg_value_t where
  reg : Nat
  value : Nat
  deriving DecidableEq, Repr

/-- An initialiser `{reg, value}` of a `reg_value_t`: the value is stored as a byte. -/
def reg_value (reg value : Nat) : reg_value_t := ⟨reg, value % 256⟩

/-- The local `u8 reg_1ad_value` of `inno_hdmi_config_pll`, after the VIC test. -/
def reg_1ad_value (post_cfg : post_pll_config) (vic : Int) : Nat :=
  let reg_1ad_value := (if post_cfg.post_div_en ≠ 0 then post_cfg.postdiv else 0x00) % 256
  if 1 = vic then 0x0d else reg_1ad_value

/-- The local `u8 reg_1aa_value` of `inno_hdmi_config_pll`. -/
def reg_1aa_value (post_cfg : post_pll_config) : Nat :=
  if post_cfg.post_div_en ≠ 0 then 0x0e else 0x02

/-- The array `cfg_pll_data` built by `inno_hdmi_config_pll` from the selected
rows and the VIC. -/
def cfg_pll_data (pre_cfg : pre_pll_config) (post_cfg : post_pll_config) (vic : Int) :
    List reg_value_t :=
  [ reg_value 0x1a0 0x01,
    reg_value 0x1aa 0x0f,
    reg_value 0x1a1 pre_cfg.prediv,
    reg_value 0x1a2 (0xf0 ||| pre_cfg.fbdiv >>> 8),
    reg_value 0x1a3 pre_cfg.fbdiv,
    reg_value 0x1a4 ((pre_cfg.tmds_div_a <<< 4) ||| (pre_cfg.tmds_div_b <<< 2) ||| pre_cfg.tmds_div_c),
    reg_value 0x1a5 ((pre_cfg.pclk_div_b <<< 5) ||| pre_cfg.pclk_div_a),
    reg_value 0x1a6 ((pre_cfg.pclk_div_c <<< 5) ||| pre_cfg.pclk_div_d),
    reg_value 0x1ab post_cfg.prediv,
    reg_value 0x1ac (post_cfg.fbdiv &&& 0xff),
    reg_value 0x1ad (reg_1ad_value post_cfg vic),
    reg_value 0x1aa (reg_1aa_value post_cfg),
    reg_value 0x1a0 0x00 ]

/-- The `for` loop over a `reg_value_t` array: one `hdmi_writeb` per entry, in order. -/
def write_reg_values (hdmi : inno_hdmi) : List reg_value_t → inno_hdmi
  | [] => hdmi
  | e :: rest => write_reg_values (hdmi_writeb hdmi e.reg e.value) rest

/-- The row `hdmi->pre_cfg` points at.  The caller has checked `IS_ERR`; for a
pointer that is no row the all-zero row stands in. -/
def pre_cfg_row (hdmi : inno_hdmi) : pre_pll_config :=
  match hdmi.pre_cfg with
  | some (.ok i) => pre_row i
  | _ => pre_pll_sentinel

/-- The row `hdmi->post_cfg` points at; for the null pointer the all-zero row
stands in. -/
def post_cfg_row (hdmi : inno_hdmi) : post_pll_config :=
  match hdmi.post_cfg with
  | some i => post_row i
  | none => post_pll_sentinel

/-- Function `inno_hdmi_config_pll`. -/
def inno_hdmi_config_pll (hdmi : inno_hdmi) : inno_hdmi :=
  write_reg_values hdmi (cfg_pll_data (pre_cfg_row hdmi) (post_cfg_row hdmi) hdmi.hdmi_data.vic)

/-- Function `inno_hdmi_tx_ctrl`: the VIC, an `int`, is passed as a `u32`. -/
def inno_hdmi_tx_ctrl (hdmi : inno_hdmi) : inno_hdmi :=
  let hdmi := hdmi_writeb hdmi 0x9f 0x06
  hdmi_writeb hdmi 0xa7 (hdmi.hdmi_data.vic % 2 ^ 32).toNat

/-- Function `inno_hdmi_tx_phy_power_on`. -/
def inno_hdmi_tx_phy_power_on (hdmi : inno_hdmi) : inno_hdmi :=
  write_reg_values hdmi [reg_value 0x00 0x61]

/-- Function `inno_hdmi_tmds_driver_on`. -/
def inno_hdmi_tmds_driver_on (hdmi : inno_hdmi) : inno_hdmi :=
  hdmi_writeb hdmi 0x1b2 0x8f

/-- Function `inno_hdmi_phy_clk_set_rate`: the returned `int` and the handle afterwards.
The `rate` argument is only logged; the rate used is `hdmi->tmds_rate`. -/
def inno_hdmi_phy_clk_set_rate (hdmi : inno_hdmi) (_rate : Nat) : Int × inno_hdmi :=
  let hdmi := { hdmi with post_cfg := some 0 }
  let tmdsclock := hdmi.tmds_rate
  let cfg := inno_hdmi_phy_get_pre_pll_cfg tmdsclock
  let hdmi := { hdmi with pre_cfg := some cfg }
  match cfg with
  | .error e => (e, hdmi)
  | .ok _ =>
    let hdmi := { hdmi with post_cfg := some (post_pll_scan tmdsclock post_pll_cfg_table 0) }
    let hdmi := inno_hdmi_config_pll hdmi
    (0, hdmi)

/-! ## Mode programming -/

/-- Result of 32-bit `int` arithmetic, two's complement (the kernel is built
with wrapping signed overflow). -/
def wrap_int (x : Int) : Int := (x + 2 ^ 31) % 2 ^ 32 - 2 ^ 31

/-- Conversion of an `int` to `unsigned long`, 64 bits wide on this SoC. -/
def int_to_ulong (x : Int) : Nat := (x % 2 ^ 64).toNat

/-- Function `inno_hdmi_setup`: the returned `int` and the handle afterwards, `none` while
a lock poll is still spinning.  `drm_match_cea_mode` is the DRM core's CEA lookup,
which returns a `u8`. -/
def inno_hdmi_setup (hw : hw_model) (drm_match_cea_mode : drm_display_mode → Nat)
    (fuel : Nat) (hdmi : inno_hdmi) (mode : drm_display_mode) : Option (Int × inno_hdmi) := do
  let r := readl_relaxed hw hdmi (0x1b0 * 0x04)
  let val := (r.1 % 256 ||| 0x4) % 256
  let hdmi := hdmi_writeb r.2 0x1b0 val
  let hdmi := hdmi_writeb hdmi 0x1cc 0xf
  let hdmi := { hdmi with hdmi_data := { hdmi.hdmi_data with vic := (drm_match_cea_mode mode % 256 : Nat) } }
  let hdmi := { hdmi with tmds_rate := int_to_ulong (wrap_int (mode.clock * 1000)) }
  let hdmi := (inno_hdmi_phy_clk_set_rate hdmi hdmi.tmds_rate).2
  let hdmi ← while_not_bit0 (fun h => hdmi_readb hw h 0x1a9) fuel hdmi
  let hdmi ← while_not_bit0 (fun h => hdmi_readb hw h 0x1af) fuel hdmi
  -- turn on LDO
  let hdmi := hdmi_writeb hdmi 0x1b4 0x7
  -- turn on serializer
  let hdmi := hdmi_writeb hdmi 0x1be 0x70
  let hdmi := inno_hdmi_tx_phy_power_down hdmi
  let hdmi := inno_hdmi_tx_ctrl hdmi
  let hdmi := hdmi_writeb hdmi 0x35 0x01
  let hdmi := hdmi_writeb hdmi 0x38 0x04
  let hdmi := hdmi_writeb hdmi 0x40 0x18
  let hdmi := hdmi_writeb hdmi 0x41 0x80
  let hdmi := inno_hdmi_tx_phy_power_on hdmi
  let hdmi := inno_hdmi_tmds_driver_on hdmi
  let hdmi := hdmi_writeb hdmi 0xce 0x0
  let hdmi := hdmi_writeb hdmi 0xce 0x1
  pure (0, hdmi)

/-- Function `inno_hdmi_encoder_mode_set`: the handle afterwards, `none` while a lock poll
of the set-up is still spinning.  The `memcpy` copies `adj_mode` whole. -/
def inno_hdmi_encoder_mode_set (hw : hw_model) (drm_match_cea_mode : drm_display_mode → Nat)
    (fuel : Nat) (hdmi : inno_hdmi) (_mode adj_mode : drm_display_mode) : Option inno_hdmi := do
  let r ← inno_hdmi_setup hw drm_match_cea_mode fuel hdmi adj_mode
  let hdmi := r.2
  -- Store the display mode for plugin/DPMS poweron events
  pure { hdmi with previous_mode := adj_mode }

/-! ## Reading the trace -/

/-- The stores of a trace, as (byte offset, value) pairs, oldest first. -/
def writes : List io_event → List (Nat × Nat)
  | [] => []
  | io_event.write a v :: t => (a, v) :: writes t
  | io_event.read _ _ :: t => writes t

/-- The values loaded from byte offset `addr`, oldest first. -/
def reads_of (addr : Nat) : List io_event → List Nat
  | [] => []
  | io_event.read a v :: t => if a = addr then v :: reads_of addr t else reads_of addr t
  | io_event.write _ _ :: t => reads_of addr t

/-- The values stored to byte offset `addr`, oldest first. -/
def writes_to (addr : Nat) : List io_event → List Nat
  | [] => []
  | io_event.write a v :: t => if a = addr then v :: writes_to addr t else writes_to addr t
  | io_event.read _ _ :: t => writes_to addr t

/-- The handle a zeroing allocation gives: every field zero, no access made yet. -/
def inno_hdmi_zero : inno_hdmi :=
  { regs := [], i2c := none, tmds_rate := 0,
    hdmi_data := ⟨0, false, false, 0, 0, 0⟩,
    previous_mode := ⟨0, 0, 0, 0, 0, 0, 0, 0, 0, 0, 0, 0⟩,
    pre_cfg := none, post_cfg := none }

/-- The accesses made between two states of the handle, the later one reached
from the earlier. -/
def new_events (before after : inno_hdmi) : List io_event :=
  after.regs.drop before.regs.length

/-- The register store `offset <- val` as it appears in the trace. -/
def reg_write (offset val : Nat) : io_event := io_event.write (offset * 0x04) val

/-- The request rounded to the nearest kHz, as the data model words the pre-PLL
selection (halves round up). -/
def nearest_khz (rate : Nat) : Nat := ((rate + 500) / 1000) * 1000

/-- Hardware whose every load returns 1: both lock bits read as set. -/
def hw_ones : hw_model := fun _ _ => 1

/-- Hardware whose every load returns 0: the lock bits never read as set. -/
def hw_zeros : hw_model := fun _ _ => 0

/-- A CEA lookup that knows 1080p60 (VIC 16) and 640x480p60 (VIC 1) by their
clock; every other mode gets 0. -/
def cea_by_clock (mode : drm_display_mode) : Nat :=
  if mode.clock = 148500 then 16 else if mode.clock = 25175 then 1 else 0

/-- A mode with the given pixel clock in kHz and 1920x1080 active size. -/
def mode_of_clock (clock : Int) : drm_display_mode :=
  ⟨clock, 1920, 2008, 2052, 2200, 0, 1080, 1084, 1089, 1125, 0, 0⟩

/-- The stores a `reg_value_t` array turns into. -/
def reg_value_events (l : List reg_value_t) : List io_event :=
  l.map (fun e => reg_write e.reg (e.value % 2 ^ 32))

/-- The read function `rd` is a load from byte offset `a`: it appends that load to the trace,
changes nothing else, and bit 0 of what it returns is bit 0 of the value loaded. -/
def is_read_of (hw : hw_model) (a : Nat) (rd : inno_hdmi → Nat × inno_hdmi) : Prop :=
  ∀ h, (rd h).2 = { h with regs := h.regs ++ [io_event.read a (hw h.regs a % 2 ^ 32)] } ∧
    (rd h).1 &&& 1 = hw h.regs a % 2

/-- Hardware on which bit 0 of every register reads as clear for the first `n`
loads of that register made after the trace `t0`, and as set from then on. -/
def hw_lock_after (t0 : List io_event) (n : Nat) : hw_model :=
  fun t a => if (reads_of a t0).length + n ≤ (reads_of a t).length then 1 else 0

/-- The part of `inno_hdmi_setup` that precedes the lock polls: the handle when
`inno_hdmi_phy_clk_set_rate` has returned. -/
def setup_prelude (hw : hw_model) (drm_match_cea_mode : drm_display_mode → Nat)
    (hdmi : inno_hdmi) (mode : drm_display_mode) : inno_hdmi :=
  let r := readl_relaxed hw hdmi (0x1b0 * 0x04)
  let val := (r.1 % 256 ||| 0x4) % 256
  let hdmi := hdmi_writeb r.2 0x1b0 val
  let hdmi := hdmi_writeb hdmi 0x1cc 0xf
  let hdmi := { hdmi with hdmi_data := { hdmi.hdmi_data with vic := (drm_match_cea_mode mode % 256 : Nat) } }
  let hdmi := { hdmi with tmds_rate := int_to_ulong (wrap_int (mode.clock * 1000)) }
  (inno_hdmi_phy_clk_set_rate hdmi hdmi.tmds_rate).2

/-- The part of `inno_hdmi_setup` that follows the lock polls. -/
def setup_tail (hdmi : inno_hdmi) : inno_hdmi :=
  let hdmi := hdmi_writeb hdmi 0x1b4 0x7
  let hdmi := hdmi_writeb hdmi 0x1be 0x70
  let hdmi := inno_hdmi_tx_phy_power_down hdmi
  let hdmi := inno_hdmi_tx_ctrl hdmi
  let hdmi := hdmi_writeb hdmi 0x35 0x01
  let hdmi := hdmi_writeb hdmi 0x38 0x04
  let hdmi := hdmi_writeb hdmi 0x40 0x18
  let hdmi := hdmi_writeb hdmi 0x41 0x80
  let hdmi := inno_hdmi_tx_phy_power_on hdmi
  let hdmi := inno_hdmi_tmds_driver_on hdmi
  let hdmi := hdmi_writeb hdmi 0xce 0x0
  hdmi_writeb hdmi 0xce 0x1

/-- The stores `setup_tail` makes, for the VIC held in the handle. -/
def setup_tail_events (vic : Int) : List io_event :=
  [ reg_write 0x1b4 0x7, reg_write 0x1be 0x70, reg_write 0x00 0x63,
    reg_write 0x9f 0x06, reg_write 0xa7 ((vic % 2 ^ 32).toNat % 2 ^ 32),
    reg_write 0x35 0x01, reg_write 0x38 0x04, reg_write 0x40 0x18, reg_write 0x41 0x80,
    reg_write 0x00 0x61, reg_write 0x1b2 0x8f, reg_write 0xce 0x0, reg_write 0xce 0x1 ]

/-- The accesses `power_up_prelude` makes when the trace so far is `t`: three
read-modify-write pairs and the store to 0x1cc. -/
def power_up_prelude_events (hw : hw_model) (t : List io_event) : List io_event :=
  let e1 := io_event.read (0x1b0 * 0x04) (hw t (0x1b0 * 0x04) % 2 ^ 32)
  let e2 := io_event.write (0x1b0 * 0x04) (((hw t (0x1b0 * 0x04) % 2 ^ 32) % 256 ||| 0x4) % 256 % 2 ^ 32)
  let e3 := io_event.write (0x1cc * 0x04) 0xf
  let t3 := t ++ [e1, e2, e3]
  let e4 := io_event.read (0x1a0 * 0x04) (hw t3 (0x1a0 * 0x04) % 2 ^ 32)
  let e5 := io_event.write (0x1a0 * 0x04)
    (((hw t3 (0x1a0 * 0x04) % 2 ^ 32) % 256 &&& not32 0x1) % 256 % 2 ^ 32)
  let t5 := t ++ [e1, e2, e3, e4, e5]
  let e6 := io_event.read (0x1aa * 0x04) (hw t5 (0x1aa * 0x04) % 2 ^ 32)
  let e7 := io_event.write (0x1aa * 0x04)
    (((hw t5 (0x1aa * 0x04) % 2 ^ 32) % 256 &&& not32 0x1) % 256 % 2 ^ 32)
  [e1, e2, e3, e4, e5, e6, e7]

/-- The part of `inno_hdmi_power_up` that precedes the lock polls. -/
def power_up_prelude (hw : hw_model) (hdmi : inno_hdmi) : inno_hdmi :=
  let r := readl_relaxed hw hdmi (0x1b0 * 0x04)
  let val := (r.1 % 256 ||| 0x4) % 256
  let hdmi := writel_relaxed r.2 val (0x1b0 * 0x04)
  let hdmi := writel_relaxed hdmi 0xf (0x1cc * 0x04)
  let r := readl_relaxed hw hdmi (0x1a0 * 0x04)
  let val := (r.1 % 256 &&& not32 0x1) % 256
  let hdmi := writel_relaxed r.2 val (0x1a0 * 0x04)
  let r := readl_relaxed hw hdmi (0x1aa * 0x04)
  let val := (r.1 % 256 &&& not32 0x1) % 256
  writel_relaxed r.2 val (0x1aa * 0x04)

/-- The part of `inno_hdmi_power_up` that follows the lock polls. -/
def power_up_tail (hdmi : inno_hdmi) : inno_hdmi :=
  let hdmi := writel_relaxed hdmi 0x7 (0x1b4 * 0x04)
  writel_relaxed hdmi 0x70 (0x1be * 0x04)

/-! ## Constants of the header, power mode, DDC master, interrupt handlers -/

/-- The register offsets, bit masks and bus addresses the driver takes from
`inno_hdmi.h` (and `DDC_ADDR` from the DRM EDID header), none of which is among
the sources at hand.  Every function that uses one takes them as this
parameter, field for macro. -/
structure inno_hdmi_h where
  HDMI_SYS_CTRL : Nat
  m_POWER : Nat
  v_PWR_ON : Nat
  v_PWR_OFF : Nat
  NORMAL : Int
  LOWER_PWR : Int
  DDC_ADDR : Nat
  DDC_SEGMENT_ADDR : Nat
  HDMI_SCL_RATE : Nat
  DDC_BUS_FREQ_L : Nat
  DDC_BUS_FREQ_H : Nat
  HDMI_EDID_SEGMENT_POINTER : Nat
  HDMI_EDID_WORD_ADDR : Nat
  HDMI_EDID_FIFO_OFFSET : Nat
  HDMI_EDID_FIFO_ADDR : Nat
  HDMI_INTERRUPT_MASK1 : Nat
  HDMI_INTERRUPT_STATUS1 : Nat
  m_INT_EDID_READY : Nat
  HDMI_STATUS : Nat
  m_HOTPLUG : Nat
  m_INT_HOTPLUG : Nat
  deriving DecidableEq, Repr

/-- One value for the header's constants, for closed instances: the two bus
addresses and the SCL rate are those the design names (0x50, 0x60, 100 kHz), the
rest is one consistent register map with all offsets distinct. -/
def sample_h : inno_hdmi_h :=
  { HDMI_SYS_CTRL := 0x00, m_POWER := 0x02, v_PWR_ON := 0x00, v_PWR_OFF := 0x02,
    NORMAL := 0, LOWER_PWR := 1,
    DDC_ADDR := 0x50, DDC_SEGMENT_ADDR := 0x60, HDMI_SCL_RATE := 100000,
    DDC_BUS_FREQ_L := 0x4b, DDC_BUS_FREQ_H := 0x4c,
    HDMI_EDID_SEGMENT_POINTER := 0x4d, HDMI_EDID_WORD_ADDR := 0x4e,
    HDMI_EDID_FIFO_OFFSET := 0x4f, HDMI_EDID_FIFO_ADDR := 0x50,
    HDMI_INTERRUPT_MASK1 := 0xc0, HDMI_INTERRUPT_STATUS1 := 0xc1, m_INT_EDID_READY := 0x04,
    HDMI_STATUS := 0xc8, m_HOTPLUG := 0x80, m_INT_HOTPLUG := 0x02 }

/-- The errno `EAGAIN` of the kernel's errno-base.h. -/
def EAGAIN : Int := 11

/-- The flag `I2C_M_RD` of the kernel's i2c.h: the message is a read. -/
def I2C_M_RD : Nat := 0x0001

/-- The two values of the DRM core's `enum drm_mode_status` the driver returns. -/
inductive drm_mode_status where
  | MODE_OK
  | MODE_BAD
  deriving DecidableEq, Repr

/-- The kernel's `struct i2c_msg`: `addr`, `flags` and `len` are 16-bit, `buf` is
the byte buffer `len` bytes long. -/
structure i2c_msg where
  addr : Nat
  flags : Nat
  len : Nat
  buf : List Nat
  deriving DecidableEq, Repr

/-- Function `inno_hdmi_i2c_init`.  The quotient is stored in an `int`. -/
def inno_hdmi_i2c_init (k : inno_hdmi_h) (hdmi : inno_hdmi) : inno_hdmi :=
  let ddc_bus_freq : Int := wrap_int (((hdmi.tmds_rate >>> 2) / k.HDMI_SCL_RATE : Nat) : Int)
  let hdmi := hdmi_writeb hdmi k.DDC_BUS_FREQ_L (ddc_bus_freq % 256).toNat
  let hdmi := hdmi_writeb hdmi k.DDC_BUS_FREQ_H ((ddc_bus_freq / 256) % 256).toNat
  -- Clear the EDID interrupt flag and mute the interrupt
  let hdmi := hdmi_writeb hdmi k.HDMI_INTERRUPT_MASK1 0
  hdmi_writeb hdmi k.HDMI_INTERRUPT_STATUS1 k.m_INT_EDID_READY

/-- Function `inno_hdmi_sys_power`. -/
def inno_hdmi_sys_power (hw : hw_model) (k : inno_hdmi_h) (hdmi : inno_hdmi) (enable : Bool) :
    inno_hdmi :=
  if enable then hdmi_modb hw hdmi k.HDMI_SYS_CTRL k.m_POWER k.v_PWR_ON
  else hdmi_modb hw hdmi k.HDMI_SYS_CTRL k.m_POWER k.v_PWR_OFF

/-- Function `inno_hdmi_set_pwr_mode`; the default case only logs. -/
def inno_hdmi_set_pwr_mode (hw : hw_model) (k : inno_hdmi_h) (hdmi : inno_hdmi) (mode : Int) :
    inno_hdmi :=
  if mode = k.NORMAL then inno_hdmi_sys_power hw k hdmi true
  else if mode = k.LOWER_PWR then inno_hdmi_sys_power hw k hdmi false
  else hdmi

/-- Function `inno_hdmi_connector_mode_valid`: the `u8` of the CEA lookup is
held in a `u32`. -/
def inno_hdmi_connector_mode_valid (drm_match_cea_mode : drm_display_mode → Nat)
    (mode : drm_display_mode) : drm_mode_status :=
  let vic := drm_match_cea_mode mode % 256
  if vic ≥ 1 then drm_mode_status.MODE_OK else drm_mode_status.MODE_BAD

/-- The kernel's `reinit_completion()`: no pending signal. -/
def reinit_completion (i2c : inno_hdmi_i2c) : inno_hdmi_i2c :=
  { i2c with cmp := 0 }

/-- The kernel's `wait_for_completion_timeout()` on the count of pending
signals: the value returned and the count afterwards.  A pending signal is
consumed at once.  With none pending, `signalled` says whether the interrupt
handler calls `complete()` before the timeout runs out; if not, 0 is returned.
The number of jiffies left, which the caller only tests against 0, is given
as 1. -/
def wait_for_completion_timeout (signalled : Bool) (done : Nat) : Nat × Nat :=
  if done ≠ 0 then (1, done - 1)
  else if signalled then (1, 0)
  else (0, 0)

/-- The loop `while (length--) *buf++ = hdmi_readb(hdmi, HDMI_EDID_FIFO_ADDR);`:
the bytes stored, in order, and the handle afterwards. -/
def fifo_drain (hw : hw_model) (k : inno_hdmi_h) : Nat → inno_hdmi → List Nat × inno_hdmi
  | 0, hdmi => ([], hdmi)
  | length + 1, hdmi =>
    let r := hdmi_readb hw hdmi k.HDMI_EDID_FIFO_ADDR
    let rest := fifo_drain hw k length r.2
    (r.1 :: rest.1, rest.2)

/-- Function `inno_hdmi_i2c_read`: the value returned, the handle and the message
(with its buffer) afterwards; `none` stands for the dereference of a null
`hdmi->i2c`.  The oracle `irq` says, from the accesses made so far, whether the
EDID-ready interrupt signals the completion before a wait begun now times out. -/
def inno_hdmi_i2c_read (hw : hw_model) (irq : List io_event → Bool) (k : inno_hdmi_h)
    (hdmi : inno_hdmi) (msgs : i2c_msg) : Option (Int × inno_hdmi × i2c_msg) :=
  let length := msgs.len
  match hdmi.i2c with
  | none => none
  | some i2c =>
    let w := wait_for_completion_timeout (irq hdmi.regs) i2c.cmp
    let hdmi := { hdmi with i2c := some { i2c with cmp := w.2 } }
    let ret := w.1
    if ret = 0 then some (-EAGAIN, hdmi, msgs)
    else
      let d := fifo_drain hw k length hdmi
      some (0, d.2, { msgs with buf := d.1 ++ msgs.buf.drop length })

/-- Function `inno_hdmi_i2c_write`: the value returned and the handle afterwards;
`none` stands for the dereference of a null `hdmi->i2c`. -/
def inno_hdmi_i2c_write (k : inno_hdmi_h) (hdmi : inno_hdmi) (msgs : i2c_msg) :
    Option (Int × inno_hdmi) :=
  if msgs.len ≠ 1 ∨ (msgs.addr ≠ k.DDC_ADDR ∧ msgs.addr ≠ k.DDC_SEGMENT_ADDR) then
    some (-EINVAL, hdmi)
  else
    match hdmi.i2c with
    | none => none
    | some i2c =>
      let i2c := reinit_completion i2c
      let i2c := if msgs.addr = k.DDC_SEGMENT_ADDR then
        { i2c with segment_addr := msgs.buf.getD 0 0 % 256 } else i2c
      let i2c := if msgs.addr = k.DDC_ADDR then
        { i2c with ddc_addr := msgs.buf.getD 0 0 % 256 } else i2c
      let hdmi := { hdmi with i2c := some i2c }
      -- Set edid fifo first addr
      let hdmi := hdmi_writeb hdmi k.HDMI_EDID_FIFO_OFFSET 0x00
      -- Set edid word address 0x00/0x80
      let hdmi := hdmi_writeb hdmi k.HDMI_EDID_WORD_ADDR i2c.ddc_addr
      -- Set edid segment pointer
      let hdmi := hdmi_writeb hdmi k.HDMI_EDID_SEGMENT_POINTER i2c.segment_addr
      some (0, hdmi)

/-- The `for` loop of `inno_hdmi_i2c_xfer` over the messages still to process,
entered with the current `ret`: the final `ret`, the handle and the messages
afterwards.  A negative `ret` leaves the loop. -/
def xfer_loop (hw : hw_model) (irq : List io_event → Bool) (k : inno_hdmi_h) :
    List i2c_msg → Int → inno_hdmi → Option (Int × inno_hdmi × List i2c_msg)
  | [], ret, hdmi => some (ret, hdmi, [])
  | m :: rest, _, hdmi =>
    if m.flags &&& I2C_M_RD ≠ 0 then
      match inno_hdmi_i2c_read hw irq k hdmi m with
      | none => none
      | some r =>
        if r.1 < 0 then some (r.1, r.2.1, r.2.2 :: rest)
        else
          match xfer_loop hw irq k rest r.1 r.2.1 with
          | none => none
          | some t => some (t.1, t.2.1, r.2.2 :: t.2.2)
    else
      match inno_hdmi_i2c_write k hdmi m with
      | none => none
      | some r =>
        if r.1 < 0 then some (r.1, r.2, m :: rest)
        else
          match xfer_loop hw irq k rest r.1 r.2 with
          | none => none
          | some t => some (t.1, t.2.1, m :: t.2.2)

/-- Function `inno_hdmi_i2c_xfer` on the message array `msgs`, `num` being its
length: the value returned, the handle and the messages afterwards.  `none`
stands for a null `hdmi->i2c`, or for `mutex_lock` blocking on a lock that is
held. -/
def inno_hdmi_i2c_xfer (hw : hw_model) (irq : List io_event → Bool) (k : inno_hdmi_h)
    (hdmi : inno_hdmi) (msgs : List i2c_msg) : Option (Int × inno_hdmi × List i2c_msg) :=
  match hdmi.i2c with
  | none => none
  | some i2c =>
    if i2c.lock then none
    else
      let hdmi := { hdmi with i2c := some { i2c with lock := true } }
      -- Clear the EDID interrupt flag and unmute the interrupt
      let hdmi := hdmi_writeb hdmi k.HDMI_INTERRUPT_MASK1 k.m_INT_EDID_READY
      let hdmi := hdmi_writeb hdmi k.HDMI_INTERRUPT_STATUS1 k.m_INT_EDID_READY
      match xfer_loop hw irq k msgs 0 hdmi with
      | none => none
      | some r =>
        let ret := if r.1 = 0 then (msgs.length : Int) else r.1
        -- Mute HDMI EDID interrupt
        let hdmi := hdmi_writeb r.2.1 k.HDMI_INTERRUPT_MASK1 0
        let hdmi := { hdmi with i2c := hdmi.i2c.map (fun c => { c with lock := false }) }
        some (ret, hdmi, r.2.2)

/-- The register file behind the window: the word at each byte offset, from the
initial content `init` and the stores of a trace, the latest store winning. -/
def regfile (init : Nat → Nat) : List io_event → Nat → Nat
  | [], a => init a
  | io_event.write b v :: t, a => regfile (fun x => if x = b then v else init x) t a
  | io_event.read _ _ :: t, a => regfile init t a

/-- Hardware that is a plain register file: a load returns the word last stored
at that offset, or the initial content. -/
def hw_regfile (init : Nat → Nat) : hw_model := fun t a => regfile init t a

/-- A handle with a DDC adapter: the zeroed handle with `hdmi->i2c` allocated,
the lock free and `done` pending completion signals. -/
def inno_hdmi_with_i2c (done : Nat) : inno_hdmi :=
  { inno_hdmi_zero with i2c := some ⟨0, 0, false, done⟩ }

/-- An interrupt oracle: the EDID-ready interrupt never arrives in time. -/
def irq_never : List io_event → Bool := fun _ => false

/-- An interrupt oracle: the EDID-ready interrupt always arrives in time. -/
def irq_always : List io_event → Bool := fun _ => true

/-- The CEA-861 timing of VIC 14, 1440x480p at 60 Hz with a 54 MHz pixel clock. -/
def mode_1440x480p60 : drm_display_mode :=
  ⟨54000, 1440, 1472, 1596, 1716, 0, 480, 489, 495, 525, 0, 0⟩

/-- A CEA lookup that knows, by their clock, VIC 16 (148.5 MHz), VIC 1
(25.175 MHz) and VIC 14 (54 MHz); every other mode gets 0. -/
def cea_with_vic14 (mode : drm_display_mode) : Nat :=
  if mode.clock = 148500 then 16 else if mode.clock = 25175 then 1
  else if mode.clock = 54000 then 14 else 0

/-- The adapter state after the first half of an accepted
`inno_hdmi_i2c_write`: completion reset, payload byte latched by address. -/
def i2c_latch (k : inno_hdmi_h) (i2c : inno_hdmi_i2c) (msgs : i2c_msg) : inno_hdmi_i2c :=
  let i2c := reinit_completion i2c
  let i2c := if msgs.addr = k.DDC_SEGMENT_ADDR then
    { i2c with segment_addr := msgs.buf.getD 0 0 % 256 } else i2c
  if msgs.addr = k.DDC_ADDR then
    { i2c with ddc_addr := msgs.buf.getD 0 0 % 256 } else i2c

/-- The fifteen rates, in Hz, that are both the pixclock and the tmdsclock of a
row of `pre_pll_cfg_table`. -/
def supported_rates : List Nat :=
  [25175000, 25200000, 27000000, 27027000, 40000000, 59341000, 59400000, 74176000,
   74250000, 148352000, 148500000, 296703000, 297000000, 593407000, 594000000]

/-- The byte `hdmi_modb` stores when the byte it read is `x`: the bits of `val`
under the mask, the bits of `x` elsewhere. -/
def modb_byte (x msk val : Nat) : Nat :=
  ((x &&& not32 msk) % 256 ||| (val &&& msk)) % 256

/-! ## Bind, the stand-alone bring-up, and the transfer's loop body -/

/-- The loop `for (...) writel_relaxed(cfg_pll_data[i].value, hdmi->regs + (cfg_pll_data[i].reg) * 0x04);`
over a `reg_value_t` array. -/
def writel_reg_values (hdmi : inno_hdmi) : List reg_value_t → inno_hdmi
  | [] => hdmi
  | e :: rest => writel_reg_values (writel_relaxed hdmi e.value (e.reg * 0x04)) rest

/-- Function `inno_hdmi_config_1920x1080p60`: the thirteen fixed stores. -/
def inno_hdmi_config_1920x1080p60 (hdmi : inno_hdmi) : inno_hdmi :=
  writel_reg_values hdmi
    [ reg_value 0x1a0 0x01,
      reg_value 0x1aa 0x0f,
      reg_value 0x1a1 0x01,
      reg_value 0x1a2 0xf0,
      reg_value 0x1a3 0x63,
      reg_value 0x1a4 0x15,
      reg_value 0x1a5 0x41,
      reg_value 0x1a6 0x42,
      reg_value 0x1ab 0x01,
      reg_value 0x1ac 0x0a,
      reg_value 0x1ad 0x00,
      reg_value 0x1aa 0x0e,
      reg_value 0x1a0 0x00 ]

/-- Function `inno_hdmi_tx_phy_param_config`. -/
def inno_hdmi_tx_phy_param_config (hdmi : inno_hdmi) : inno_hdmi :=
  let hdmi := inno_hdmi_config_1920x1080p60 hdmi
  inno_hdmi_tx_ctrl hdmi

/-- Function `inno_hdmi_init`, the stand-alone bring-up; `none` while a lock poll of
the power-up is still spinning. -/
def inno_hdmi_init (hw : hw_model) (fuel : Nat) (hdmi : inno_hdmi) : Option inno_hdmi :=
  match inno_hdmi_power_up hw fuel hdmi with
  | none => none
  | some hdmi =>
    let hdmi := inno_hdmi_tx_phy_power_down hdmi
    let hdmi := inno_hdmi_tx_phy_param_config hdmi
    let hdmi := inno_hdmi_tx_phy_power_on hdmi
    let hdmi := inno_hdmi_tmds_driver_on hdmi
    let hdmi := writel_relaxed hdmi 0x0 (0xce * 0x04)
    some (writel_relaxed hdmi 0x1 (0xce * 0x04))

/-- Further masks and values of `inno_hdmi.h`, used by `inno_hdmi_reset` and by
the hotplug unmask of `inno_hdmi_bind`; like `inno_hdmi_h`, a parameter.
`v_MASK_INT_HOTPLUG` is a macro with one argument. -/
structure inno_hdmi_h_reset where
  m_INT_POL : Nat
  v_INT_POL_HIGH : Nat
  m_RST_DIGITAL : Nat
  v_NOT_RST_DIGITAL : Nat
  m_RST_ANALOG : Nat
  v_NOT_RST_ANALOG : Nat
  m_MASK_INT_HOTPLUG : Nat
  v_MASK_INT_HOTPLUG : Nat → Nat

/-- One value for these constants, for closed instances. -/
def sample_h_reset : inno_hdmi_h_reset :=
  { m_INT_POL := 0x01, v_INT_POL_HIGH := 0x01,
    m_RST_DIGITAL := 0x20, v_NOT_RST_DIGITAL := 0x20,
    m_RST_ANALOG := 0x40, v_NOT_RST_ANALOG := 0x40,
    m_MASK_INT_HOTPLUG := 0x20, v_MASK_INT_HOTPLUG := fun n => (n &&& 0x1) <<< 5 }

/-- Function `inno_hdmi_reset`; the two `udelay` calls have no effect on the state. -/
def inno_hdmi_reset (hw : hw_model) (k : inno_hdmi_h) (kr : inno_hdmi_h_reset)
    (hdmi : inno_hdmi) : inno_hdmi :=
  let msk := kr.m_INT_POL
  let val := kr.v_INT_POL_HIGH
  let hdmi := hdmi_modb hw hdmi k.HDMI_SYS_CTRL msk val
  let hdmi := hdmi_modb hw hdmi k.HDMI_SYS_CTRL kr.m_RST_DIGITAL kr.v_NOT_RST_DIGITAL
  let hdmi := hdmi_modb hw hdmi k.HDMI_SYS_CTRL kr.m_RST_ANALOG kr.v_NOT_RST_ANALOG
  inno_hdmi_set_pwr_mode hw k hdmi k.NORMAL

/-- The errno `ENOMEM` of the kernel's errno-base.h. -/
def ENOMEM : Int := 12

/-- The errno `ENXIO` of the kernel's errno-base.h. -/
def ENXIO : Int := 6

/-- The kernel-internal errno `EPROBE_DEFER`. -/
def EPROBE_DEFER : Int := 517

/-- A pointer a kernel getter hands back: NULL, an error pointer carrying a
negative errno, or a valid object. -/
inductive kptr where
  | null
  | err (e : Int)
  | valid
  deriving DecidableEq, Repr

/-- The kernel's `ERR_PTR`. -/
def ERR_PTR (e : Int) : kptr := if e = 0 then kptr.null else kptr.err e

/-- The kernel's `IS_ERR`: the pointer lies in the last 4095 addresses. -/
def IS_ERR : kptr → Bool
  | kptr.err e => decide (-4095 ≤ e ∧ e < 0)
  | _ => false

/-- The kernel's `PTR_ERR`, which the driver applies to error pointers only. -/
def PTR_ERR : kptr → Int
  | kptr.err e => e
  | _ => 0

/-- The two supplies of the transmitter. -/
inductive regulator_id where
  | hdmi_1p8
  | hdmi_0p9
  deriving DecidableEq, Repr

/-- The three clocks of the transmitter. -/
inductive clk_id where
  | sys_clk
  | mclk
  | bclk
  deriving DecidableEq, Repr

/-- A call into the regulator, clock, reset, I2C, DRM or interrupt core that
took effect there. -/
inductive res_event where
  | regulator_enable (r : regulator_id)
  | regulator_disable (r : regulator_id)
  | clk_prepare_enable (c : clk_id)
  | clk_disable_unprepare (c : clk_id)
  | reset_control_deassert
  | reset_control_assert
  | i2c_add_adapter
  | i2c_put_adapter
  | drm_simple_encoder_init
  | drm_connector_init_with_ddc
  | connector_destroy
  | encoder_destroy
  | devm_request_threaded_irq
  deriving DecidableEq, Repr

/-- What the kernel answers to the calls `inno_hdmi_bind` makes: the pointer or
the `int` each returns (an allocation: whether it succeeds). -/
structure bind_env where
  devm_kzalloc_hdmi : Bool
  devm_ioremap_resource : kptr
  devm_regulator_get : regulator_id → kptr
  regulator_enable : regulator_id → Int
  devm_clk_get : clk_id → kptr
  reset_control_get_exclusive : kptr
  clk_prepare_enable : clk_id → Int
  reset_control_deassert : Int
  platform_get_irq : Int
  devm_kzalloc_i2c : Bool
  i2c_add_adapter : Int
  drm_of_find_possible_crtcs : Nat
  devm_request_threaded_irq : Int

/-- The device as `inno_hdmi_bind` builds it: the handle, the resource pointers
of `struct inno_hdmi` that `inno_hdmi` leaves out, and the calls that took effect
in the kernel so far, oldest first. -/
structure inno_hdmi_dev where
  hdmi : inno_hdmi
  sys_clk : kptr
  mclk : kptr
  bclk : kptr
  tx_rst : kptr
  hdmi_1p8 : kptr
  hdmi_0p9 : kptr
  ddc : kptr
  calls : List res_event
  deriving DecidableEq

/-- The device a zeroing allocation gives: the zeroed handle, every pointer NULL,
no call made. -/
def inno_hdmi_dev_zero : inno_hdmi_dev :=
  { hdmi := inno_hdmi_zero, sys_clk := kptr.null, mclk := kptr.null, bclk := kptr.null,
    tx_rst := kptr.null, hdmi_1p8 := kptr.null, hdmi_0p9 := kptr.null, ddc := kptr.null,
    calls := [] }

/-- The call `regulator_enable(...)` on a valid regulator: the value returned, and the
supply switched on when that is 0. -/
def regulator_enable (env : bind_env) (r : regulator_id) (s : inno_hdmi_dev) :
    Int × inno_hdmi_dev :=
  let ret := env.regulator_enable r
  if ret = 0 then (ret, { s with calls := s.calls ++ [res_event.regulator_enable r] })
  else (ret, s)

/-- The call `regulator_disable(...)`. -/
def regulator_disable (r : regulator_id) (s : inno_hdmi_dev) : inno_hdmi_dev :=
  { s with calls := s.calls ++ [res_event.regulator_disable r] }

/-- The kernel's `clk_prepare_enable(clk)`: for a NULL clock it returns 0 and does
nothing; an error pointer is dereferenced, which is `none`; for a valid clock
the value returned, and the clock switched on when that is 0. -/
def clk_prepare_enable (env : bind_env) (c : clk_id) (clk : kptr) (s : inno_hdmi_dev) :
    Option (Int × inno_hdmi_dev) :=
  match clk with
  | kptr.null => some (0, s)
  | kptr.err _ => none
  | kptr.valid =>
    let ret := env.clk_prepare_enable c
    if ret = 0 then some (ret, { s with calls := s.calls ++ [res_event.clk_prepare_enable c] })
    else some (ret, s)

/-- The kernel's `reset_control_deassert(rstc)`: 0 for a NULL control, `-EINVAL` for
an error pointer; for a valid control the value returned, and the reset
released when that is 0. -/
def reset_control_deassert (env : bind_env) (rstc : kptr) (s : inno_hdmi_dev) :
    Int × inno_hdmi_dev :=
  match rstc with
  | kptr.null => (0, s)
  | kptr.err _ => (-EINVAL, s)
  | kptr.valid =>
    let ret := env.reset_control_deassert
    if ret = 0 then (ret, { s with calls := s.calls ++ [res_event.reset_control_deassert] })
    else (ret, s)

/-- Function `inno_hdmi_get_clk_rst`. -/
def inno_hdmi_get_clk_rst (env : bind_env) (s : inno_hdmi_dev) : Int × inno_hdmi_dev :=
  let s := { s with sys_clk := env.devm_clk_get clk_id.sys_clk }
  if IS_ERR s.sys_clk then (PTR_ERR s.sys_clk, s)
  else
    let s := { s with mclk := env.devm_clk_get clk_id.mclk }
    if IS_ERR s.mclk then (PTR_ERR s.mclk, s)
    else
      let s := { s with bclk := env.devm_clk_get clk_id.bclk }
      if IS_ERR s.bclk then (PTR_ERR s.bclk, s)
      else
        let s := { s with tx_rst := env.reset_control_get_exclusive }
        if IS_ERR s.tx_rst then (PTR_ERR s.tx_rst, s)
        else (0, s)

/-- Function `inno_hdmi_en_clk_deas_rst`. -/
def inno_hdmi_en_clk_deas_rst (env : bind_env) (s : inno_hdmi_dev) :
    Option (Int × inno_hdmi_dev) :=
  match clk_prepare_enable env clk_id.sys_clk s.sys_clk s with
  | none => none
  | some r =>
    if r.1 ≠ 0 then some (r.1, r.2)
    else
      match clk_prepare_enable env clk_id.mclk r.2.mclk r.2 with
      | none => none
      | some r =>
        if r.1 ≠ 0 then some (r.1, r.2)
        else
          match clk_prepare_enable env clk_id.bclk r.2.bclk r.2 with
          | none => none
          | some r =>
            if r.1 ≠ 0 then some (r.1, r.2)
            else
              let r := reset_control_deassert env r.2.tx_rst r.2
              if r.1 < 0 then some (r.1, r.2)
              else some (r.1, r.2)

/-- Function `inno_hdmi_i2c_adapter`: the pointer returned and the device afterwards.
The adapter structure is allocated zeroed: both latched bytes 0, the mutex
free, the completion without a pending signal. -/
def inno_hdmi_i2c_adapter (env : bind_env) (s : inno_hdmi_dev) : kptr × inno_hdmi_dev :=
  if ¬ env.devm_kzalloc_i2c then (ERR_PTR (-ENOMEM), s)
  else
    let i2c : inno_hdmi_i2c := ⟨0, 0, false, 0⟩
    let ret := env.i2c_add_adapter
    if ret ≠ 0 then (ERR_PTR ret, s)
    else
      (kptr.valid,
        { s with
            hdmi := { s.hdmi with i2c := some i2c }
            calls := s.calls ++ [res_event.i2c_add_adapter] })

/-- Function `inno_hdmi_register`. -/
def inno_hdmi_register (env : bind_env) (s : inno_hdmi_dev) : Int × inno_hdmi_dev :=
  let possible_crtcs := env.drm_of_find_possible_crtcs
  if possible_crtcs = 0 then (-EPROBE_DEFER, s)
  else
    (0, { s with calls := s.calls ++
      [res_event.drm_simple_encoder_init, res_event.drm_connector_init_with_ddc] })

/-- The label `err_reg_1p8` of `inno_hdmi_bind`: `return ret;`. -/
def bind_err_reg_1p8 (s : inno_hdmi_dev) (ret : Int) : Int × inno_hdmi_dev :=
  (ret, s)

/-- The label `err_reg_0p9` of `inno_hdmi_bind`: `regulator_disable(hdmi->hdmi_1p8);`, then
on to `err_reg_1p8`. -/
def bind_err_reg_0p9 (s : inno_hdmi_dev) (ret : Int) : Int × inno_hdmi_dev :=
  bind_err_reg_1p8 (regulator_disable regulator_id.hdmi_1p8 s) ret

/-- The label `err_disable_clk` of `inno_hdmi_bind`: its one statement,
`//clk_disable_unprepare(hdmi->pclk);`, is commented out; on to `err_reg_0p9`. -/
def bind_err_disable_clk (s : inno_hdmi_dev) (ret : Int) : Int × inno_hdmi_dev :=
  bind_err_reg_0p9 s ret

/-- The label `err_put_adapter` of `inno_hdmi_bind`: `i2c_put_adapter(hdmi->ddc);`, then on
to `err_disable_clk`. -/
def bind_err_put_adapter (s : inno_hdmi_dev) (ret : Int) : Int × inno_hdmi_dev :=
  bind_err_disable_clk { s with calls := s.calls ++ [res_event.i2c_put_adapter] } ret

/-- The label `err_cleanup_hdmi` of `inno_hdmi_bind`: connector and encoder are
destroyed, then on to `err_put_adapter`. -/
def bind_err_cleanup_hdmi (s : inno_hdmi_dev) (ret : Int) : Int × inno_hdmi_dev :=
  bind_err_put_adapter
    { s with calls := s.calls ++ [res_event.connector_destroy, res_event.encoder_destroy] } ret

/-- Function `inno_hdmi_bind`: the value returned and the device afterwards.
`CONFIG_DRM_I2C_NXP_TDA998X` is the build option that guards the stand-alone
bring-up.  `none`: a lock poll of that bring-up is still spinning, or an error
pointer was dereferenced. -/
def inno_hdmi_bind (hw : hw_model) (k : inno_hdmi_h) (kr : inno_hdmi_h_reset)
    (CONFIG_DRM_I2C_NXP_TDA998X : Bool) (env : bind_env) (fuel : Nat) :
    Option (Int × inno_hdmi_dev) :=
  if ¬ env.devm_kzalloc_hdmi then some (-ENOMEM, inno_hdmi_dev_zero)
  else
    let s := inno_hdmi_dev_zero
    let regs := env.devm_ioremap_resource
    if IS_ERR regs then some (PTR_ERR regs, s)
    else
      let s := { s with hdmi_1p8 := env.devm_regulator_get regulator_id.hdmi_1p8 }
      if IS_ERR s.hdmi_1p8 then some (PTR_ERR s.hdmi_1p8, s)
      else
        let s := { s with hdmi_0p9 := env.devm_regulator_get regulator_id.hdmi_0p9 }
        if IS_ERR s.hdmi_0p9 then some (PTR_ERR s.hdmi_0p9, s)
        else
          -- pmic turn on
          let r := regulator_enable env regulator_id.hdmi_1p8 s
          if r.1 ≠ 0 then some (bind_err_reg_1p8 r.2 r.1)
          else
            let r := regulator_enable env regulator_id.hdmi_0p9 r.2
            if r.1 ≠ 0 then some (bind_err_reg_0p9 r.2 r.1)
            else
              let r := inno_hdmi_get_clk_rst env r.2
              match inno_hdmi_en_clk_deas_rst env r.2 with
              | none => none
              | some r =>
                let s := r.2
                let irq := env.platform_get_irq
                if irq < 0 then some (bind_err_disable_clk s irq)
                else
                  match (if CONFIG_DRM_I2C_NXP_TDA998X then
                      inno_hdmi_init hw fuel
                        { s.hdmi with hdmi_data := { s.hdmi.hdmi_data with vic := 0x10 } }
                    else some s.hdmi) with
                  | none => none
                  | some h =>
                    let s := { s with hdmi := inno_hdmi_reset hw k kr h }
                    let a := inno_hdmi_i2c_adapter env s
                    let s := { a.2 with ddc := a.1 }
                    if IS_ERR s.ddc then
                      some (bind_err_disable_clk { s with ddc := kptr.null } (PTR_ERR s.ddc))
                    else
                      let s := { s with hdmi := { s.hdmi with tmds_rate := 51200000 } }
                      let s := { s with hdmi := inno_hdmi_i2c_init k s.hdmi }
                      let r := inno_hdmi_register env s
                      if r.1 ≠ 0 then some (bind_err_put_adapter r.2 r.1)
                      else
                        let s := r.2
                        -- Unmute hotplug interrupt
                        let s := { s with
                          hdmi := hdmi_modb hw s.hdmi k.HDMI_STATUS kr.m_MASK_INT_HOTPLUG
                            (kr.v_MASK_INT_HOTPLUG 1) }
                        let ret := env.devm_request_threaded_irq
                        if ret < 0 then some (bind_err_cleanup_hdmi s ret)
                        else
                          some (0, { s with
                            calls := s.calls ++ [res_event.devm_request_threaded_irq] })

/-- Function `inno_hdmi_unbind`, in the calls it makes on the device `inno_hdmi_bind`
left. -/
def inno_hdmi_unbind (s : inno_hdmi_dev) : inno_hdmi_dev :=
  { s with calls := s.calls ++
      [ res_event.connector_destroy, res_event.encoder_destroy, res_event.i2c_put_adapter,
        res_event.reset_control_assert,
        res_event.clk_disable_unprepare clk_id.sys_clk,
        res_event.clk_disable_unprepare clk_id.mclk,
        res_event.clk_disable_unprepare clk_id.bclk,
        res_event.regulator_disable regulator_id.hdmi_1p8,
        res_event.regulator_disable regulator_id.hdmi_0p9 ] }

/-- How often a supply is enabled, net of the disables, after the calls. -/
def regulator_count (r : regulator_id) : List res_event → Int
  | [] => 0
  | res_event.regulator_enable x :: t =>
    (if x = r then 1 else 0) + regulator_count r t
  | res_event.regulator_disable x :: t =>
    (if x = r then -1 else 0) + regulator_count r t
  | _ :: t => regulator_count r t

/-- How often a clock is enabled, net of the disables, after the calls. -/
def clk_count (c : clk_id) : List res_event → Int
  | [] => 0
  | res_event.clk_prepare_enable x :: t => (if x = c then 1 else 0) + clk_count c t
  | res_event.clk_disable_unprepare x :: t => (if x = c then -1 else 0) + clk_count c t
  | _ :: t => clk_count c t

/-- A kernel in which every call of `inno_hdmi_bind` succeeds; the interrupt is
number 9 and one CRTC is possible. -/
def env_ok : bind_env :=
  { devm_kzalloc_hdmi := true, devm_ioremap_resource := kptr.valid,
    devm_regulator_get := fun _ => kptr.valid, regulator_enable := fun _ => 0,
    devm_clk_get := fun _ => kptr.valid, reset_control_get_exclusive := kptr.valid,
    clk_prepare_enable := fun _ => 0, reset_control_deassert := 0,
    platform_get_irq := 9, devm_kzalloc_i2c := true, i2c_add_adapter := 0,
    drm_of_find_possible_crtcs := 1, devm_request_threaded_irq := 0 }

/-- The body of the `for` loop of `inno_hdmi_i2c_xfer` for one message: the read
or the write, by the message's `I2C_M_RD` flag; the value returned, the handle
and the message afterwards. -/
def xfer_msg (hw : hw_model) (irq : List io_event → Bool) (k : inno_hdmi_h)
    (hdmi : inno_hdmi) (m : i2c_msg) : Option (Int × inno_hdmi × i2c_msg) :=
  if m.flags &&& I2C_M_RD ≠ 0 then inno_hdmi_i2c_read hw irq k hdmi m
  else (inno_hdmi_i2c_write k hdmi m).map (fun r => (r.1, r.2, m))

/-- Every message of the list succeeds, each processed on the handle its
predecessor left: the handle after the last one; `none` as soon as one message
does not return 0. -/
def run_ok (hw : hw_model) (irq : List io_event → Bool) (k : inno_hdmi_h) :
    List i2c_msg → inno_hdmi → Option inno_hdmi
  | [], hdmi => some hdmi
  | m :: rest, hdmi =>
    match xfer_msg hw irq k hdmi m with
    | none => none
    | some r => if r.1 = 0 then run_ok hw irq k rest r.2.1 else none

/-- The handle when `inno_hdmi_i2c_xfer` enters its loop: the lock taken, the EDID
interrupt unmasked and cleared. -/
def xfer_open (k : inno_hdmi_h) (hdmi : inno_hdmi) (c : inno_hdmi_i2c) : inno_hdmi :=
  let hdmi := { hdmi with i2c := some { c with lock := true } }
  let hdmi := hdmi_writeb hdmi k.HDMI_INTERRUPT_MASK1 k.m_INT_EDID_READY
  hdmi_writeb hdmi k.HDMI_INTERRUPT_STATUS1 k.m_INT_EDID_READY

/-- The statements of `inno_hdmi_i2c_xfer` that follow its loop: the EDID interrupt
masked, the lock released. -/
def xfer_close (k : inno_hdmi_h) (hdmi : inno_hdmi) : inno_hdmi :=
  let hdmi := hdmi_writeb hdmi k.HDMI_INTERRUPT_MASK1 0
  { hdmi with i2c := hdmi.i2c.map (fun c => { c with lock := false }) }

/-- The thirteen stores of `inno_hdmi_config_pll` for a pre-PLL row, a post-PLL
row and a VIC, as (byte offset, value) pairs in program order. -/
def pll_writes (p : pre_pll_config) (q : post_pll_config) (vic : Int) : List (Nat × Nat) :=
  [ (0x1a0 * 0x04, 0x01),
    (0x1aa * 0x04, 0x0f),
    (0x1a1 * 0x04, p.prediv),
    (0x1a2 * 0x04, 0xf0 ||| p.fbdiv >>> 8),
    (0x1a3 * 0x04, p.fbdiv),
    (0x1a4 * 0x04, (p.tmds_div_a <<< 4) ||| (p.tmds_div_b <<< 2) ||| p.tmds_div_c),
    (0x1a5 * 0x04, (p.pclk_div_b <<< 5) ||| p.pclk_div_a),
    (0x1a6 * 0x04, (p.pclk_div_c <<< 5) ||| p.pclk_div_d),
    (0x1ab * 0x04, q.prediv),
    (0x1ac * 0x04, q.fbdiv &&& 0xff),
    (0x1ad * 0x04, if vic = 1 then 0x0d else if q.post_div_en ≠ 0 then q.postdiv else 0),
    (0x1aa * 0x04, if q.post_div_en ≠ 0 then 0x0e else 0x02),
    (0x1a0 * 0x04, 0x00) ]

/-- The closing stores of `inno_hdmi_setup`, after the lock polls, as (byte
offset, value) pairs in program order. -/
def setup_tail_writes (vic : Nat) : List (Nat × Nat) :=
  [ (0x1b4 * 0x04, 0x07), (0x1be * 0x04, 0x70), (0x00 * 0x04, 0x63), (0x9f * 0x04, 0x06),
    (0xa7 * 0x04, vic), (0x35 * 0x04, 0x01), (0x38 * 0x04, 0x04), (0x40 * 0x04, 0x18),
    (0x41 * 0x04, 0x80), (0x00 * 0x04, 0x61), (0x1b2 * 0x04, 0x8f), (0xce * 0x04, 0),
    (0xce * 0x04, 1) ]

/-- The values stored to registers 0x1a1 .. 0x1a6, the pre-PLL dividers, in a
trace: one list per register. -/
def pre_pll_stores (evs : List io_event) : List (List Nat) :=
  [ writes_to (0x1a1 * 0x04) evs, writes_to (0x1a2 * 0x04) evs, writes_to (0x1a3 * 0x04) evs,
    writes_to (0x1a4 * 0x04) evs, writes_to (0x1a5 * 0x04) evs, writes_to (0x1a6 * 0x04) evs ]

/-- The values stored to registers 0x1ab, 0x1ac, 0x1ad and 0x1aa, the post-PLL
dividers and mode, in a trace: one list per register. -/
def post_pll_stores (evs : List io_event) : List (List Nat) :=
  [ writes_to (0x1ab * 0x04) evs, writes_to (0x1ac * 0x04) evs, writes_to (0x1ad * 0x04) evs,
    writes_to (0x1aa * 0x04) evs ]

/-- The values stored to a byte offset, from the list of stores. -/
def stores_to (a : Nat) (l : List (Nat × Nat)) : List Nat :=
  l.filterMap (fun w => if w.1 = a then some w.2 else none)

/-- A kernel in which everything succeeds but `platform_get_irq`, which returns
`-ENXIO`. -/
def env_irq_fails : bind_env := { env_ok with platform_get_irq := - ENXIO }

/-- A kernel in which everything succeeds but `i2c_add_adapter`, which returns
`-ENOMEM`. -/
def env_adapter_fails : bind_env := { env_ok with i2c_add_adapter := -ENOMEM }

/-- A kernel in which everything succeeds but no CRTC is registered yet, so that
`inno_hdmi_register` defers. -/
def env_register_fails : bind_env := { env_ok with drm_of_find_possible_crtcs := 0 }

/-- A kernel in which everything succeeds but `devm_request_threaded_irq`, which
returns `-EINVAL`. -/
def env_request_irq_fails : bind_env := { env_ok with devm_request_threaded_irq := -EINVAL }

/-- A kernel in which everything succeeds but the enabling of the 0.9 V supply,
which returns `-EINVAL`. -/
def env_0p9_fails : bind_env :=
  { env_ok with
    regulator_enable := fun r => if r = regulator_id.hdmi_0p9 then -EINVAL else 0 }

/-- What is left switched on after the calls: the net enable counts of the two
supplies and the three clocks, in the order hdmi_1p8, hdmi_0p9, sys_clk, mclk,
bclk. -/
def res_counts (calls : List res_event) : List Int :=
  [ regulator_count regulator_id.hdmi_1p8 calls, regulator_count regulator_id.hdmi_0p9 calls,
    clk_count clk_id.sys_clk calls, clk_count clk_id.mclk calls, clk_count clk_id.bclk calls ]

end InnoHdmi

/-! ## The tuning of the StarFive SD/MMC host (`drivers/mmc/host/dw_mmc-starfive.c`) -/

namespace DwMciStarfive

/-- The macro `MAX_DELAY_CHAIN`. -/
def MAX_DELAY_CHAIN : Int := 32

/-- The macro `ALL_INT_CLR`. -/
def ALL_INT_CLR : Nat := 0x1ffff

/-- The errno `EINVAL` of the kernel's errno-base.h. -/
def EINVAL : Int := 22

/-- The part of `struct starfive_priv` the tuning uses: where the delay field
lives in the system controller. -/
structure starfive_priv where
  syscon_offset : Nat
  syscon_shift : Nat
  syscon_mask : Nat
  deriving DecidableEq, Repr

/-- What the tuning does to the outside, in program order: a syscon update with
its register, mask and value, a store to RINTSTS, a tuning command with the
value it returned. -/
inductive tuning_event where
  | regmap_update_bits (reg mask val : Nat)
  | mci_writel_RINTSTS (val : Nat)
  | mmc_send_tuning (err : Int)
  deriving DecidableEq, Repr

/-- What the kernel and the card answer: the `int` a syscon update returns and
the `int` a tuning command returns, each given the events so far. -/
structure tuning_env where
  regmap_update_bits : List tuning_event → Nat → Int
  mmc_send_tuning : List tuning_event → Int

/-- The locals of `dw_mci_starfive_execute_tuning` that live across turns of its
loop. -/
structure tuning_locals where
  raise_point : Int
  fall_point : Int
  prev_err : Int
  found : Int
  deriving DecidableEq, Repr

/-- The value `regval = i << priv->syscon_shift`, a `u32`. -/
def delay_regval (priv : starfive_priv) (i : Int) : Nat :=
  (((i % 2 ^ 32).toNat) <<< priv.syscon_shift) % 2 ^ 32

/-- The loop `for (i = 0; i < grade; i++)` of `dw_mci_starfive_execute_tuning`, entered
at `i` with as many turns left as the first argument says (`grade - i`).
`.error`: the value of an early `return err` and the events so far.  `.ok`: the
locals and the events at the label `tuning_out`, reached by the `goto` or by
the loop running out. -/
def tuning_loop (priv : starfive_priv) (env : tuning_env) :
    Nat → Nat → tuning_locals → List tuning_event →
      Except (Int × List tuning_event) (tuning_locals × List tuning_event)
  | 0, _, v, log => .ok (v, log)
  | n + 1, i, v, log =>
    let regval := delay_regval priv i
    let err := env.regmap_update_bits log regval
    let log := log ++ [tuning_event.regmap_update_bits priv.syscon_offset priv.syscon_mask regval]
    if err ≠ 0 then .error (err, log)
    else
      let log := log ++ [tuning_event.mci_writel_RINTSTS ALL_INT_CLR]
      let err := env.mmc_send_tuning log
      let log := log ++ [tuning_event.mmc_send_tuning err]
      let found := if err = 0 then 1 else v.found
      let fall_point :=
        if 0 < i ∧ err ≠ 0 ∧ v.prev_err = 0 then (i : Int) - 1 else v.fall_point
      let raise_point :=
        if 0 < i ∧ err = 0 ∧ v.prev_err ≠ 0 then (i : Int) else v.raise_point
      if raise_point ≠ -1 ∧ fall_point ≠ -1 then
        .ok ({ raise_point := raise_point, fall_point := fall_point,
               prev_err := v.prev_err, found := found }, log)
      else
        tuning_loop priv env n (i + 1)
          { raise_point := raise_point, fall_point := fall_point,
            prev_err := err, found := found } log

/-- The delay `dw_mci_starfive_execute_tuning` settles on after its loop, from the
rise and fall points found; `grade` is `MAX_DELAY_CHAIN`.  The divisions are
those of C, which truncate. -/
def tuning_delay (v : tuning_locals) : Int :=
  let grade := MAX_DELAY_CHAIN
  let raise_point := if v.raise_point = -1 then 0 else v.raise_point
  let fall_point := if v.fall_point = -1 then grade - 1 else v.fall_point
  if fall_point < raise_point then
    if (raise_point + fall_point) > (grade - 1) then Int.tdiv fall_point 2
    else Int.tdiv (raise_point + grade - 1) 2
  else Int.tdiv (raise_point + fall_point) 2

/-- Function `dw_mci_starfive_execute_tuning`: the value returned and the events, in
order. -/
def dw_mci_starfive_execute_tuning (priv : starfive_priv) (env : tuning_env) :
    Int × List tuning_event :=
  match tuning_loop priv env MAX_DELAY_CHAIN.toNat 0 ⟨-1, -1, -1, 0⟩ [] with
  | .error r => r
  | .ok (v, log) =>
    if v.found ≠ 0 then
      let i := tuning_delay v
      let regval := delay_regval priv i
      let err := env.regmap_update_bits log regval
      let log := log ++
        [tuning_event.regmap_update_bits priv.syscon_offset priv.syscon_mask regval]
      if err ≠ 0 then (err, log)
      else (err, log ++ [tuning_event.mci_writel_RINTSTS ALL_INT_CLR])
    else
      (-EINVAL, log ++ [tuning_event.mci_writel_RINTSTS ALL_INT_CLR])

/-- The events of trying the delays `0 .. n-1` in turn, the tuning command at
delay `j` returning `e j`: for each delay the syscon update, the store to
RINTSTS and the command. -/
def tried_events (priv : starfive_priv) (e : Nat → Int) : Nat → List tuning_event
  | 0 => []
  | n + 1 =>
    tried_events priv e n ++
      [ tuning_event.regmap_update_bits priv.syscon_offset priv.syscon_mask
          (delay_regval priv n),
        tuning_event.mci_writel_RINTSTS ALL_INT_CLR,
        tuning_event.mmc_send_tuning (e n) ]

/-- What the locals say about the delays `0 .. i-1` tried so far, `e j` being the
value the tuning command returned at delay `j`, while the loop has not left:
`prev_err` is the last value returned (or the initial -1), and either no point
is set and the delays all failed or all passed, or only the rise point is set,
after a run of failures, or only the fall point, after a run of passes. -/
def tuning_inv (i : Nat) (v : tuning_locals) (e : Nat → Int) : Prop :=
  (v.prev_err = if i = 0 then -1 else e (i - 1)) ∧
  ((v.raise_point = -1 ∧ v.fall_point = -1 ∧
      ((v.found = 0 ∧ ∀ j, j < i → e j ≠ 0) ∨ (v.found = 1 ∧ 0 < i ∧ ∀ j, j < i → e j = 0))) ∨
    (∃ r : Nat, v.raise_point = r ∧ v.fall_point = -1 ∧ v.found = 1 ∧ 0 < r ∧ r < i ∧
      (∀ j, j < r → e j ≠ 0) ∧ (∀ j, r ≤ j → j < i → e j = 0)) ∨
    (∃ f : Nat, v.fall_point = f ∧ v.raise_point = -1 ∧ v.found = 1 ∧ f + 1 < i ∧
      (∀ j, j ≤ f → e j = 0) ∧ (∀ j, f < j → j < i → e j ≠ 0)))

/-- What the locals say at the label `tuning_out` when `m` delays were tried: the
loop ran out (all 32 tried), or it left on a failure after a rise and a run of
passes, or it left on a pass after a run of passes and a run of failures. -/
def tuning_post (m : Nat) (v : tuning_locals) (e : Nat → Int) : Prop :=
  (m = 32 ∧ tuning_inv 32 v e) ∨
  (∃ r f : Nat, v.raise_point = r ∧ v.fall_point = f ∧ v.found = 1 ∧ 0 < r ∧ r ≤ f ∧
    f + 2 = m ∧ m ≤ 32 ∧ (∀ j, j < r → e j ≠ 0) ∧ (∀ j, r ≤ j → j ≤ f → e j = 0) ∧
    e (f + 1) ≠ 0) ∨
  (∃ r f : Nat, v.raise_point = r ∧ v.fall_point = f ∧ v.found = 1 ∧ f + 1 < r ∧
    r + 1 = m ∧ m ≤ 32 ∧ (∀ j, j ≤ f → e j = 0) ∧ (∀ j, f < j → j < r → e j ≠ 0) ∧
    e r = 0)

/-- A card on which the tuning command passes exactly at the delays of the list
and fails with `-EIO` elsewhere; the delay is read off the last syscon update.
Syscon updates succeed. -/
def env_passing (priv : starfive_priv) (pass : List Nat) : tuning_env :=
  { regmap_update_bits := fun _ _ => 0,
    mmc_send_tuning := fun log =>
      match log.reverse with
      | _ :: tuning_event.regmap_update_bits _ _ v :: _ =>
        if (pass.map (fun d => delay_regval priv d)).contains v then 0 else -5
      | _ => -5 }

/-- The place of the delay field in the JH7110 system controller, for closed
instances. -/
def sample_priv : starfive_priv :=
  { syscon_offset := 0x14, syscon_shift := 0x1a, syscon_mask := 0x7c000000 }

/-- The values `e 0 .. e (m-1)` are those the tuning command returns in the run
that tries the delays `0 .. m-1` in turn: `e j` is what `env.mmc_send_tuning`
answers after the events of the delays before `j`, the syscon update for `j` and
the store to RINTSTS. -/
def tuning_tied (priv : starfive_priv) (env : tuning_env) (e : Nat → Int) (m : Nat) : Prop :=
  ∀ j, j < m →
    e j = env.mmc_send_tuning (tried_events priv e j ++
      [ tuning_event.regmap_update_bits priv.syscon_offset priv.syscon_mask
          (delay_regval priv j),
        tuning_event.mci_writel_RINTSTS ALL_INT_CLR ])

end DwMciStarfive

namespace InnoHdmi

/-! ## Helper lemmas: the two table scans -/

/-- Where the pre-PLL loop stops: at the first row, counted from the start of the
list, that has `pixclock = 0` or matches `rate` in both clocks. -/
lemma pre_pll_scan_spec (rate : Nat) (d : pre_pll_config) :
    ∀ (l : List pre_pll_config) (i0 : Nat), ∃ k, k ≤ l.length ∧
      pre_pll_scan rate l i0 = i0 + k ∧
      (∀ j, j < k → (l.getD j d).pixclock ≠ 0 ∧
        ¬ ((l.getD j d).tmdsclock = rate ∧ (l.getD j d).pixclock = rate)) ∧
      (k < l.length → (l.getD k d).pixclock = 0 ∨
        ((l.getD k d).tmdsclock = rate ∧ (l.getD k d).pixclock = rate)) := by
  intro l
  induction l with
  | nil => intro i0; exact ⟨0, by simp [pre_pll_scan]⟩
  | cons cfg rest ih =>
    intro i0
    by_cases h0 : cfg.pixclock = 0
    · exact ⟨0, by simp [pre_pll_scan, h0]⟩
    · by_cases hm : cfg.tmdsclock = rate ∧ cfg.pixclock = rate
      · refine ⟨0, by simp, by simp [pre_pll_scan, h0, hm], by simp, ?_⟩
        intro _; right; simpa using hm
      · obtain ⟨k, hk, hs, hbefore, hat⟩ := ih (i0 + 1)
        refine ⟨k + 1, by simpa using hk, ?_, ?_, ?_⟩
        · simp only [pre_pll_scan, h0, hm, if_false]; omega
        · intro j hj
          cases j with
          | zero => exact ⟨by simpa using h0, by simpa using hm⟩
          | succ j => simpa using hbefore j (by omega)
        · intro hlt
          simpa using hat (by simpa using hlt)

/-- Where the post-PLL loop stops: at the first row, counted from the start of
the list, that has `tmdsclock = 0` or a `tmdsclock` not below the request. -/
lemma post_pll_scan_spec (tmdsclock : Nat) (d : post_pll_config) :
    ∀ (l : List post_pll_config) (i0 : Nat), ∃ k, k ≤ l.length ∧
      post_pll_scan tmdsclock l i0 = i0 + k ∧
      (∀ j, j < k → (l.getD j d).tmdsclock ≠ 0 ∧ (l.getD j d).tmdsclock < tmdsclock) ∧
      (k < l.length → (l.getD k d).tmdsclock = 0 ∨ tmdsclock ≤ (l.getD k d).tmdsclock) := by
  intro l
  induction l with
  | nil => intro i0; exact ⟨0, by simp [post_pll_scan]⟩
  | cons cfg rest ih =>
    intro i0
    by_cases h0 : cfg.tmdsclock = 0
    · exact ⟨0, by simp [post_pll_scan, h0]⟩
    · by_cases hm : tmdsclock ≤ cfg.tmdsclock
      · refine ⟨0, by simp, by simp [post_pll_scan, h0, hm], by simp, ?_⟩
        intro _; right; simpa using hm
      · obtain ⟨k, hk, hs, hbefore, hat⟩ := ih (i0 + 1)
        refine ⟨k + 1, by simpa using hk, ?_, ?_, ?_⟩
        · simp only [post_pll_scan, h0, hm, if_false]; omega
        · intro j hj
          cases j with
          | zero => exact ⟨by simpa using h0, by simpa using hm⟩
          | succ j => simpa using hbefore j (by omega)
        · intro hlt
          simpa using hat (by simpa using hlt)

/-- Every real row of the pre-PLL table has a non-zero `pixclock`; the row after
them is the sentinel. -/
lemma pre_row_pixclock_ne_zero : ∀ j, j < 28 → (pre_row j).pixclock ≠ 0 := by
  decide

/-- No two real rows with `pixclock = tmdsclock` share their `pixclock`. -/
lemma pre_row_diag_unique : ∀ i, i < 28 → ∀ j, j < 28 →
    (pre_row i).pixclock = (pre_row i).tmdsclock →
    (pre_row j).pixclock = (pre_row j).tmdsclock →
    (pre_row i).pixclock = (pre_row j).pixclock → i = j := by
  decide

/-- The pre-PLL lookup returns row `i` exactly when `i` is a real row whose two
clocks both equal the request truncated to whole kHz. -/
lemma get_pre_pll_cfg_ok_iff (r i : Nat) :
    inno_hdmi_phy_get_pre_pll_cfg r = .ok i ↔
      i < 28 ∧ (pre_row i).pixclock = r / 1000 * 1000 ∧
        (pre_row i).tmdsclock = r / 1000 * 1000 := by
  obtain ⟨k, hk, hs, hbefore, hat⟩ :=
    pre_pll_scan_spec (r / 1000 * 1000) pre_pll_sentinel pre_pll_cfg_table 0
  have hlen : pre_pll_cfg_table.length = 29 := rfl
  have hrow : ∀ j, pre_pll_cfg_table.getD j pre_pll_sentinel = pre_row j := fun _ => rfl
  simp only [hrow, hlen, zero_add] at hk hs hbefore hat
  simp only [inno_hdmi_phy_get_pre_pll_cfg, hs]
  by_cases hk28 : k < 28
  · have hne := pre_row_pixclock_ne_zero k hk28
    have hmatch := (hat (by omega)).resolve_left hne
    simp only [hne, if_false]
    constructor
    · intro h
      have hki : k = i := by simpa using h
      subst hki
      exact ⟨hk28, hmatch.2, hmatch.1⟩
    · rintro ⟨hi, hp, ht⟩
      have hle : k ≤ i := by
        by_contra hlt
        exact (hbefore i (by omega)).2 ⟨ht, hp⟩
      have hki : k = i :=
        pre_row_diag_unique k hk28 i hi (by rw [hmatch.1, hmatch.2]) (by rw [hp, ht])
          (by rw [hmatch.2, hp])
      rw [hki]
  · have hz : (pre_row k).pixclock = 0 := by
      have h2 : k = 28 ∨ k = 29 := by omega
      rcases h2 with h2 | h2 <;> subst h2 <;> rfl
    simp only [hz, if_true]
    constructor
    · intro h; cases h
    · rintro ⟨hi, hp, ht⟩
      exact absurd ⟨ht, hp⟩ (hbefore i (by omega)).2

/-- The pre-PLL lookup has two outcomes: a row, or `-EINVAL`. -/
lemma get_pre_pll_cfg_cases (r : Nat) :
    inno_hdmi_phy_get_pre_pll_cfg r = .error (-EINVAL) ∨
      ∃ i, inno_hdmi_phy_get_pre_pll_cfg r = .ok i := by
  unfold inno_hdmi_phy_get_pre_pll_cfg
  simp only []
  split_ifs
  · exact Or.inl rfl
  · exact Or.inr ⟨_, rfl⟩

/-- The post-PLL scan over the table: first fit up to 594 MHz, the sentinel above. -/
lemma post_pll_scan_table (r : Nat) :
    (r ≤ 594000000 →
      post_pll_scan r post_pll_cfg_table 0 < 7 ∧
      r ≤ (post_row (post_pll_scan r post_pll_cfg_table 0)).tmdsclock ∧
      ∀ j, j < post_pll_scan r post_pll_cfg_table 0 → (post_row j).tmdsclock < r) ∧
    (594000000 < r → post_pll_scan r post_pll_cfg_table 0 = 7) := by
  obtain ⟨k, hk, hs, hbefore, hat⟩ :=
    post_pll_scan_spec r post_pll_sentinel post_pll_cfg_table 0
  have hlen : post_pll_cfg_table.length = 8 := rfl
  have hrow : ∀ j, post_pll_cfg_table.getD j post_pll_sentinel = post_row j := fun _ => rfl
  simp only [hrow, hlen, zero_add] at hk hs hbefore hat
  rw [hs]
  have h6 : (post_row 6).tmdsclock = 594000000 := rfl
  have hnz : ∀ j, j < 7 → (post_row j).tmdsclock ≠ 0 := by decide
  have hle : ∀ j, j < 7 → (post_row j).tmdsclock ≤ 594000000 := by decide
  have h7 : (post_row 7).tmdsclock = 0 := rfl
  constructor
  · intro hr
    have hk7 : k < 7 := by
      by_contra hge
      have := (hbefore 6 (by omega)).2
      omega
    refine ⟨hk7, ?_, fun j hj => (hbefore j hj).2⟩
    exact (hat (by omega)).resolve_left (hnz k hk7)
  · intro hr
    by_contra hne
    by_cases hk7 : k < 7
    · have := (hat (by omega)).resolve_left (hnz k hk7)
      have := hle k hk7
      omega
    · have hk8 : k = 8 := by omega
      subst hk8
      exact (hbefore 7 (by omega)).1 h7

/-! ## Helper lemmas: what the PLL programming does to the handle -/

/-- Writing out a `reg_value_t` array appends one store per entry and touches
nothing else. -/
lemma write_reg_values_eq (l : List reg_value_t) :
    ∀ hdmi : inno_hdmi,
      write_reg_values hdmi l = { hdmi with regs := hdmi.regs ++ reg_value_events l } := by
  induction l with
  | nil => intro hdmi; simp [write_reg_values, reg_value_events]
  | cons e rest ih =>
    intro hdmi
    simp [write_reg_values, ih, reg_value_events, hdmi_writeb, writel_relaxed, reg_write]

/-- What `inno_hdmi_phy_clk_set_rate` does when the pre-PLL lookup finds row `i`. -/
lemma clk_set_rate_ok (hdmi : inno_hdmi) (rate i : Nat)
    (hget : inno_hdmi_phy_get_pre_pll_cfg hdmi.tmds_rate = .ok i) :
    inno_hdmi_phy_clk_set_rate hdmi rate =
      (0, { hdmi with
              pre_cfg := some (.ok i)
              post_cfg := some (post_pll_scan hdmi.tmds_rate post_pll_cfg_table 0)
              regs := hdmi.regs ++ reg_value_events
                (cfg_pll_data (pre_row i)
                  (post_row (post_pll_scan hdmi.tmds_rate post_pll_cfg_table 0))
                  hdmi.hdmi_data.vic) }) := by
  simp [inno_hdmi_phy_clk_set_rate, hget, inno_hdmi_config_pll, write_reg_values_eq,
    pre_cfg_row, post_cfg_row]

/-- What `inno_hdmi_phy_clk_set_rate` does when the pre-PLL lookup fails. -/
lemma clk_set_rate_err (hdmi : inno_hdmi) (rate : Nat)
    (hget : inno_hdmi_phy_get_pre_pll_cfg hdmi.tmds_rate = .error (-EINVAL)) :
    inno_hdmi_phy_clk_set_rate hdmi rate =
      (-EINVAL, { hdmi with pre_cfg := some (.error (-EINVAL)), post_cfg := some 0 }) := by
  simp [inno_hdmi_phy_clk_set_rate, hget]

/-! ## Post-PLL selection -/

/-- First fit up to the last ceiling: whenever `inno_hdmi_phy_clk_set_rate` returns
0 for a TMDS rate of at most 594 000 000 Hz, the row left in `hdmi->post_cfg` is
one of the seven real rows, its `tmdsclock` is at least the rate and every
earlier row has a smaller `tmdsclock`. -/
lemma clk_set_rate_first_fit_in_range (hdmi : inno_hdmi) (rate : Nat)
    (hret : (inno_hdmi_phy_clk_set_rate hdmi rate).1 = 0)
    (hr : hdmi.tmds_rate ≤ 594000000) :
    ∃ i, (inno_hdmi_phy_clk_set_rate hdmi rate).2.post_cfg = some i ∧ i < 7 ∧
      hdmi.tmds_rate ≤ (post_row i).tmdsclock ∧
      ∀ j, j < i → (post_row j).tmdsclock < hdmi.tmds_rate := by
  rcases get_pre_pll_cfg_cases hdmi.tmds_rate with herr | ⟨i, hok⟩
  · rw [clk_set_rate_err hdmi rate herr] at hret
    exact absurd hret (by simp [EINVAL])
  · rw [clk_set_rate_ok hdmi rate i hok]
    exact ⟨_, rfl, (post_pll_scan_table hdmi.tmds_rate).1 hr⟩

/-- C1, evaluated at the failing input: a mode-set with `mode->clock` = 4 888 968
kHz on hardware whose lock bits read 1.  The `int` product `clock * 1000` wraps
to 594 000 704, which `inno_hdmi_setup` stores in `hdmi->tmds_rate`.  The pre-PLL
lookup truncates the rate to 594 000 000 and finds row 27, so
`inno_hdmi_phy_clk_set_rate` returns 0 and the set-up returns 0; but the post-PLL
scan compares the untruncated rate, passes all seven rows and leaves
`hdmi->post_cfg` at the sentinel (index 7, all fields 0, `tmdsclock` = 0 below the
rate), and registers 0x1ab, 0x1ac, 0x1ad are programmed with its zeros and 0x1aa
with 0x0f then 0x02.  The sibling lookup `inno_hdmi_phy_get_pre_pll_cfg` answers
`-EINVAL` when its own scan reaches the sentinel.  For every rate of at most
594 000 000 Hz on which the function returns 0 the row left is a real row and
the first whose `tmdsclock` is at least the rate, as the claim says. -/
theorem clk_set_rate_returns_zero_with_sentinel_row :
    int_to_ulong (wrap_int ((mode_of_clock 4888968).clock * 1000)) = 594000704 ∧
    Option.map (fun r => (r.1, r.2.tmds_rate, r.2.post_cfg))
      (inno_hdmi_setup hw_ones cea_by_clock 1 inno_hdmi_zero (mode_of_clock 4888968)) =
        some (0, 594000704, some 7) ∧
    Option.map (fun r => r.2.pre_cfg)
      (inno_hdmi_setup hw_ones cea_by_clock 1 inno_hdmi_zero (mode_of_clock 4888968)) =
        some (some (.ok 27)) ∧
    Option.map (fun r => post_pll_stores (new_events inno_hdmi_zero r.2))
      (inno_hdmi_setup hw_ones cea_by_clock 1 inno_hdmi_zero (mode_of_clock 4888968)) =
        some [[0], [0], [0], [0x0f, 0x02]] ∧
    (inno_hdmi_phy_clk_set_rate { inno_hdmi_zero with tmds_rate := 594000704 } 594000704).1 = 0 ∧
    (inno_hdmi_phy_clk_set_rate { inno_hdmi_zero with tmds_rate := 594000704 } 594000704).2.post_cfg
      = some 7 ∧
    post_row 7 = post_pll_sentinel ∧
    ¬ (594000704 ≤ (post_row 7).tmdsclock) ∧
    inno_hdmi_phy_get_pre_pll_cfg 594001000 = .error (-EINVAL) ∧
    (∀ (hdmi : inno_hdmi) (rate : Nat), (inno_hdmi_phy_clk_set_rate hdmi rate).1 = 0 →
      hdmi.tmds_rate ≤ 594000000 →
      ∃ i, (inno_hdmi_phy_clk_set_rate hdmi rate).2.post_cfg = some i ∧ i < 7 ∧
        hdmi.tmds_rate ≤ (post_row i).tmdsclock ∧
        ∀ j, j < i → (post_row j).tmdsclock < hdmi.tmds_rate) := by
  refine ⟨by decide, by decide, by decide, by decide, by decide, by decide, by decide, by decide,
    by decide, ?_⟩
  intro hdmi rate hret hr
  exact clk_set_rate_first_fit_in_range hdmi rate hret hr

/-! ## Pre-PLL selection -/

/-- C2, as the claim states it, fails at the fifth row (index 4:
pixclock 27 000 000, tmdsclock 33 750 000): the lookup for its pixclock returns
the third row (index 2), which is a different row. -/
theorem pre_pll_lookup_row4_resolves_to_row2 :
    (pre_row 4).pixclock = 27000000 ∧ (pre_row 4).tmdsclock = 33750000 ∧
    inno_hdmi_phy_get_pre_pll_cfg (pre_row 4).pixclock = .ok 2 ∧
    pre_row 2 ≠ pre_row 4 := by
  decide

/-- C2 (amended): for every real row `i` of `pre_pll_cfg_table` whose pixclock
equals its tmdsclock, the lookup called with that pixclock returns exactly row
`i`; for a real row whose two clocks differ it returns another row, the one whose
pixclock and tmdsclock both equal the request. -/
theorem pre_pll_lookup_own_pixclock (i : Nat) (hi : i < 28) :
    ((pre_row i).pixclock = (pre_row i).tmdsclock →
      inno_hdmi_phy_get_pre_pll_cfg (pre_row i).pixclock = .ok i) ∧
    ((pre_row i).pixclock ≠ (pre_row i).tmdsclock →
      ∃ k, k < 28 ∧ k ≠ i ∧ inno_hdmi_phy_get_pre_pll_cfg (pre_row i).pixclock = .ok k ∧
        (pre_row k).pixclock = (pre_row i).pixclock ∧
        (pre_row k).tmdsclock = (pre_row i).pixclock) := by
  revert i
  decide

/-- C2 witness: the 148.5 MHz row (index 15) resolves to itself. -/
theorem pre_pll_lookup_own_pixclock_witness :
    (pre_row 15).pixclock = (pre_row 15).tmdsclock ∧
    inno_hdmi_phy_get_pre_pll_cfg (pre_row 15).pixclock = .ok 15 :=
  ⟨by decide, (pre_pll_lookup_own_pixclock 15 (by decide)).1 (by decide)⟩

/-- C3, as the claim states it, fails in both directions.  25 175 999 Hz is
25 176 000 to the nearest kHz, which no row carries, yet the lookup succeeds with
the first row; 25 174 500 Hz is 25 175 000 to the nearest kHz, the clocks of the
first row, yet the lookup fails. -/
theorem pre_pll_lookup_not_nearest_khz :
    (inno_hdmi_phy_get_pre_pll_cfg 25175999 = .ok 0 ∧
      nearest_khz 25175999 = 25176000 ∧
      ∀ i, i < 28 → ¬ ((pre_row i).pixclock = nearest_khz 25175999 ∧
        (pre_row i).tmdsclock = nearest_khz 25175999)) ∧
    (inno_hdmi_phy_get_pre_pll_cfg 25174500 = .error (-EINVAL) ∧
      (pre_row 0).pixclock = nearest_khz 25174500 ∧
      (pre_row 0).tmdsclock = nearest_khz 25174500) := by
  decide

/-- C3 (amended): for every rate `r` in Hz, with `t = (r / 1000) * 1000` the rate
truncated down to whole kHz, the lookup returns row `i` if and only if `i` is a
real row whose pixclock and tmdsclock both equal `t`; it fails with `-EINVAL` if
and only if no real row has both clocks equal to `t`; and it has no third
outcome. -/
theorem pre_pll_lookup_exact_on_truncated_rate (r : Nat) :
    (∀ i, inno_hdmi_phy_get_pre_pll_cfg r = .ok i ↔
      i < 28 ∧ (pre_row i).pixclock = r / 1000 * 1000 ∧
        (pre_row i).tmdsclock = r / 1000 * 1000) ∧
    (inno_hdmi_phy_get_pre_pll_cfg r = .error (-EINVAL) ↔
      ¬ ∃ i, i < 28 ∧ (pre_row i).pixclock = r / 1000 * 1000 ∧
        (pre_row i).tmdsclock = r / 1000 * 1000) ∧
    (inno_hdmi_phy_get_pre_pll_cfg r = .error (-EINVAL) ∨
      ∃ i, inno_hdmi_phy_get_pre_pll_cfg r = .ok i) := by
  refine ⟨fun i => get_pre_pll_cfg_ok_iff r i, ?_, get_pre_pll_cfg_cases r⟩
  constructor
  · rintro herr ⟨i, hi⟩
    have hok := (get_pre_pll_cfg_ok_iff r i).2 hi
    rw [herr] at hok
    cases hok
  · intro hno
    rcases get_pre_pll_cfg_cases r with herr | ⟨i, hok⟩
    · exact herr
    · exact absurd ⟨i, (get_pre_pll_cfg_ok_iff r i).1 hok⟩ hno

/-- C4: the lookup for 25 175 000 Hz returns the first row of the table; for
594 000 000 Hz it returns the row with tmdsclock 594 000 000 and fbdiv 99 (the
last real row); for 594 001 000 Hz it fails with `-EINVAL`. -/
theorem pre_pll_lookup_boundaries :
    inno_hdmi_phy_get_pre_pll_cfg 25175000 = .ok 0 ∧
    (inno_hdmi_phy_get_pre_pll_cfg 594000000 = .ok 27 ∧
      (pre_row 27).tmdsclock = 594000000 ∧ (pre_row 27).fbdiv = 99) ∧
    inno_hdmi_phy_get_pre_pll_cfg 594001000 = .error (-EINVAL) := by
  decide

/-! ## The 1080p60 selection -/

/-- C5, as the claim states it, fails in one field: for a 148 500 kHz mode the
selected pre-PLL row has pclk_div_a/b/c/d = 1/2/2/2, so `pclk_div_b` is 2 and
not 1. -/
theorem clk_set_rate_1080p60_pclk_div_b :
    (inno_hdmi_phy_clk_set_rate
      { inno_hdmi_zero with tmds_rate := int_to_ulong (wrap_int (148500 * 1000)) }
      148500000).2.pre_cfg = some (.ok 15) ∧
    (pre_row 15).pclk_div_b = 2 ∧
    ¬ ((pre_row 15).pclk_div_a = 1 ∧ (pre_row 15).pclk_div_b = 1 ∧
      (pre_row 15).pclk_div_c = 2 ∧ (pre_row 15).pclk_div_d = 2) := by
  decide

/-- C5 (amended): for a mode with pixel clock 148 500 kHz, whose TMDS rate the
set-up stores as `mode->clock * 1000`, `inno_hdmi_phy_clk_set_rate` returns 0 and
selects the pre-PLL row with fbdiv = 99, tmds_div_a/b/c = 1/1/1 and
pclk_div_a/b/c/d = 1/2/2/2, and the post-PLL row with tmdsclock = 148 500 000,
prediv = 1, fbdiv = 20, postdiv = 1, post_div_en = 3. -/
theorem clk_set_rate_1080p60_rows (hdmi : inno_hdmi) (mode : drm_display_mode) (rate : Nat)
    (hclk : mode.clock = 148500)
    (hrate : hdmi.tmds_rate = int_to_ulong (wrap_int (mode.clock * 1000))) :
    (inno_hdmi_phy_clk_set_rate hdmi rate).1 = 0 ∧
    (∃ i, (inno_hdmi_phy_clk_set_rate hdmi rate).2.pre_cfg = some (.ok i) ∧
      (pre_row i).pixclock = 148500000 ∧ (pre_row i).tmdsclock = 148500000 ∧
      (pre_row i).fbdiv = 99 ∧
      (pre_row i).tmds_div_a = 1 ∧ (pre_row i).tmds_div_b = 1 ∧ (pre_row i).tmds_div_c = 1 ∧
      (pre_row i).pclk_div_a = 1 ∧ (pre_row i).pclk_div_b = 2 ∧
      (pre_row i).pclk_div_c = 2 ∧ (pre_row i).pclk_div_d = 2) ∧
    (∃ j, (inno_hdmi_phy_clk_set_rate hdmi rate).2.post_cfg = some j ∧
      (post_row j).tmdsclock = 148500000 ∧ (post_row j).prediv = 1 ∧
      (post_row j).fbdiv = 20 ∧ (post_row j).postdiv = 1 ∧ (post_row j).post_div_en = 3) := by
  have h148 : hdmi.tmds_rate = 148500000 := by rw [hrate, hclk]; decide
  have hget : inno_hdmi_phy_get_pre_pll_cfg hdmi.tmds_rate = .ok 15 := by rw [h148]; decide
  have hpost : post_pll_scan hdmi.tmds_rate post_pll_cfg_table 0 = 4 := by rw [h148]; decide
  rw [clk_set_rate_ok hdmi rate 15 hget, hpost]
  exact ⟨rfl, ⟨15, rfl, by decide⟩, ⟨4, rfl, by decide⟩⟩

/-- C5 witness: the handle of a zeroing allocation with the TMDS rate of the
1080p60 mode. -/
theorem clk_set_rate_1080p60_rows_witness :
    (inno_hdmi_phy_clk_set_rate
      { inno_hdmi_zero with tmds_rate := int_to_ulong (wrap_int ((mode_of_clock 148500).clock * 1000)) }
      148500000).1 = 0 :=
  (clk_set_rate_1080p60_rows
    { inno_hdmi_zero with tmds_rate := int_to_ulong (wrap_int ((mode_of_clock 148500).clock * 1000)) }
    (mode_of_clock 148500) 148500000 rfl rfl).1

/-! ## PLL register programming -/

/-- The accesses made since `before`, when the trace was only extended. -/
lemma new_events_of_append (before after : inno_hdmi) (evs : List io_event)
    (h : after.regs = before.regs ++ evs) : new_events before after = evs := by
  simp [new_events, h]

/-- What `inno_hdmi_config_pll` does: thirteen stores, nothing else. -/
lemma config_pll_eq (hdmi : inno_hdmi) :
    inno_hdmi_config_pll hdmi =
      { hdmi with
          regs := hdmi.regs ++ reg_value_events
            (cfg_pll_data (pre_cfg_row hdmi) (post_cfg_row hdmi) hdmi.hdmi_data.vic) } := by
  simp [inno_hdmi_config_pll, write_reg_values_eq]

/-- Every row of the post-PLL table, the sentinel included, has byte-sized
`prediv` and `postdiv`. -/
lemma post_row_bytes : ∀ j, j ≤ 7 →
    (post_row j).prediv < 256 ∧ (post_row j).postdiv < 256 := by
  decide

/-- The bytes `inno_hdmi_config_pll` derives from a row the pre-PLL lookup can
return fit a byte. -/
lemma pre_row_bytes : ∀ i, i < 28 → (pre_row i).pixclock = (pre_row i).tmdsclock →
    (pre_row i).prediv < 256 ∧ (0xf0 ||| (pre_row i).fbdiv >>> 8) < 256 ∧
    (pre_row i).fbdiv < 256 ∧
    (((pre_row i).tmds_div_a <<< 4) ||| ((pre_row i).tmds_div_b <<< 2) |||
      (pre_row i).tmds_div_c) < 256 ∧
    (((pre_row i).pclk_div_b <<< 5) ||| (pre_row i).pclk_div_a) < 256 ∧
    (((pre_row i).pclk_div_c <<< 5) ||| (pre_row i).pclk_div_d) < 256 := by
  decide

/-- C6: for every post-PLL row the selection can leave in `hdmi->post_cfg` (any of
the seven rows or the sentinel), every pre-PLL pointer and every VIC,
`inno_hdmi_config_pll` writes register 0x1ad once, with `postdiv` when
`post_div_en` is non-zero and 0 otherwise, except that for VIC 1 it writes 0x0d
whatever the row says; and the last value it writes to register 0x1aa is 0x0e when
`post_div_en` is non-zero and 0x02 otherwise, VIC or no VIC. -/
theorem config_pll_post_div_registers (hdmi : inno_hdmi) (j : Nat)
    (hpost : hdmi.post_cfg = some j) (hj : j ≤ 7) :
    writes_to (0x1ad * 0x04) (new_events hdmi (inno_hdmi_config_pll hdmi)) =
      [if hdmi.hdmi_data.vic = 1 then 0x0d
        else if (post_row j).post_div_en ≠ 0 then (post_row j).postdiv else 0] ∧
    (writes_to (0x1aa * 0x04) (new_events hdmi (inno_hdmi_config_pll hdmi))).getLast? =
      some (if (post_row j).post_div_en ≠ 0 then 0x0e else 0x02) := by
  have hq := (post_row_bytes j hj).2
  have hev := new_events_of_append hdmi (inno_hdmi_config_pll hdmi) _
    (by rw [config_pll_eq hdmi])
  rw [hev]
  have hrow : post_cfg_row hdmi = post_row j := by simp [post_cfg_row, hpost]
  rw [hrow]
  constructor
  · by_cases hv : hdmi.hdmi_data.vic = 1
    · simp [reg_value_events, cfg_pll_data, reg_value, reg_write, writes_to, reg_1ad_value, hv]
    · have hv2 : ¬ (1 = hdmi.hdmi_data.vic) := fun h => hv h.symm
      by_cases hen : (post_row j).post_div_en = 0
      · simp [reg_value_events, cfg_pll_data, reg_value, reg_write, writes_to, reg_1ad_value,
          hv, hv2, hen]
      · have h1 : (post_row j).postdiv % 256 = (post_row j).postdiv := Nat.mod_eq_of_lt hq
        have h2 : (post_row j).postdiv % 4294967296 = (post_row j).postdiv :=
          Nat.mod_eq_of_lt (by omega)
        simp [reg_value_events, cfg_pll_data, reg_value, reg_write, writes_to, reg_1ad_value,
          hv, hv2, hen, h1, h2]
  · by_cases hen : (post_row j).post_div_en = 0
    · simp [reg_value_events, cfg_pll_data, reg_value, reg_write, writes_to, reg_1aa_value, hen]
    · simp [reg_value_events, cfg_pll_data, reg_value, reg_write, writes_to, reg_1aa_value, hen]

/-- C6 witness: the 640x480 case, VIC 1 with the first post-PLL row selected
(postdiv 7, post_div_en 3): 0x1ad gets 0x0d, 0x1aa ends as 0x0e. -/
theorem config_pll_post_div_registers_witness :
    writes_to (0x1ad * 0x04)
        (new_events
          { inno_hdmi_zero with
              pre_cfg := some (.ok 0), post_cfg := some 0,
              hdmi_data := { inno_hdmi_zero.hdmi_data with vic := 1 } }
          (inno_hdmi_config_pll
            { inno_hdmi_zero with
                pre_cfg := some (.ok 0), post_cfg := some 0,
                hdmi_data := { inno_hdmi_zero.hdmi_data with vic := 1 } })) =
      [if (1 : Int) = 1 then 0x0d
        else if (post_row 0).post_div_en ≠ 0 then (post_row 0).postdiv else 0] :=
  (config_pll_post_div_registers
    { inno_hdmi_zero with
        pre_cfg := some (.ok 0), post_cfg := some 0,
        hdmi_data := { inno_hdmi_zero.hdmi_data with vic := 1 } } 0 rfl (by decide)).1

/-- A `reg_value_t` entry whose value fits a byte is stored as it is. -/
lemma reg_value_event_of_lt (off v : Nat) (hv : v < 256) :
    reg_write (reg_value off v).reg ((reg_value off v).value % 2 ^ 32) = reg_write off v := by
  have h1 : v % 256 = v := Nat.mod_eq_of_lt hv
  have h2 : v % 2 ^ 32 = v := Nat.mod_eq_of_lt (by omega)
  simp only [reg_value, h1, h2]

/-- The post-div byte for a row with a byte-sized `postdiv`. -/
lemma reg_1ad_value_eq (q : post_pll_config) (vic : Int) (hq : q.postdiv < 256) :
    reg_1ad_value q vic =
      if vic = 1 then 0x0d else if q.post_div_en ≠ 0 then q.postdiv else 0 := by
  unfold reg_1ad_value
  by_cases hv : vic = 1
  · simp [hv]
  · have hv2 : ¬ (1 = vic) := fun h => hv h.symm
    by_cases hen : q.post_div_en = 0
    · simp [hv, hv2, hen]
    · simp [hv, hv2, hen, Nat.mod_eq_of_lt hq]

/-- C7: for every pre-PLL row `p` the lookup can select (row `i`, returned for
some rate `r`) and every post-PLL row `q` the selection can leave (row `j`, the
sentinel included), `inno_hdmi_config_pll` extends the access trace by exactly
these thirteen stores, in this order, and by nothing else:
0x1a0<-0x01, 0x1aa<-0x0f, 0x1a1<-p.prediv, 0x1a2<-(0xf0 | p.fbdiv>>8),
0x1a3<-p.fbdiv, 0x1a4<-((a<<4)|(b<<2)|c) of the TMDS dividers,
0x1a5<-((pclk_div_b<<5)|pclk_div_a), 0x1a6<-((pclk_div_c<<5)|pclk_div_d),
0x1ab<-q.prediv, 0x1ac<-(q.fbdiv & 0xff), 0x1ad<-(the derived post-div value),
0x1aa<-(the derived mode value), 0x1a0<-0x00. -/
theorem config_pll_write_sequence (hdmi : inno_hdmi) (r i j : Nat)
    (hsel : inno_hdmi_phy_get_pre_pll_cfg r = .ok i)
    (hpre : hdmi.pre_cfg = some (.ok i))
    (hpost : hdmi.post_cfg = some j) (hj : j ≤ 7) :
    (inno_hdmi_config_pll hdmi).regs = hdmi.regs ++
      [ reg_write 0x1a0 0x01,
        reg_write 0x1aa 0x0f,
        reg_write 0x1a1 (pre_row i).prediv,
        reg_write 0x1a2 (0xf0 ||| (pre_row i).fbdiv >>> 8),
        reg_write 0x1a3 (pre_row i).fbdiv,
        reg_write 0x1a4 (((pre_row i).tmds_div_a <<< 4) ||| ((pre_row i).tmds_div_b <<< 2) |||
          (pre_row i).tmds_div_c),
        reg_write 0x1a5 (((pre_row i).pclk_div_b <<< 5) ||| (pre_row i).pclk_div_a),
        reg_write 0x1a6 (((pre_row i).pclk_div_c <<< 5) ||| (pre_row i).pclk_div_d),
        reg_write 0x1ab (post_row j).prediv,
        reg_write 0x1ac ((post_row j).fbdiv &&& 0xff),
        reg_write 0x1ad (if hdmi.hdmi_data.vic = 1 then 0x0d
          else if (post_row j).post_div_en ≠ 0 then (post_row j).postdiv else 0),
        reg_write 0x1aa (if (post_row j).post_div_en ≠ 0 then 0x0e else 0x02),
        reg_write 0x1a0 0x00 ] := by
  have hi := (get_pre_pll_cfg_ok_iff r i).1 hsel
  obtain ⟨p1, p2, p3, p4, p5, p6⟩ := pre_row_bytes i hi.1 (by rw [hi.2.1, hi.2.2])
  obtain ⟨q1, q2⟩ := post_row_bytes j hj
  have q3 : ((post_row j).fbdiv &&& 0xff) < 256 :=
    Nat.lt_of_le_of_lt Nat.and_le_right (by decide)
  have hrow1 : pre_cfg_row hdmi = pre_row i := by simp [pre_cfg_row, hpre]
  have hrow2 : post_cfg_row hdmi = post_row j := by simp [post_cfg_row, hpost]
  have h1ad := reg_1ad_value_eq (post_row j) hdmi.hdmi_data.vic q2
  have q4 : reg_1ad_value (post_row j) hdmi.hdmi_data.vic < 256 := by
    rw [h1ad]; split_ifs <;> omega
  have q5 : reg_1aa_value (post_row j) < 256 := by
    unfold reg_1aa_value; split_ifs <;> omega
  rw [config_pll_eq hdmi, hrow1, hrow2]
  simp only [reg_value_events, cfg_pll_data, List.map_cons, List.map_nil]
  rw [reg_value_event_of_lt _ _ (by decide : 0x01 < 256),
    reg_value_event_of_lt _ _ (by decide : 0x0f < 256),
    reg_value_event_of_lt _ _ p1, reg_value_event_of_lt _ _ p2, reg_value_event_of_lt _ _ p3,
    reg_value_event_of_lt _ _ p4, reg_value_event_of_lt _ _ p5, reg_value_event_of_lt _ _ p6,
    reg_value_event_of_lt _ _ q1, reg_value_event_of_lt _ _ q3, reg_value_event_of_lt _ _ q4,
    reg_value_event_of_lt _ _ q5, reg_value_event_of_lt _ _ (by decide : 0x00 < 256), h1ad]
  rfl

/-- C7 witness: the 1080p60 selection (pre-PLL row 15, post-PLL row 4, VIC 16). -/
theorem config_pll_write_sequence_witness :
    (inno_hdmi_config_pll
      { inno_hdmi_zero with
          pre_cfg := some (.ok 15), post_cfg := some 4,
          hdmi_data := { inno_hdmi_zero.hdmi_data with vic := 16 } }).regs =
      [ reg_write 0x1a0 0x01, reg_write 0x1aa 0x0f, reg_write 0x1a1 0x01,
        reg_write 0x1a2 0xf0, reg_write 0x1a3 0x63, reg_write 0x1a4 0x15,
        reg_write 0x1a5 0x41, reg_write 0x1a6 0x42, reg_write 0x1ab 0x01,
        reg_write 0x1ac 0x14, reg_write 0x1ad 0x01, reg_write 0x1aa 0x0e,
        reg_write 0x1a0 0x00 ] :=
  config_pll_write_sequence
    { inno_hdmi_zero with
        pre_cfg := some (.ok 15), post_cfg := some 4,
        hdmi_data := { inno_hdmi_zero.hdmi_data with vic := 16 } }
    148500000 15 4 (by decide) rfl rfl (by decide)

/-! ## Helper lemmas: the lock polls -/

/-- A bare 32-bit load is a load in the sense of `is_read_of`. -/
lemma is_read_of_readl (hw : hw_model) (a : Nat) :
    is_read_of hw a (fun h => readl_relaxed hw h a) := by
  intro h
  refine ⟨rfl, ?_⟩
  simp only [readl_relaxed, Nat.and_one_is_mod]
  exact Nat.mod_mod_of_dvd _ (by decide)

/-- A byte read through `hdmi_readb` is a load in the sense of `is_read_of`. -/
lemma is_read_of_readb (hw : hw_model) (off : Nat) :
    is_read_of hw (off * 0x04) (fun h => hdmi_readb hw h off) := by
  intro h
  refine ⟨rfl, ?_⟩
  simp only [hdmi_readb, readl_relaxed, Nat.and_one_is_mod]
  rw [Nat.mod_mod_of_dvd _ (by decide : 2 ∣ 256)]
  exact Nat.mod_mod_of_dvd _ (by decide)

/-- The loads of a concatenated trace. -/
lemma reads_of_append (a : Nat) (l1 l2 : List io_event) :
    reads_of a (l1 ++ l2) = reads_of a l1 ++ reads_of a l2 := by
  induction l1 with
  | nil => rfl
  | cons e rest ih =>
    cases e with
    | read b v =>
      by_cases hb : b = a <;> simp [reads_of, hb, ih]
    | write b v => simp [reads_of, ih]

/-- Loads from one offset say nothing about another. -/
lemma reads_of_other (a b : Nat) (hab : b ≠ a) (l : List io_event)
    (hl : ∀ e ∈ l, ∃ w, e = io_event.read b w) : reads_of a l = [] := by
  induction l with
  | nil => rfl
  | cons e rest ih =>
    obtain ⟨w, hw⟩ := hl e (by simp)
    subst hw
    simp only [reads_of, hab, if_false]
    exact ih (fun e he => hl e (by simp [he]))

/-- The stores of a `reg_value_t` array contain no load. -/
lemma reads_of_reg_value_events (a : Nat) (l : List reg_value_t) :
    reads_of a (reg_value_events l) = [] := by
  induction l with
  | nil => rfl
  | cons e rest ih => simpa [reg_value_events, reads_of, reg_write] using ih

/-- A poll on a register whose bit 0 never reads as set never ends. -/
lemma while_not_bit0_stuck (hw : hw_model) (a : Nat) (rd : inno_hdmi → Nat × inno_hdmi)
    (hrd : is_read_of hw a rd) (hstuck : ∀ t, hw t a % 2 = 0) :
    ∀ (fuel : Nat) (h : inno_hdmi), while_not_bit0 rd fuel h = none := by
  intro fuel
  induction fuel with
  | zero => intro h; rfl
  | succ n ih =>
    intro h
    have hbit : (rd h).1 &&& 1 = 0 := by rw [(hrd h).2, hstuck]
    simp [while_not_bit0, hbit, ih]

/-- A poll that ends has made some loads with bit 0 clear and then one with bit 0
set, all from the polled offset, and has changed nothing but the trace. -/
lemma while_not_bit0_some (hw : hw_model) (a : Nat) (rd : inno_hdmi → Nat × inno_hdmi)
    (hrd : is_read_of hw a rd) :
    ∀ (fuel : Nat) (h h' : inno_hdmi), while_not_bit0 rd fuel h = some h' →
      ∃ evs v, h' = { h with regs := h.regs ++ (evs ++ [io_event.read a v]) } ∧ v % 2 = 1 ∧
        ∀ e ∈ evs, ∃ w, e = io_event.read a w := by
  intro fuel
  induction fuel with
  | zero => intro h h' hret; simp [while_not_bit0] at hret
  | succ n ih =>
    intro h h' hret
    obtain ⟨hst, hbit⟩ := hrd h
    by_cases hb : (rd h).1 &&& 1 = 0
    · simp only [while_not_bit0, hb, ne_eq, not_true_eq_false, if_false] at hret
      obtain ⟨evs, v, heq, hv, hall⟩ := ih (rd h).2 h' hret
      refine ⟨io_event.read a (hw h.regs a % 2 ^ 32) :: evs, v, ?_, hv, ?_⟩
      · rw [heq, hst]; simp
      · intro e he
        rcases List.mem_cons.1 he with he | he
        · exact ⟨_, he⟩
        · exact hall e he
    · simp only [while_not_bit0, hb, ne_eq, not_false_eq_true, if_true, Option.some.injEq] at hret
      refine ⟨[], hw h.regs a % 2 ^ 32, ?_, ?_, by simp⟩
      · rw [← hret, hst]; simp
      · have h2 : hw h.regs a % 2 = 1 := by
          rw [hbit] at hb; omega
        rw [Nat.mod_mod_of_dvd _ (by decide : 2 ∣ 2 ^ 32)]
        exact h2

/-- A poll on a register whose bit 0 reads as set exactly from its `c`-th load on
ends once the register has been loaded `c + 1` times, given fuel for the loads
still missing. -/
lemma while_not_bit0_lock_after (hw : hw_model) (a : Nat) (rd : inno_hdmi → Nat × inno_hdmi)
    (hrd : is_read_of hw a rd) (c : Nat)
    (hhw : ∀ t, hw t a % 2 = if c ≤ (reads_of a t).length then 1 else 0) :
    ∀ (d fuel : Nat) (h : inno_hdmi), (reads_of a h.regs).length + d = c → d < fuel →
      ∃ evs, while_not_bit0 rd fuel h = some { h with regs := h.regs ++ evs } ∧
        (reads_of a (h.regs ++ evs)).length = c + 1 ∧
        ∀ e ∈ evs, ∃ w, e = io_event.read a w := by
  intro d
  induction d with
  | zero =>
    intro fuel h hc hf
    obtain ⟨hst, hbit⟩ := hrd h
    obtain ⟨n, rfl⟩ : ∃ n, fuel = n + 1 := ⟨fuel - 1, by omega⟩
    have hb : (rd h).1 &&& 1 = 1 := by
      rw [hbit, hhw]; simp [← hc]
    refine ⟨[io_event.read a (hw h.regs a % 2 ^ 32)], ?_, ?_, by simp⟩
    · simp [while_not_bit0, hb, hst]
    · simp [reads_of_append, reads_of]; omega
  | succ d ih =>
    intro fuel h hc hf
    obtain ⟨hst, hbit⟩ := hrd h
    obtain ⟨n, rfl⟩ : ∃ n, fuel = n + 1 := ⟨fuel - 1, by omega⟩
    have hb : (rd h).1 &&& 1 = 0 := by
      rw [hbit, hhw]
      have : ¬ c ≤ (reads_of a h.regs).length := by omega
      simp [this]
    obtain ⟨evs, hrun, hcount, hall⟩ := ih n (rd h).2
      (by rw [hst]; simp [reads_of_append, reads_of]; omega) (by omega)
    refine ⟨io_event.read a (hw h.regs a % 2 ^ 32) :: evs, ?_, ?_, ?_⟩
    · simp only [while_not_bit0, hb, ne_eq, not_true_eq_false, if_false, hrun]
      rw [hst]; simp
    · rw [hst] at hcount
      simpa using hcount
    · intro e he
      rcases List.mem_cons.1 he with he | he
      · exact ⟨_, he⟩
      · exact hall e he

/-! ## Helper lemmas: the set-up and the power-up around their polls -/

/-- The set-up is its prelude, the two polls, and its tail. -/
lemma setup_eq (hw : hw_model) (cea : drm_display_mode → Nat) (fuel : Nat)
    (hdmi : inno_hdmi) (mode : drm_display_mode) :
    inno_hdmi_setup hw cea fuel hdmi mode =
      (while_not_bit0 (fun h => hdmi_readb hw h 0x1a9) fuel (setup_prelude hw cea hdmi mode)).bind
        (fun h1 => (while_not_bit0 (fun h => hdmi_readb hw h 0x1af) fuel h1).bind
          (fun h2 => some (0, setup_tail h2))) :=
  rfl

/-- The power-up is its prelude, the two polls, and its tail. -/
lemma power_up_eq (hw : hw_model) (fuel : Nat) (hdmi : inno_hdmi) :
    inno_hdmi_power_up hw fuel hdmi =
      (while_not_bit0 (fun h => readl_relaxed hw h (0x1a9 * 0x04)) fuel
          (power_up_prelude hw hdmi)).bind
        (fun h1 => (while_not_bit0 (fun h => readl_relaxed hw h (0x1af * 0x04)) fuel h1).bind
          (fun h2 => some (power_up_tail h2))) :=
  rfl

/-- Before its polls the set-up only extends the trace, with no load from either
lock register. -/
lemma setup_prelude_regs (hw : hw_model) (cea : drm_display_mode → Nat)
    (hdmi : inno_hdmi) (mode : drm_display_mode) :
    ∃ P, (setup_prelude hw cea hdmi mode).regs = hdmi.regs ++ P ∧
      reads_of (0x1a9 * 0x04) P = [] ∧ reads_of (0x1af * 0x04) P = [] := by
  unfold setup_prelude
  simp only []
  generalize hh0 : ({ (hdmi_writeb (hdmi_writeb (readl_relaxed hw hdmi (0x1b0 * 0x04)).2 0x1b0
      (((readl_relaxed hw hdmi (0x1b0 * 0x04)).1 % 256 ||| 0x4) % 256)) 0x1cc 0xf) with
      hdmi_data := { (hdmi_writeb (hdmi_writeb (readl_relaxed hw hdmi (0x1b0 * 0x04)).2 0x1b0
        (((readl_relaxed hw hdmi (0x1b0 * 0x04)).1 % 256 ||| 0x4) % 256)) 0x1cc 0xf).hdmi_data with
          vic := (cea mode % 256 : Nat) },
      tmds_rate := int_to_ulong (wrap_int (mode.clock * 1000)) } : inno_hdmi) = h0
  have hregs : h0.regs = hdmi.regs ++
      [io_event.read (0x1b0 * 0x04) (hw hdmi.regs (0x1b0 * 0x04) % 2 ^ 32),
       io_event.write (0x1b0 * 0x04)
        ((((hw hdmi.regs (0x1b0 * 0x04) % 2 ^ 32) % 256 ||| 0x4) % 256) % 2 ^ 32),
       io_event.write (0x1cc * 0x04) (0xf % 2 ^ 32)] := by
    rw [← hh0]; simp [hdmi_writeb, writel_relaxed, readl_relaxed]
  obtain ⟨P3, hP3, h9, hf⟩ : ∃ P3, h0.regs = hdmi.regs ++ P3 ∧
      reads_of (0x1a9 * 0x04) P3 = [] ∧ reads_of (0x1af * 0x04) P3 = [] :=
    ⟨_, hregs, by simp [reads_of], by simp [reads_of]⟩
  rcases get_pre_pll_cfg_cases h0.tmds_rate with herr | ⟨i, hok⟩
  · rw [clk_set_rate_err h0 _ herr]
    exact ⟨P3, hP3, h9, hf⟩
  · rw [clk_set_rate_ok h0 _ i hok]
    refine ⟨P3 ++ reg_value_events (cfg_pll_data (pre_row i)
      (post_row (post_pll_scan h0.tmds_rate post_pll_cfg_table 0)) h0.hdmi_data.vic), ?_, ?_, ?_⟩
    · simp only [hP3, List.append_assoc]
    · simp [reads_of_append, reads_of_reg_value_events, h9]
    · simp [reads_of_append, reads_of_reg_value_events, hf]

/-- After its polls the set-up only stores. -/
lemma setup_tail_regs (hdmi : inno_hdmi) :
    ∃ T, setup_tail hdmi = { hdmi with regs := hdmi.regs ++ T } ∧ ∀ a, reads_of a T = [] := by
  refine ⟨setup_tail_events hdmi.hdmi_data.vic, ?_, ?_⟩
  · simp only [setup_tail, inno_hdmi_tx_phy_power_down, inno_hdmi_tx_ctrl,
      inno_hdmi_tx_phy_power_on, inno_hdmi_tmds_driver_on, write_reg_values_eq,
      hdmi_writeb, writel_relaxed, List.append_assoc]
    rfl
  · intro a
    simp [setup_tail_events, reg_write, reads_of]

/-- Before its polls the power-up only extends the trace, with no load from
either lock register. -/
lemma power_up_prelude_regs (hw : hw_model) (hdmi : inno_hdmi) :
    ∃ P, power_up_prelude hw hdmi = { hdmi with regs := hdmi.regs ++ P } ∧
      reads_of (0x1a9 * 0x04) P = [] ∧ reads_of (0x1af * 0x04) P = [] := by
  refine ⟨power_up_prelude_events hw hdmi.regs, ?_, ?_, ?_⟩
  · simp only [power_up_prelude, writel_relaxed, readl_relaxed, List.append_assoc]
    rfl
  · simp [power_up_prelude_events, reads_of]
  · simp [power_up_prelude_events, reads_of]

/-- After its polls the power-up only stores. -/
lemma power_up_tail_regs (hdmi : inno_hdmi) :
    ∃ T, power_up_tail hdmi = { hdmi with regs := hdmi.regs ++ T } ∧ ∀ a, reads_of a T = [] := by
  refine ⟨[reg_write 0x1b4 0x7, reg_write 0x1be 0x70], ?_, ?_⟩
  · simp only [power_up_tail, writel_relaxed, List.append_assoc]
    rfl
  · intro a
    simp [reg_write, reads_of]

/-- With a lock bit that never reads as set the set-up is still polling when
the fuel runs out, whatever the fuel. -/
lemma setup_stuck (hw : hw_model) (cea : drm_display_mode → Nat) (fuel : Nat)
    (hdmi : inno_hdmi) (mode : drm_display_mode)
    (hst : (∀ t, hw t (0x1a9 * 0x04) % 2 = 0) ∨ (∀ t, hw t (0x1af * 0x04) % 2 = 0)) :
    inno_hdmi_setup hw cea fuel hdmi mode = none := by
  rw [setup_eq]
  rcases hst with h9 | hf
  · rw [while_not_bit0_stuck hw _ _ (is_read_of_readb hw 0x1a9) h9]
    rfl
  · cases h1 : while_not_bit0 (fun h => hdmi_readb hw h 0x1a9) fuel (setup_prelude hw cea hdmi mode) with
    | none => rfl
    | some h1' =>
      simp only [Option.bind]
      rw [while_not_bit0_stuck hw _ _ (is_read_of_readb hw 0x1af) hf]

/-- With a lock bit that never reads as set the power-up is still polling when
the fuel runs out, whatever the fuel. -/
lemma power_up_stuck (hw : hw_model) (fuel : Nat) (hdmi : inno_hdmi)
    (hst : (∀ t, hw t (0x1a9 * 0x04) % 2 = 0) ∨ (∀ t, hw t (0x1af * 0x04) % 2 = 0)) :
    inno_hdmi_power_up hw fuel hdmi = none := by
  rw [power_up_eq]
  rcases hst with h9 | hf
  · rw [while_not_bit0_stuck hw _ _ (is_read_of_readl hw (0x1a9 * 0x04)) h9]
    rfl
  · cases h1 : while_not_bit0 (fun h => readl_relaxed hw h (0x1a9 * 0x04)) fuel
        (power_up_prelude hw hdmi) with
    | none => rfl
    | some h1' =>
      simp only [Option.bind]
      rw [while_not_bit0_stuck hw _ _ (is_read_of_readl hw (0x1af * 0x04)) hf]

/-- The shape of a set-up that returns: it returns 0, and the trace has grown by
the prelude, the loads of the first poll ending in one with bit 0 set, the loads
of the second poll ending in one with bit 0 set, and the closing stores. -/
lemma setup_some (hw : hw_model) (cea : drm_display_mode → Nat) (fuel : Nat)
    (hdmi : inno_hdmi) (mode : drm_display_mode) (r : Int × inno_hdmi)
    (hret : inno_hdmi_setup hw cea fuel hdmi mode = some r) :
    r.1 = 0 ∧ ∃ P evs1 v1 evs2 v2 T,
      r.2.regs = hdmi.regs ++ (P ++ ((evs1 ++ [io_event.read (0x1a9 * 0x04) v1]) ++
        ((evs2 ++ [io_event.read (0x1af * 0x04) v2]) ++ T))) ∧
      v1 % 2 = 1 ∧ v2 % 2 = 1 ∧
      (∀ e ∈ evs1, ∃ w, e = io_event.read (0x1a9 * 0x04) w) ∧
      (∀ e ∈ evs2, ∃ w, e = io_event.read (0x1af * 0x04) w) ∧
      (∀ a, reads_of a T = []) ∧
      reads_of (0x1a9 * 0x04) P = [] ∧ reads_of (0x1af * 0x04) P = [] := by
  rw [setup_eq] at hret
  cases h1 : while_not_bit0 (fun h => hdmi_readb hw h 0x1a9) fuel (setup_prelude hw cea hdmi mode) with
  | none => rw [h1] at hret; cases hret
  | some s1 =>
    rw [h1] at hret
    simp only [Option.bind] at hret
    cases h2 : while_not_bit0 (fun h => hdmi_readb hw h 0x1af) fuel s1 with
    | none => rw [h2] at hret; cases hret
    | some s2 =>
      rw [h2] at hret
      simp only [Option.some.injEq] at hret
      obtain ⟨P, hP, hP9, hPf⟩ := setup_prelude_regs hw cea hdmi mode
      obtain ⟨evs1, v1, hs1, hv1, hall1⟩ :=
        while_not_bit0_some hw _ _ (is_read_of_readb hw 0x1a9) fuel _ _ h1
      obtain ⟨evs2, v2, hs2, hv2, hall2⟩ :=
        while_not_bit0_some hw _ _ (is_read_of_readb hw 0x1af) fuel _ _ h2
      obtain ⟨T, hT, hTr⟩ := setup_tail_regs s2
      subst hret
      have e3 : (setup_tail s2).regs = s2.regs ++ T := by rw [hT]
      have e2 : s2.regs = s1.regs ++ (evs2 ++ [io_event.read (0x1af * 0x04) v2]) := by rw [hs2]
      have e1 : s1.regs = (setup_prelude hw cea hdmi mode).regs ++
          (evs1 ++ [io_event.read (0x1a9 * 0x04) v1]) := by rw [hs1]
      refine ⟨rfl, P, evs1, v1, evs2, v2, T, ?_, hv1, hv2, hall1, hall2, hTr, hP9, hPf⟩
      simp only [e3, e2, e1, hP, List.append_assoc]

/-- On hardware whose lock bits read as set only from the `n`-th load on, the
set-up returns after more than `n` loads of register 0x1a9. -/
lemma setup_lock_after (cea : drm_display_mode → Nat) (hdmi : inno_hdmi)
    (mode : drm_display_mode) (n : Nat) :
    ∃ r, inno_hdmi_setup (hw_lock_after hdmi.regs n) cea (n + 1) hdmi mode = some r ∧
      n < (reads_of (0x1a9 * 0x04) (new_events hdmi r.2)).length := by
  obtain ⟨P, hP, hP9, hPf⟩ := setup_prelude_regs (hw_lock_after hdmi.regs n) cea hdmi mode
  have hhw : ∀ a t, hw_lock_after hdmi.regs n t a % 2 =
      if (reads_of a hdmi.regs).length + n ≤ (reads_of a t).length then 1 else 0 := by
    intro a t
    unfold hw_lock_after
    split_ifs <;> rfl
  obtain ⟨evs1, hrun1, hcnt1, hall1⟩ :=
    while_not_bit0_lock_after (hw_lock_after hdmi.regs n) _ _
      (is_read_of_readb _ 0x1a9) _ (hhw (0x1a9 * 0x04)) n (n + 1)
      (setup_prelude (hw_lock_after hdmi.regs n) cea hdmi mode)
      (by rw [hP, reads_of_append, hP9]; simp) (by omega)
  have hother : reads_of (0x1af * 0x04) evs1 = [] :=
    reads_of_other _ _ (by decide) evs1 hall1
  obtain ⟨evs2, hrun2, hcnt2, hall2⟩ :=
    while_not_bit0_lock_after (hw_lock_after hdmi.regs n) _ _
      (is_read_of_readb _ 0x1af) _ (hhw (0x1af * 0x04)) n (n + 1)
      { setup_prelude (hw_lock_after hdmi.regs n) cea hdmi mode with
        regs := (setup_prelude (hw_lock_after hdmi.regs n) cea hdmi mode).regs ++ evs1 }
      (by simp only [hP, reads_of_append, hPf, hother]; simp) (by omega)
  obtain ⟨T, hT, hTr⟩ := setup_tail_regs
    { setup_prelude (hw_lock_after hdmi.regs n) cea hdmi mode with
      regs := (setup_prelude (hw_lock_after hdmi.regs n) cea hdmi mode).regs ++ evs1 ++ evs2 }
  refine ⟨_, by rw [setup_eq, hrun1]; simp only [Option.bind]; rw [hrun2], ?_⟩
  have hev := new_events_of_append hdmi
    (setup_tail { setup_prelude (hw_lock_after hdmi.regs n) cea hdmi mode with
      regs := (setup_prelude (hw_lock_after hdmi.regs n) cea hdmi mode).regs ++ evs1 ++ evs2 })
    (P ++ (evs1 ++ (evs2 ++ T))) (by rw [hT]; simp only [hP, List.append_assoc])
  simp only [hP, reads_of_append, hP9, List.length_append, List.length_nil] at hcnt1
  simp only [hev, reads_of_append, List.length_append, hP9, List.length_nil]
  omega

/-- On hardware whose lock bits read as set only from the `n`-th load on, the
power-up returns after more than `n` loads of register 0x1a9. -/
lemma power_up_lock_after (hdmi : inno_hdmi) (n : Nat) :
    ∃ h', inno_hdmi_power_up (hw_lock_after hdmi.regs n) (n + 1) hdmi = some h' ∧
      n < (reads_of (0x1a9 * 0x04) (new_events hdmi h')).length := by
  obtain ⟨P, hPe, hP9, hPf⟩ := power_up_prelude_regs (hw_lock_after hdmi.regs n) hdmi
  have hP : (power_up_prelude (hw_lock_after hdmi.regs n) hdmi).regs = hdmi.regs ++ P := by
    rw [hPe]
  have hhw : ∀ a t, hw_lock_after hdmi.regs n t a % 2 =
      if (reads_of a hdmi.regs).length + n ≤ (reads_of a t).length then 1 else 0 := by
    intro a t
    unfold hw_lock_after
    split_ifs <;> rfl
  obtain ⟨evs1, hrun1, hcnt1, hall1⟩ :=
    while_not_bit0_lock_after (hw_lock_after hdmi.regs n) _ _
      (is_read_of_readl _ (0x1a9 * 0x04)) _ (hhw (0x1a9 * 0x04)) n (n + 1)
      (power_up_prelude (hw_lock_after hdmi.regs n) hdmi)
      (by rw [hP, reads_of_append, hP9]; simp) (by omega)
  have hother : reads_of (0x1af * 0x04) evs1 = [] :=
    reads_of_other _ _ (by decide) evs1 hall1
  obtain ⟨evs2, hrun2, hcnt2, hall2⟩ :=
    while_not_bit0_lock_after (hw_lock_after hdmi.regs n) _ _
      (is_read_of_readl _ (0x1af * 0x04)) _ (hhw (0x1af * 0x04)) n (n + 1)
      { power_up_prelude (hw_lock_after hdmi.regs n) hdmi with
        regs := (power_up_prelude (hw_lock_after hdmi.regs n) hdmi).regs ++ evs1 }
      (by simp only [hP, reads_of_append, hPf, hother]; simp) (by omega)
  obtain ⟨T, hT, hTr⟩ := power_up_tail_regs
    { power_up_prelude (hw_lock_after hdmi.regs n) hdmi with
      regs := (power_up_prelude (hw_lock_after hdmi.regs n) hdmi).regs ++ evs1 ++ evs2 }
  refine ⟨_, by rw [power_up_eq, hrun1]; simp only [Option.bind]; rw [hrun2], ?_⟩
  have hev := new_events_of_append hdmi
    (power_up_tail { power_up_prelude (hw_lock_after hdmi.regs n) hdmi with
      regs := (power_up_prelude (hw_lock_after hdmi.regs n) hdmi).regs ++ evs1 ++ evs2 })
    (P ++ (evs1 ++ (evs2 ++ T))) (by rw [hT]; simp only [hP, List.append_assoc])
  simp only [hP, reads_of_append, hP9, List.length_append, List.length_nil] at hcnt1
  simp only [hev, reads_of_append, List.length_append, hP9, List.length_nil]
  omega

/-! ## Mode-set: the unsupported rate, the lock polls, the stored mode -/

/-- C8, evaluated at the failing input: a mode with pixel clock 100 000 kHz on
hardware whose lock bits read as set.  The pre-PLL lookup fails with `-EINVAL`
and `inno_hdmi_phy_clk_set_rate` returns that error, which the handle records in
`pre_cfg`; but `inno_hdmi_setup` drops the returned value, goes on to program the
transmitter and returns 0. -/
theorem setup_returns_zero_on_unsupported_rate :
    inno_hdmi_phy_get_pre_pll_cfg (int_to_ulong (wrap_int ((mode_of_clock 100000).clock * 1000)))
      = .error (-EINVAL) ∧
    (inno_hdmi_phy_clk_set_rate { inno_hdmi_zero with tmds_rate := 100000000 } 100000000).1
      = -EINVAL ∧
    Option.map Prod.fst
      (inno_hdmi_setup hw_ones cea_by_clock 1 inno_hdmi_zero (mode_of_clock 100000)) = some 0 ∧
    Option.map (fun r => r.2.pre_cfg)
      (inno_hdmi_setup hw_ones cea_by_clock 1 inno_hdmi_zero (mode_of_clock 100000))
      = some (some (.error (-EINVAL))) ∧
    Option.map (fun r => (writes r.2.regs).getLast?)
      (inno_hdmi_setup hw_ones cea_by_clock 1 inno_hdmi_zero (mode_of_clock 100000))
      = some (some (0xce * 0x04, 0x1)) := by
  decide

/-- C9, as the claim states it, fails on hardware whose lock bits never read as
set: no amount of fuel lets `inno_hdmi_setup` or `inno_hdmi_power_up` come back,
so the poll is not bounded and no LockTimeout is produced. -/
theorem lock_polls_never_end_on_stuck_lock :
    ¬ ∃ fuel,
      (inno_hdmi_setup hw_zeros cea_by_clock fuel inno_hdmi_zero (mode_of_clock 148500)).isSome ∨
      (inno_hdmi_power_up hw_zeros fuel inno_hdmi_zero).isSome := by
  rintro ⟨fuel, h⟩
  rw [setup_stuck hw_zeros cea_by_clock fuel inno_hdmi_zero (mode_of_clock 148500)
      (Or.inl (fun _ => rfl)),
    power_up_stuck hw_zeros fuel inno_hdmi_zero (Or.inl (fun _ => rfl))] at h
  simp at h

/-- C9 (amended): the PLL lock polls of `inno_hdmi_setup` and `inno_hdmi_power_up`
are not bounded.  From every handle and for every mode: (1) when bit 0 of
register 0x1a9 or of 0x1af never reads 1, neither operation returns, whatever the
fuel; (2) and (3) for every number `n` there is a behaviour of the lock registers
on which the operation returns only after more than `n` loads of register 0x1a9;
(4) whenever `inno_hdmi_setup` returns it returns 0, there is no LockTimeout
result. -/
theorem lock_polls_unbounded (cea : drm_display_mode → Nat) (hdmi : inno_hdmi)
    (mode : drm_display_mode) :
    (∀ (hw : hw_model) (fuel : Nat),
      ((∀ t, hw t (0x1a9 * 0x04) % 2 = 0) ∨ (∀ t, hw t (0x1af * 0x04) % 2 = 0)) →
        inno_hdmi_setup hw cea fuel hdmi mode = none ∧ inno_hdmi_power_up hw fuel hdmi = none) ∧
    (∀ n : Nat, ∃ (hw : hw_model) (fuel : Nat) (r : Int × inno_hdmi),
      inno_hdmi_setup hw cea fuel hdmi mode = some r ∧
        n < (reads_of (0x1a9 * 0x04) (new_events hdmi r.2)).length) ∧
    (∀ n : Nat, ∃ (hw : hw_model) (fuel : Nat) (h' : inno_hdmi),
      inno_hdmi_power_up hw fuel hdmi = some h' ∧
        n < (reads_of (0x1a9 * 0x04) (new_events hdmi h')).length) ∧
    (∀ (hw : hw_model) (fuel : Nat) (r : Int × inno_hdmi),
      inno_hdmi_setup hw cea fuel hdmi mode = some r → r.1 = 0) := by
  refine ⟨fun hw fuel hst => ⟨setup_stuck hw cea fuel hdmi mode hst,
      power_up_stuck hw fuel hdmi hst⟩, fun n => ?_, fun n => ?_, fun hw fuel r hret => ?_⟩
  · obtain ⟨r, hr, hn⟩ := setup_lock_after cea hdmi mode n
    exact ⟨_, _, r, hr, hn⟩
  · obtain ⟨h', hr, hn⟩ := power_up_lock_after hdmi n
    exact ⟨_, _, h', hr, hn⟩
  · exact (setup_some hw cea fuel hdmi mode r hret).1

/-- Bit `i` of the byte `hdmi_modb` stores. -/
lemma modb_byte_testBit (x msk val i : Nat) :
    (modb_byte x msk val).testBit i =
      (decide (i < 8) && ((x.testBit i && !msk.testBit i) || (val.testBit i && msk.testBit i))) := by
  unfold modb_byte not32
  have h256 : (256 : Nat) = 2 ^ 8 := by norm_num
  rw [h256]
  simp only [Nat.testBit_mod_two_pow, Nat.testBit_or, Nat.testBit_and, Nat.testBit_xor,
    Nat.testBit_two_pow_sub_one]
  by_cases h8 : i < 8
  · have h32 : i < 32 := by omega
    simp [h8, h32]
  · simp [h8]

/-- The low eight bits of a loaded word are those of its low byte. -/
lemma testBit_low_byte (y i : Nat) (hi : i < 8) :
    (y % 2 ^ 32 % 256).testBit i = y.testBit i := by
  have h32 : i < 32 := by omega
  show (y % 2 ^ 32 % 2 ^ 8).testBit i = y.testBit i
  rw [Nat.testBit_mod_two_pow, Nat.testBit_mod_two_pow]
  simp [hi, h32]

/-- The byte `hdmi_modb` stores is a byte. -/
lemma modb_byte_lt (x msk val : Nat) : modb_byte x msk val < 256 := by
  unfold modb_byte
  exact Nat.mod_lt _ (by norm_num)

/-- Storing again over a byte that `hdmi_modb` stored changes nothing. -/
lemma modb_byte_idem (x msk val : Nat) :
    modb_byte (modb_byte x msk val) msk val = modb_byte x msk val := by
  apply Nat.eq_of_testBit_eq
  intro i
  simp only [modb_byte_testBit]
  by_cases h8 : i < 8 <;> cases x.testBit i <;> cases msk.testBit i <;> cases val.testBit i <;>
    simp [h8]

/-- What `hdmi_modb` does: one load and one store at the register, nothing else. -/
lemma hdmi_modb_eq (hw : hw_model) (hdmi : inno_hdmi) (offset msk val : Nat) :
    hdmi_modb hw hdmi offset msk val =
      { hdmi with
          regs := hdmi.regs ++
            [io_event.read (offset * 0x04) (hw hdmi.regs (offset * 0x04) % 2 ^ 32),
             io_event.write (offset * 0x04)
              (modb_byte (hw hdmi.regs (offset * 0x04) % 2 ^ 32 % 256) msk val)] } := by
  have hlt := modb_byte_lt (hw hdmi.regs (offset * 0x04) % 2 ^ 32 % 256) msk val
  have hmod : modb_byte (hw hdmi.regs (offset * 0x04) % 2 ^ 32 % 256) msk val % 2 ^ 32 =
      modb_byte (hw hdmi.regs (offset * 0x04) % 2 ^ 32 % 256) msk val :=
    Nat.mod_eq_of_lt (by omega)
  simp only [hdmi_modb, hdmi_readb, hdmi_writeb, readl_relaxed, writel_relaxed,
    List.append_assoc, List.singleton_append]
  rw [← hmod]
  rfl

/-- The register file after one more store. -/
lemma regfile_append_write (t : List io_event) (b v a : Nat) :
    ∀ init : Nat → Nat,
      regfile init (t ++ [io_event.write b v]) a = if a = b then v else regfile init t a := by
  induction t with
  | nil => intro init; simp [regfile]
  | cons e rest ih =>
    intro init
    cases e with
    | read c w => simpa [regfile] using ih init
    | write c w => simpa [regfile] using ih _

/-- A load leaves the register file as it is. -/
lemma regfile_append_read (t : List io_event) (b v a : Nat) :
    ∀ init : Nat → Nat, regfile init (t ++ [io_event.read b v]) a = regfile init t a := by
  induction t with
  | nil => intro init; simp [regfile]
  | cons e rest ih =>
    intro init
    cases e with
    | read c w => simpa [regfile] using ih init
    | write c w => simpa [regfile] using ih _

/-- The register file after a read-modify-write on a register file. -/
lemma regfile_hdmi_modb (init : Nat → Nat) (hdmi : inno_hdmi) (offset msk val a : Nat) :
    regfile init (hdmi_modb (hw_regfile init) hdmi offset msk val).regs a =
      if a = offset * 0x04 then
        modb_byte (regfile init hdmi.regs (offset * 0x04) % 2 ^ 32 % 256) msk val
      else regfile init hdmi.regs a := by
  rw [hdmi_modb_eq]
  have happ : ∀ (l : List io_event) (e1 e2 : io_event), l ++ [e1, e2] = (l ++ [e1]) ++ [e2] := by
    intro l e1 e2; simp
  simp only [happ, regfile_append_write, regfile_append_read, hw_regfile]

/-! ## Power mode -/

/-- Setting the power mode to NORMAL is one read-modify-write of the system
control register with the power mask and the power-on value. -/
lemma set_pwr_mode_normal_eq (hw : hw_model) (k : inno_hdmi_h) (hdmi : inno_hdmi) :
    inno_hdmi_set_pwr_mode hw k hdmi k.NORMAL =
      hdmi_modb hw hdmi k.HDMI_SYS_CTRL k.m_POWER k.v_PWR_ON := by
  simp [inno_hdmi_set_pwr_mode, inno_hdmi_sys_power]

/-- C11: over a register file (a load returns what was last stored), whatever the
header's values for the register, the mask and the power-on value, and from
every initial content and every handle: calling `inno_hdmi_set_pwr_mode` with
NORMAL twice leaves every register, HDMI_SYS_CTRL included, as one call leaves
it; a call leaves every register other than HDMI_SYS_CTRL as it was; and a call
changes no bit of the low byte of HDMI_SYS_CTRL outside the m_POWER mask. -/
theorem set_pwr_mode_normal_idempotent (k : inno_hdmi_h) (init : Nat → Nat) (hdmi : inno_hdmi) :
    (∀ a, regfile init
        (inno_hdmi_set_pwr_mode (hw_regfile init) k
          (inno_hdmi_set_pwr_mode (hw_regfile init) k hdmi k.NORMAL) k.NORMAL).regs a =
      regfile init (inno_hdmi_set_pwr_mode (hw_regfile init) k hdmi k.NORMAL).regs a) ∧
    (∀ a, a ≠ k.HDMI_SYS_CTRL * 0x04 →
      regfile init (inno_hdmi_set_pwr_mode (hw_regfile init) k hdmi k.NORMAL).regs a =
        regfile init hdmi.regs a) ∧
    (∀ i, i < 8 → k.m_POWER.testBit i = false →
      (regfile init (inno_hdmi_set_pwr_mode (hw_regfile init) k hdmi k.NORMAL).regs
          (k.HDMI_SYS_CTRL * 0x04)).testBit i =
        (regfile init hdmi.regs (k.HDMI_SYS_CTRL * 0x04)).testBit i) := by
  simp only [set_pwr_mode_normal_eq, regfile_hdmi_modb]
  refine ⟨fun a => ?_, fun a ha => ?_, fun i hi hm => ?_⟩
  · by_cases ha : a = k.HDMI_SYS_CTRL * 0x04
    · simp only [ha, if_true]
      have hlt := modb_byte_lt
        (regfile init hdmi.regs (k.HDMI_SYS_CTRL * 0x04) % 2 ^ 32 % 256) k.m_POWER k.v_PWR_ON
      rw [Nat.mod_eq_of_lt (show modb_byte _ k.m_POWER k.v_PWR_ON < 2 ^ 32 by omega),
        Nat.mod_eq_of_lt hlt, modb_byte_idem]
    · simp only [ha, if_false]
  · simp only [ha, if_false]
  · rw [if_pos True.intro, modb_byte_testBit, hm, testBit_low_byte _ _ hi]
    simp [hi]

/-! ## DDC master: the address write -/

/-- C12: `inno_hdmi_i2c_write` returns `-EINVAL` if and only if the message
length is not exactly 1 or its address is neither DDC_ADDR nor DDC_SEGMENT_ADDR;
and when it does, it returns the handle as it received it: latched word offset,
latched segment pointer and completion untouched, nothing added to the access
trace. -/
theorem i2c_write_einval_iff (k : inno_hdmi_h) (hdmi : inno_hdmi) (msgs : i2c_msg) :
    (Option.map Prod.fst (inno_hdmi_i2c_write k hdmi msgs) = some (-EINVAL) ↔
      (msgs.len ≠ 1 ∨ (msgs.addr ≠ k.DDC_ADDR ∧ msgs.addr ≠ k.DDC_SEGMENT_ADDR))) ∧
    ((msgs.len ≠ 1 ∨ (msgs.addr ≠ k.DDC_ADDR ∧ msgs.addr ≠ k.DDC_SEGMENT_ADDR)) →
      inno_hdmi_i2c_write k hdmi msgs = some (-EINVAL, hdmi)) := by
  by_cases hc : msgs.len ≠ 1 ∨ (msgs.addr ≠ k.DDC_ADDR ∧ msgs.addr ≠ k.DDC_SEGMENT_ADDR)
  · have hw : inno_hdmi_i2c_write k hdmi msgs = some (-EINVAL, hdmi) := by
      unfold inno_hdmi_i2c_write
      rw [if_pos hc]
    exact ⟨⟨fun _ => hc, fun _ => by rw [hw]; rfl⟩, fun _ => hw⟩
  · refine ⟨⟨fun h => ?_, fun h => absurd h hc⟩, fun h => absurd h hc⟩
    exfalso
    unfold inno_hdmi_i2c_write at h
    rw [if_neg hc] at h
    cases hi : hdmi.i2c with
    | none => rw [hi] at h; simp at h
    | some c => rw [hi] at h; simp [EINVAL] at h

/-! ## DDC master: the read -/

/-- Draining `n` bytes makes `n` loads of the FIFO register and nothing else, and
the bytes stored are the low bytes of the values loaded, in order. -/
lemma fifo_drain_spec (hw : hw_model) (k : inno_hdmi_h) :
    ∀ (n : Nat) (hdmi : inno_hdmi), ∃ evs,
      (fifo_drain hw k n hdmi).2 = { hdmi with regs := hdmi.regs ++ evs } ∧
      evs.length = n ∧
      (∀ e ∈ evs, ∃ v, e = io_event.read (k.HDMI_EDID_FIFO_ADDR * 0x04) v) ∧
      (fifo_drain hw k n hdmi).1 =
        (reads_of (k.HDMI_EDID_FIFO_ADDR * 0x04) evs).map (fun v => v % 256) := by
  intro n
  induction n with
  | zero => intro hdmi; exact ⟨[], by simp [fifo_drain], rfl, by simp, by simp [fifo_drain, reads_of]⟩
  | succ n ih =>
    intro hdmi
    obtain ⟨evs, hst, hlen, hall, hval⟩ := ih (hdmi_readb hw hdmi k.HDMI_EDID_FIFO_ADDR).2
    refine ⟨io_event.read (k.HDMI_EDID_FIFO_ADDR * 0x04)
      (hw hdmi.regs (k.HDMI_EDID_FIFO_ADDR * 0x04) % 2 ^ 32) :: evs, ?_, by simp [hlen], ?_, ?_⟩
    · simp only [fifo_drain, hst]
      simp [hdmi_readb, readl_relaxed]
    · intro e he
      rcases List.mem_cons.1 he with he | he
      · exact ⟨_, he⟩
      · exact hall e he
    · simp only [fifo_drain, hval, reads_of, if_true, List.map_cons]
      simp [hdmi_readb, readl_relaxed]

/-- The values of a run of loads from one offset are as many as the loads. -/
lemma reads_of_same_length (a : Nat) (l : List io_event)
    (hl : ∀ e ∈ l, ∃ w, e = io_event.read a w) : (reads_of a l).length = l.length := by
  induction l with
  | nil => rfl
  | cons e rest ih =>
    obtain ⟨w, hw⟩ := hl e (by simp)
    subst hw
    simp only [reads_of, if_true, List.length_cons]
    rw [ih (fun e he => hl e (by simp [he]))]

/-- A read whose wait times out: `-EAGAIN`, and handle and message come back as
they were. -/
lemma i2c_read_timeout (hw : hw_model) (irq : List io_event → Bool) (k : inno_hdmi_h)
    (hdmi : inno_hdmi) (c : inno_hdmi_i2c) (msgs : i2c_msg)
    (hi2c : hdmi.i2c = some c) (hto : c.cmp = 0 ∧ irq hdmi.regs = false) :
    inno_hdmi_i2c_read hw irq k hdmi msgs = some (-EAGAIN, hdmi, msgs) := by
  obtain ⟨hc, hirq⟩ := hto
  have hc' : ({ c with cmp := 0 } : inno_hdmi_i2c) = c := by
    cases c; simp_all
  have hh : ({ hdmi with i2c := some c } : inno_hdmi) = hdmi := by
    cases hdmi; simp_all
  simp [inno_hdmi_i2c_read, hi2c, wait_for_completion_timeout, hc, hirq, hc', hh]

/-- A read whose wait is answered: 0, one pending signal consumed if there was
one, `len` loads of the FIFO register and nothing else, and the low bytes of the
values loaded stored at the start of the buffer, in order. -/
lemma i2c_read_signalled (hw : hw_model) (irq : List io_event → Bool) (k : inno_hdmi_h)
    (hdmi : inno_hdmi) (c : inno_hdmi_i2c) (msgs : i2c_msg)
    (hi2c : hdmi.i2c = some c) (hsig : c.cmp ≠ 0 ∨ irq hdmi.regs = true) :
    ∃ evs, inno_hdmi_i2c_read hw irq k hdmi msgs =
        some (0, { hdmi with regs := hdmi.regs ++ evs, i2c := some { c with cmp := c.cmp - 1 } },
          { msgs with
              buf := (reads_of (k.HDMI_EDID_FIFO_ADDR * 0x04) evs).map (fun v => v % 256) ++
                msgs.buf.drop msgs.len }) ∧
      evs.length = msgs.len ∧
      (∀ e ∈ evs, ∃ v, e = io_event.read (k.HDMI_EDID_FIFO_ADDR * 0x04) v) := by
  have hw1 : (wait_for_completion_timeout (irq hdmi.regs) c.cmp).1 = 1 := by
    unfold wait_for_completion_timeout
    rcases hsig with h | h
    · simp [h]
    · by_cases h0 : c.cmp = 0 <;> simp [h0, h]
  have hw2 : (wait_for_completion_timeout (irq hdmi.regs) c.cmp).2 = c.cmp - 1 := by
    unfold wait_for_completion_timeout
    by_cases h0 : c.cmp = 0
    · by_cases h1 : irq hdmi.regs = true <;> simp [h0, h1]
    · simp [h0]
  obtain ⟨evs, hst, hlen, hall, hval⟩ := fifo_drain_spec hw k msgs.len
    { hdmi with i2c := some { c with cmp := c.cmp - 1 } }
  refine ⟨evs, ?_, hlen, hall⟩
  simp only [inno_hdmi_i2c_read, hi2c, hw1, hw2]
  simp [hst, hval]

set_option maxRecDepth 100000 in
/-- C13, as the claim states it, fails for a read of length 129 issued with the
completion already signalled: `inno_hdmi_i2c_read` returns 0, not `-EINVAL`, after
loading the FIFO register 129 times, and `inno_hdmi_i2c_xfer` returns 1, the number
of messages. -/
theorem i2c_read_129_succeeds :
    Option.map Prod.fst
      (inno_hdmi_i2c_read hw_ones irq_never sample_h (inno_hdmi_with_i2c 1)
        ⟨0x50, I2C_M_RD, 129, List.replicate 129 0⟩) = some 0 ∧
    Option.map (fun r => (reads_of (sample_h.HDMI_EDID_FIFO_ADDR * 0x04) r.2.1.regs).length)
      (inno_hdmi_i2c_read hw_ones irq_never sample_h (inno_hdmi_with_i2c 1)
        ⟨0x50, I2C_M_RD, 129, List.replicate 129 0⟩) = some 129 ∧
    Option.map Prod.fst
      (inno_hdmi_i2c_xfer hw_ones irq_never sample_h (inno_hdmi_with_i2c 1)
        [⟨0x50, I2C_M_RD, 129, List.replicate 129 0⟩]) = some 1 := by
  decide

/-- C13 (amended): the read path has no length limit.  For a DDC read message of
any length (128, 129 or more alike), when the completion has been signalled or
is signalled before the wait times out, `inno_hdmi_i2c_read` returns 0 after
loading the FIFO register exactly `len` times; and on no handle, message or
interrupt timing does it return `-EINVAL`. -/
theorem i2c_read_no_length_limit (hw : hw_model) (irq : List io_event → Bool)
    (k : inno_hdmi_h) (hdmi : inno_hdmi) (c : inno_hdmi_i2c) (msgs : i2c_msg)
    (hi2c : hdmi.i2c = some c) (hsig : c.cmp ≠ 0 ∨ irq hdmi.regs = true) :
    (∃ hdmi' msgs', inno_hdmi_i2c_read hw irq k hdmi msgs = some (0, hdmi', msgs') ∧
      (reads_of (k.HDMI_EDID_FIFO_ADDR * 0x04) (new_events hdmi hdmi')).length = msgs.len) ∧
    (∀ (irq' : List io_event → Bool) (h : inno_hdmi) (m : i2c_msg),
      Option.map Prod.fst (inno_hdmi_i2c_read hw irq' k h m) ≠ some (-EINVAL)) := by
  constructor
  · obtain ⟨evs, hrun, hlen, hall⟩ := i2c_read_signalled hw irq k hdmi c msgs hi2c hsig
    refine ⟨_, _, hrun, ?_⟩
    rw [new_events_of_append hdmi _ evs rfl, reads_of_same_length _ _ hall, hlen]
  · intro irq' h m
    cases hi : h.i2c with
    | none => simp [inno_hdmi_i2c_read, hi]
    | some c' =>
      by_cases hto : c'.cmp = 0 ∧ irq' h.regs = false
      · rw [i2c_read_timeout hw irq' k h c' m hi hto]
        simp [EAGAIN, EINVAL]
      · have hsig' : c'.cmp ≠ 0 ∨ irq' h.regs = true := by
          by_cases h0 : c'.cmp = 0
          · right
            cases hb : irq' h.regs
            · exact absurd ⟨h0, hb⟩ hto
            · rfl
          · exact Or.inl h0
        obtain ⟨evs, hrun, _, _⟩ := i2c_read_signalled hw irq' k h c' m hi hsig'
        rw [hrun]
        simp [EINVAL]

/-- C13 witness: a 128-byte read with the completion signalled returns 0 after
128 loads of the FIFO register. -/
theorem i2c_read_no_length_limit_witness :
    ∃ hdmi' msgs', inno_hdmi_i2c_read hw_ones irq_never sample_h (inno_hdmi_with_i2c 1)
        ⟨0x50, I2C_M_RD, 128, List.replicate 128 0⟩ = some (0, hdmi', msgs') ∧
      (reads_of (sample_h.HDMI_EDID_FIFO_ADDR * 0x04)
        (new_events (inno_hdmi_with_i2c 1) hdmi')).length = 128 :=
  (i2c_read_no_length_limit hw_ones irq_never sample_h (inno_hdmi_with_i2c 1) ⟨0, 0, false, 1⟩
    ⟨0x50, I2C_M_RD, 128, List.replicate 128 0⟩ rfl (Or.inl (by decide))).1

/-- C14, as the claim states it, fails when no EDID-ready interrupt has been or
is signalled: a read of length 0 waits on the completion and returns `-EAGAIN`,
not success; and where a signal is pending the read consumes it. -/
theorem i2c_read_len0_waits :
    inno_hdmi_i2c_read hw_ones irq_never sample_h (inno_hdmi_with_i2c 0) ⟨0x50, I2C_M_RD, 0, []⟩
      = some (-EAGAIN, inno_hdmi_with_i2c 0, ⟨0x50, I2C_M_RD, 0, []⟩) ∧
    inno_hdmi_i2c_read hw_ones irq_never sample_h (inno_hdmi_with_i2c 1) ⟨0x50, I2C_M_RD, 0, []⟩
      = some (0, inno_hdmi_with_i2c 0, ⟨0x50, I2C_M_RD, 0, []⟩) := by
  decide

/-- C14 (amended): a DDC read message of length 0 loads no register and leaves
the buffer as it is, but it is not a no-op: `inno_hdmi_i2c_read` waits on the
EDID-ready completion first.  It returns 0 exactly when the completion has been
signalled or is signalled before the timeout, `-EAGAIN` exactly when neither
happens, and a signal that was pending is consumed. -/
theorem i2c_read_len0 (hw : hw_model) (irq : List io_event → Bool) (k : inno_hdmi_h)
    (hdmi : inno_hdmi) (c : inno_hdmi_i2c) (msgs : i2c_msg)
    (hi2c : hdmi.i2c = some c) (hlen : msgs.len = 0) :
    ∃ ret hdmi', inno_hdmi_i2c_read hw irq k hdmi msgs = some (ret, hdmi', msgs) ∧
      hdmi'.regs = hdmi.regs ∧
      hdmi'.i2c = some { c with cmp := c.cmp - 1 } ∧
      (ret = 0 ↔ (c.cmp ≠ 0 ∨ irq hdmi.regs = true)) ∧
      (ret = -EAGAIN ↔ (c.cmp = 0 ∧ irq hdmi.regs = false)) := by
  by_cases hto : c.cmp = 0 ∧ irq hdmi.regs = false
  · refine ⟨-EAGAIN, hdmi, i2c_read_timeout hw irq k hdmi c msgs hi2c hto, rfl, ?_, ?_, ?_⟩
    · rw [hi2c]
      cases c
      simp_all
    · simp [EAGAIN, hto.1, hto.2]
    · simp [hto.1, hto.2]
  · have hsig : c.cmp ≠ 0 ∨ irq hdmi.regs = true := by
      by_cases h0 : c.cmp = 0
      · right
        cases hb : irq hdmi.regs
        · exact absurd ⟨h0, hb⟩ hto
        · rfl
      · exact Or.inl h0
    obtain ⟨evs, hrun, hl, _⟩ := i2c_read_signalled hw irq k hdmi c msgs hi2c hsig
    have hnil : evs = [] := List.length_eq_zero.1 (by rw [hl, hlen])
    subst hnil
    have hmsg : ({ msgs with
        buf := (reads_of (k.HDMI_EDID_FIFO_ADDR * 0x04) []).map (fun v => v % 256) ++
          msgs.buf.drop msgs.len } : i2c_msg) = msgs := by
      cases msgs
      simp_all [reads_of]
    rw [hmsg] at hrun
    refine ⟨0, _, hrun, by simp, rfl, ?_, ?_⟩
    · simp [hsig]
    · constructor
      · intro h; simp [EAGAIN] at h
      · intro h; exact absurd h hto

/-- C14 witness: a length-0 read with one signal pending returns 0 and leaves no
signal pending. -/
theorem i2c_read_len0_witness :
    ∃ ret hdmi', inno_hdmi_i2c_read hw_ones irq_never sample_h (inno_hdmi_with_i2c 1)
        ⟨0x50, I2C_M_RD, 0, []⟩ = some (ret, hdmi', ⟨0x50, I2C_M_RD, 0, []⟩) ∧
      hdmi'.regs = (inno_hdmi_with_i2c 1).regs ∧
      hdmi'.i2c = some { (⟨0, 0, false, 1⟩ : inno_hdmi_i2c) with cmp := 1 - 1 } ∧
      (ret = 0 ↔ ((1 : Nat) ≠ 0 ∨ irq_never (inno_hdmi_with_i2c 1).regs = true)) ∧
      (ret = -EAGAIN ↔ ((1 : Nat) = 0 ∧ irq_never (inno_hdmi_with_i2c 1).regs = false)) :=
  i2c_read_len0 hw_ones irq_never sample_h (inno_hdmi_with_i2c 1) ⟨0, 0, false, 1⟩
    ⟨0x50, I2C_M_RD, 0, []⟩ rfl rfl

/-- The stores of a concatenated trace. -/
lemma writes_append (l1 l2 : List io_event) : writes (l1 ++ l2) = writes l1 ++ writes l2 := by
  induction l1 with
  | nil => rfl
  | cons e rest ih =>
    cases e with
    | read b v => simpa [writes] using ih
    | write b v => simpa [writes] using ih

/-- A run of loads contains no store. -/
lemma writes_of_reads (a : Nat) (l : List io_event)
    (hl : ∀ e ∈ l, ∃ w, e = io_event.read a w) : writes l = [] := by
  induction l with
  | nil => rfl
  | cons e rest ih =>
    obtain ⟨w, hw⟩ := hl e (by simp)
    subst hw
    simp only [writes]
    exact ih (fun e he => hl e (by simp [he]))

/-- A trace none of whose stores goes to an offset has no value stored there. -/
lemma writes_to_eq_nil (a : Nat) (l : List io_event)
    (hl : ∀ w ∈ writes l, w.1 ≠ a) : writes_to a l = [] := by
  induction l with
  | nil => rfl
  | cons e rest ih =>
    cases e with
    | read b v => exact ih (by simpa [writes] using hl)
    | write b v =>
      have hb : b ≠ a := hl (b, v) (by simp [writes])
      simp only [writes_to, hb, if_false]
      exact ih (fun w hw => hl w (by simp [writes, hw]))

/-- An accepted address write: 0, the completion reset, the byte latched, and
the three EDID registers stored in order; the lock is not touched. -/
lemma i2c_write_ok (k : inno_hdmi_h) (hdmi : inno_hdmi) (c : inno_hdmi_i2c) (msgs : i2c_msg)
    (hi2c : hdmi.i2c = some c)
    (hok : ¬ (msgs.len ≠ 1 ∨ (msgs.addr ≠ k.DDC_ADDR ∧ msgs.addr ≠ k.DDC_SEGMENT_ADDR))) :
    inno_hdmi_i2c_write k hdmi msgs =
        some (0, { hdmi with
                    i2c := some (i2c_latch k c msgs)
                    regs := hdmi.regs ++
                      [reg_write k.HDMI_EDID_FIFO_OFFSET 0,
                       reg_write k.HDMI_EDID_WORD_ADDR ((i2c_latch k c msgs).ddc_addr % 2 ^ 32),
                       reg_write k.HDMI_EDID_SEGMENT_POINTER
                        ((i2c_latch k c msgs).segment_addr % 2 ^ 32)] }) ∧
      (i2c_latch k c msgs).lock = c.lock ∧ (i2c_latch k c msgs).cmp = 0 := by
  unfold inno_hdmi_i2c_write
  rw [if_neg hok, hi2c]
  refine ⟨?_, ?_, ?_⟩
  · simp only [hdmi_writeb, writel_relaxed, reg_write, List.append_assoc]
    rfl
  · simp only [i2c_latch, reinit_completion]
    split_ifs <;> rfl
  · simp only [i2c_latch, reinit_completion]
    split_ifs <;> rfl

/-- The message loop always comes back when the adapter exists; it only extends
the trace, its stores go to the three EDID registers only, and it leaves the
lock and the TMDS rate as they are. -/
lemma xfer_loop_spec (hw : hw_model) (irq : List io_event → Bool) (k : inno_hdmi_h) :
    ∀ (msgs : List i2c_msg) (ret : Int) (hdmi : inno_hdmi) (c : inno_hdmi_i2c),
      hdmi.i2c = some c →
      ∃ ret' hdmi' msgs' evs c', xfer_loop hw irq k msgs ret hdmi = some (ret', hdmi', msgs') ∧
        hdmi'.regs = hdmi.regs ++ evs ∧ hdmi'.i2c = some c' ∧ c'.lock = c.lock ∧
        hdmi'.tmds_rate = hdmi.tmds_rate ∧
        ∀ w ∈ writes evs, w.1 = k.HDMI_EDID_FIFO_OFFSET * 0x04 ∨
          w.1 = k.HDMI_EDID_WORD_ADDR * 0x04 ∨ w.1 = k.HDMI_EDID_SEGMENT_POINTER * 0x04 := by
  intro msgs
  induction msgs with
  | nil =>
    intro ret hdmi c hi2c
    exact ⟨ret, hdmi, [], [], c, rfl, by simp, hi2c, rfl, rfl, by simp [writes]⟩
  | cons m rest ih =>
    intro ret hdmi c hi2c
    by_cases hrd : m.flags &&& I2C_M_RD ≠ 0
    · -- a read message
      by_cases hto : c.cmp = 0 ∧ irq hdmi.regs = false
      · have hrun := i2c_read_timeout hw irq k hdmi c m hi2c hto
        refine ⟨-EAGAIN, hdmi, m :: rest, [], c, ?_, by simp, hi2c, rfl, rfl, by simp [writes]⟩
        simp [xfer_loop, hrd, hrun, EAGAIN]
      · have hsig : c.cmp ≠ 0 ∨ irq hdmi.regs = true := by
          by_cases h0 : c.cmp = 0
          · right
            cases hb : irq hdmi.regs
            · exact absurd ⟨h0, hb⟩ hto
            · rfl
          · exact Or.inl h0
        obtain ⟨evs, hrun, hlen, hall⟩ := i2c_read_signalled hw irq k hdmi c m hi2c hsig
        obtain ⟨ret', h', msgs', evs', c', hloop, hregs, hi', hlock, hrate, hw'⟩ :=
          ih 0 { hdmi with regs := hdmi.regs ++ evs, i2c := some { c with cmp := c.cmp - 1 } }
            { c with cmp := c.cmp - 1 } rfl
        refine ⟨ret', h',
          { m with
              buf := (reads_of (k.HDMI_EDID_FIFO_ADDR * 0x04) evs).map (fun v => v % 256) ++
                m.buf.drop m.len } :: msgs',
          evs ++ evs', c', ?_, ?_, hi', hlock, hrate, ?_⟩
        · simp [xfer_loop, hrd, hrun, hloop]
        · rw [hregs]; simp
        · intro w hw
          rw [writes_append, writes_of_reads _ _ hall] at hw
          exact hw' w (by simpa using hw)
    · -- a write message
      by_cases hbad : m.len ≠ 1 ∨ (m.addr ≠ k.DDC_ADDR ∧ m.addr ≠ k.DDC_SEGMENT_ADDR)
      · have hrun : inno_hdmi_i2c_write k hdmi m = some (-EINVAL, hdmi) := by
          unfold inno_hdmi_i2c_write
          rw [if_pos hbad]
        refine ⟨-EINVAL, hdmi, m :: rest, [], c, ?_, by simp, hi2c, rfl, rfl, by simp [writes]⟩
        simp [xfer_loop, hrd, hrun, EINVAL]
      · obtain ⟨hrun, hlock1, _⟩ := i2c_write_ok k hdmi c m hi2c hbad
        generalize i2c_latch k c m = c1 at hrun hlock1
        obtain ⟨ret', h', msgs', evs', c', hloop, hregs, hi', hlock, hrate, hw'⟩ :=
          ih 0 { hdmi with
                  i2c := some c1
                  regs := hdmi.regs ++
                    [reg_write k.HDMI_EDID_FIFO_OFFSET 0,
                     reg_write k.HDMI_EDID_WORD_ADDR (c1.ddc_addr % 2 ^ 32),
                     reg_write k.HDMI_EDID_SEGMENT_POINTER (c1.segment_addr % 2 ^ 32)] }
            c1 rfl
        refine ⟨ret', h', m :: msgs',
          [reg_write k.HDMI_EDID_FIFO_OFFSET 0,
           reg_write k.HDMI_EDID_WORD_ADDR (c1.ddc_addr % 2 ^ 32),
           reg_write k.HDMI_EDID_SEGMENT_POINTER (c1.segment_addr % 2 ^ 32)] ++ evs',
          c', ?_, ?_, hi', hlock.trans hlock1, hrate, ?_⟩
        · simp only [Nat.reducePow] at hloop hrun
          simp [xfer_loop, hrd, hrun, hloop]
        · rw [hregs]; simp
        · intro w hw
          rw [writes_append] at hw
          rcases List.mem_append.1 hw with h1 | h2
          · simp only [writes, reg_write, List.mem_cons, List.mem_singleton, List.not_mem_nil,
              or_false] at h1
            rcases h1 with h1 | h1 | h1 <;> subst h1 <;> simp
          · exact hw' w h2

/-- The transfer on an existing adapter whose lock is free always comes back.
It extends the trace by the two opening stores, the accesses of the message
loop, and the closing store; it leaves the lock free and the TMDS rate as it
was. -/
lemma xfer_spec (hw : hw_model) (irq : List io_event → Bool) (k : inno_hdmi_h)
    (hdmi : inno_hdmi) (c : inno_hdmi_i2c) (msgs : List i2c_msg)
    (hi2c : hdmi.i2c = some c) (hlock : c.lock = false) :
    ∃ ret hdmi' msgs' mid c', inno_hdmi_i2c_xfer hw irq k hdmi msgs = some (ret, hdmi', msgs') ∧
      hdmi'.regs = hdmi.regs ++
        (reg_write k.HDMI_INTERRUPT_MASK1 (k.m_INT_EDID_READY % 2 ^ 32) ::
          reg_write k.HDMI_INTERRUPT_STATUS1 (k.m_INT_EDID_READY % 2 ^ 32) ::
            (mid ++ [reg_write k.HDMI_INTERRUPT_MASK1 0])) ∧
      hdmi'.i2c = some c' ∧ c'.lock = false ∧ hdmi'.tmds_rate = hdmi.tmds_rate ∧
      ∀ w ∈ writes mid, w.1 = k.HDMI_EDID_FIFO_OFFSET * 0x04 ∨
        w.1 = k.HDMI_EDID_WORD_ADDR * 0x04 ∨ w.1 = k.HDMI_EDID_SEGMENT_POINTER * 0x04 := by
  obtain ⟨ret', h', msgs', evs, c', hloop, hregs, hi', hlk, hrate, hw'⟩ :=
    xfer_loop_spec hw irq k msgs 0
      (hdmi_writeb (hdmi_writeb { hdmi with i2c := some { c with lock := true } }
        k.HDMI_INTERRUPT_MASK1 k.m_INT_EDID_READY) k.HDMI_INTERRUPT_STATUS1 k.m_INT_EDID_READY)
      { c with lock := true } rfl
  have hx : inno_hdmi_i2c_xfer hw irq k hdmi msgs =
      some (if ret' = 0 then (msgs.length : Int) else ret',
        { hdmi_writeb h' k.HDMI_INTERRUPT_MASK1 0 with
          i2c := (hdmi_writeb h' k.HDMI_INTERRUPT_MASK1 0).i2c.map (fun c => { c with lock := false }) },
        msgs') := by
    unfold inno_hdmi_i2c_xfer
    rw [hi2c]
    simp only [hlock, Bool.false_eq_true, if_false]
    rw [hloop]
  refine ⟨_, _, msgs', evs, { c' with lock := false }, hx, ?_, ?_, rfl, ?_, hw'⟩
  · simp only [hdmi_writeb, writel_relaxed] at hregs ⊢
    rw [hregs]
    simp [reg_write]
  · simp [hdmi_writeb, writel_relaxed, hi']
  · simp only [hdmi_writeb, writel_relaxed] at hrate ⊢
    rw [hrate]

/-- C16: for every message array, `inno_hdmi_i2c_xfer` called on an existing
adapter takes the DDC lock on entry (it does not come back while the lock is
held by someone else) and, with the lock free, always comes back: its register
stores begin with HDMI_INTERRUPT_MASK1 <- m_INT_EDID_READY and
HDMI_INTERRUPT_STATUS1 <- m_INT_EDID_READY and end with HDMI_INTERRUPT_MASK1 <- 0,
and the lock is free afterwards, whatever the messages were and whether or not
one of them failed. -/
theorem xfer_brackets_and_unlocks (hw : hw_model) (irq : List io_event → Bool)
    (k : inno_hdmi_h) (hdmi : inno_hdmi) (c : inno_hdmi_i2c) (msgs : List i2c_msg)
    (hi2c : hdmi.i2c = some c) :
    (c.lock = true → inno_hdmi_i2c_xfer hw irq k hdmi msgs = none) ∧
    (c.lock = false →
      ∃ ret hdmi' msgs' mid c', inno_hdmi_i2c_xfer hw irq k hdmi msgs = some (ret, hdmi', msgs') ∧
        writes (new_events hdmi hdmi') =
          (k.HDMI_INTERRUPT_MASK1 * 0x04, k.m_INT_EDID_READY % 2 ^ 32) ::
            (k.HDMI_INTERRUPT_STATUS1 * 0x04, k.m_INT_EDID_READY % 2 ^ 32) ::
              (mid ++ [(k.HDMI_INTERRUPT_MASK1 * 0x04, 0)]) ∧
        hdmi'.i2c = some c' ∧ c'.lock = false) := by
  constructor
  · intro hl
    unfold inno_hdmi_i2c_xfer
    rw [hi2c]
    simp [hl]
  · intro hl
    obtain ⟨ret, h', msgs', mid, c', hrun, hregs, hi', hlk, _, _⟩ :=
      xfer_spec hw irq k hdmi c msgs hi2c hl
    refine ⟨ret, h', msgs', writes mid, c', hrun, ?_, hi', hlk⟩
    rw [new_events_of_append hdmi h' _ hregs]
    simp [writes, reg_write, writes_append]

/-- C16 witness: an offset write, a read that times out and a further write that
is never reached; the transfer returns `-EAGAIN` with the stores bracketed and
the lock free. -/
theorem xfer_brackets_and_unlocks_witness :
    ∃ ret hdmi' msgs' mid c',
      inno_hdmi_i2c_xfer hw_ones irq_never sample_h (inno_hdmi_with_i2c 0)
        [⟨0x50, 0, 1, [0x80]⟩, ⟨0x50, I2C_M_RD, 4, [0, 0, 0, 0]⟩, ⟨0x50, 0, 1, [0x00]⟩]
          = some (ret, hdmi', msgs') ∧
        writes (new_events (inno_hdmi_with_i2c 0) hdmi') =
          (sample_h.HDMI_INTERRUPT_MASK1 * 0x04, sample_h.m_INT_EDID_READY % 2 ^ 32) ::
            (sample_h.HDMI_INTERRUPT_STATUS1 * 0x04, sample_h.m_INT_EDID_READY % 2 ^ 32) ::
              (mid ++ [(sample_h.HDMI_INTERRUPT_MASK1 * 0x04, 0)]) ∧
        hdmi'.i2c = some c' ∧ c'.lock = false :=
  (xfer_brackets_and_unlocks hw_ones irq_never sample_h (inno_hdmi_with_i2c 0) ⟨0, 0, false, 0⟩
    [⟨0x50, 0, 1, [0x80]⟩, ⟨0x50, I2C_M_RD, 4, [0, 0, 0, 0]⟩, ⟨0x50, 0, 1, [0x00]⟩] rfl).2 rfl

/-- C17, as the claim states it, fails on this run: the bus frequency is
programmed at bind from 51 200 000 Hz (divider 128: 0x80, 0x00), then a mode-set
to 148 500 kHz stores the new TMDS rate, then a transfer is made.  The transfer
stores nothing to DDC_BUS_FREQ_L or DDC_BUS_FREQ_H, which still hold 0x80 and
0x00, while the new rate's divider would be 371 (0x73, 0x01). -/
theorem xfer_after_mode_set_keeps_bind_divider :
    Option.bind
      (inno_hdmi_encoder_mode_set hw_ones cea_by_clock 1
        (inno_hdmi_i2c_init sample_h { inno_hdmi_with_i2c 0 with tmds_rate := 51200000 })
        (mode_of_clock 148500) (mode_of_clock 148500))
      (fun h2 =>
        Option.map
          (fun r => (h2.tmds_rate,
            writes_to (sample_h.DDC_BUS_FREQ_L * 0x04) (new_events h2 r.2.1),
            writes_to (sample_h.DDC_BUS_FREQ_H * 0x04) (new_events h2 r.2.1),
            writes_to (sample_h.DDC_BUS_FREQ_L * 0x04) r.2.1.regs,
            writes_to (sample_h.DDC_BUS_FREQ_H * 0x04) r.2.1.regs))
          (inno_hdmi_i2c_xfer hw_ones irq_always sample_h h2
            [⟨0x50, 0, 1, [0x00]⟩, ⟨0x50, I2C_M_RD, 4, [0, 0, 0, 0]⟩]))
      = some (148500000, [], [], [0x80], [0x00]) ∧
    (148500000 >>> 2) / sample_h.HDMI_SCL_RATE = 371 ∧ 371 % 256 = 0x73 ∧ 371 / 256 = 0x01 := by
  decide

/-- C17 (amended): a DDC transfer does not program the bus frequency.  Where the
header gives DDC_BUS_FREQ_L and DDC_BUS_FREQ_H offsets other than those of the
interrupt mask, the interrupt status and the three EDID registers, every call of
`inno_hdmi_i2c_xfer` (adapter present, lock free) comes back having stored
nothing to either, and with the TMDS rate unchanged.  The dividers are stored by
`inno_hdmi_i2c_init` alone: for div = (tmds_rate >> 2) / HDMI_SCL_RATE (fitting
an `int`) it stores the low byte of div to DDC_BUS_FREQ_L, then the next byte to
DDC_BUS_FREQ_H, then masks and clears the EDID interrupt. -/
theorem xfer_does_not_program_ddc_bus_freq (hw : hw_model) (irq : List io_event → Bool)
    (k : inno_hdmi_h) (hdmi : inno_hdmi) (c : inno_hdmi_i2c) (msgs : List i2c_msg)
    (hi2c : hdmi.i2c = some c) (hlock : c.lock = false)
    (hL : k.DDC_BUS_FREQ_L ∉ [k.HDMI_INTERRUPT_MASK1, k.HDMI_INTERRUPT_STATUS1,
      k.HDMI_EDID_FIFO_OFFSET, k.HDMI_EDID_WORD_ADDR, k.HDMI_EDID_SEGMENT_POINTER])
    (hH : k.DDC_BUS_FREQ_H ∉ [k.HDMI_INTERRUPT_MASK1, k.HDMI_INTERRUPT_STATUS1,
      k.HDMI_EDID_FIFO_OFFSET, k.HDMI_EDID_WORD_ADDR, k.HDMI_EDID_SEGMENT_POINTER]) :
    (∃ ret hdmi' msgs', inno_hdmi_i2c_xfer hw irq k hdmi msgs = some (ret, hdmi', msgs') ∧
      writes_to (k.DDC_BUS_FREQ_L * 0x04) (new_events hdmi hdmi') = [] ∧
      writes_to (k.DDC_BUS_FREQ_H * 0x04) (new_events hdmi hdmi') = [] ∧
      hdmi'.tmds_rate = hdmi.tmds_rate) ∧
    ((hdmi.tmds_rate >>> 2) / k.HDMI_SCL_RATE < 2 ^ 31 →
      (inno_hdmi_i2c_init k hdmi).regs = hdmi.regs ++
        [ reg_write k.DDC_BUS_FREQ_L ((hdmi.tmds_rate >>> 2) / k.HDMI_SCL_RATE % 256),
          reg_write k.DDC_BUS_FREQ_H ((hdmi.tmds_rate >>> 2) / k.HDMI_SCL_RATE / 256 % 256),
          reg_write k.HDMI_INTERRUPT_MASK1 0,
          reg_write k.HDMI_INTERRUPT_STATUS1 (k.m_INT_EDID_READY % 2 ^ 32) ]) := by
  constructor
  · obtain ⟨ret, h', msgs', mid, c', hrun, hregs, _, _, hrate, hmid⟩ :=
      xfer_spec hw irq k hdmi c msgs hi2c hlock
    have hev := new_events_of_append hdmi h' _ hregs
    simp only [List.mem_cons, List.mem_singleton, List.not_mem_nil, or_false, not_or] at hL hH
    have key : ∀ r, r ≠ k.HDMI_INTERRUPT_MASK1 → r ≠ k.HDMI_INTERRUPT_STATUS1 →
        r ≠ k.HDMI_EDID_FIFO_OFFSET → r ≠ k.HDMI_EDID_WORD_ADDR →
        r ≠ k.HDMI_EDID_SEGMENT_POINTER →
        writes_to (r * 0x04) (new_events hdmi h') = [] := by
      intro r h1 h2 h3 h4 h5
      rw [hev]
      apply writes_to_eq_nil
      intro w hw
      have hcons : ∀ (e1 e2 : io_event) (l : List io_event),
          e1 :: e2 :: l = [e1, e2] ++ l := fun _ _ _ => rfl
      rw [hcons, writes_append, writes_append] at hw
      simp only [writes, reg_write, List.mem_append, List.mem_cons, List.mem_singleton,
        List.not_mem_nil, or_false] at hw
      rcases hw with (hw | hw) | hw | hw
      · subst hw; simp only; omega
      · subst hw; simp only; omega
      · rcases hmid w hw with h | h | h <;> omega
      · subst hw; simp only; omega
    exact ⟨ret, h', msgs', hrun, key _ hL.1 hL.2.1 hL.2.2.1 hL.2.2.2.1 hL.2.2.2.2,
      key _ hH.1 hH.2.1 hH.2.2.1 hH.2.2.2.1 hH.2.2.2.2, hrate⟩
  · intro hdiv
    simp only [inno_hdmi_i2c_init]
    generalize (hdmi.tmds_rate >>> 2) / k.HDMI_SCL_RATE = d at hdiv ⊢
    have hwrap : wrap_int (d : Int) = (d : Int) := by
      unfold wrap_int
      have : (2 : Nat) ^ 31 = 2147483648 := by norm_num
      omega
    have h1 : (((d : Int) % 256).toNat) % 2 ^ 32 = d % 256 := by
      have : (2 : Nat) ^ 32 = 4294967296 := by norm_num
      omega
    have h2 : ((((d : Int) / 256) % 256).toNat) % 2 ^ 32 = d / 256 % 256 := by
      have : (2 : Nat) ^ 32 = 4294967296 := by norm_num
      omega
    simp only [hwrap, hdmi_writeb, writel_relaxed, reg_write, List.append_assoc, h1, h2,
      Nat.zero_mod]
    rfl

/-- C17 witness: the bind-time handle, on which the transfer stores nothing to
the frequency registers. -/
theorem xfer_does_not_program_ddc_bus_freq_witness :
    ∃ ret hdmi' msgs',
      inno_hdmi_i2c_xfer hw_ones irq_always sample_h
          { inno_hdmi_with_i2c 0 with tmds_rate := 51200000 }
          [⟨0x50, 0, 1, [0x00]⟩, ⟨0x50, I2C_M_RD, 4, [0, 0, 0, 0]⟩] = some (ret, hdmi', msgs') ∧
        writes_to (sample_h.DDC_BUS_FREQ_L * 0x04)
          (new_events { inno_hdmi_with_i2c 0 with tmds_rate := 51200000 } hdmi') = [] ∧
        writes_to (sample_h.DDC_BUS_FREQ_H * 0x04)
          (new_events { inno_hdmi_with_i2c 0 with tmds_rate := 51200000 } hdmi') = [] ∧
        hdmi'.tmds_rate = 51200000 :=
  (xfer_does_not_program_ddc_bus_freq hw_ones irq_always sample_h
    { inno_hdmi_with_i2c 0 with tmds_rate := 51200000 } ⟨0, 0, false, 0⟩
    [⟨0x50, 0, 1, [0x00]⟩, ⟨0x50, I2C_M_RD, 4, [0, 0, 0, 0]⟩] rfl rfl
    (by decide) (by decide)).1

/-! ## Interrupt handlers -/

/-- The rows the pre-PLL lookup can return carry exactly the fifteen supported
rates. -/
lemma pre_row_diag_rates :
    (∀ i, i < 28 → (pre_row i).pixclock = (pre_row i).tmdsclock →
      (pre_row i).pixclock ∈ supported_rates) ∧
    (∀ t ∈ supported_rates, ∃ i, i < 28 ∧ (pre_row i).pixclock = t ∧ (pre_row i).tmdsclock = t) := by
  decide

/-- The pre-PLL lookup succeeds exactly on the rates that truncate to one of the
fifteen supported rates. -/
lemma get_pre_pll_cfg_ok_iff_supported (r : Nat) :
    (∃ i, inno_hdmi_phy_get_pre_pll_cfg r = .ok i) ↔ r / 1000 * 1000 ∈ supported_rates := by
  constructor
  · rintro ⟨i, hok⟩
    obtain ⟨hi, hp, ht⟩ := (get_pre_pll_cfg_ok_iff r i).1 hok
    have := pre_row_diag_rates.1 i hi (by rw [hp, ht])
    rwa [hp] at this
  · intro hmem
    obtain ⟨i, hi, hp, ht⟩ := pre_row_diag_rates.2 _ hmem
    exact ⟨i, (get_pre_pll_cfg_ok_iff r i).2 ⟨hi, hp, ht⟩⟩

/-- C20, as the claim states it, fails for the CEA-861 mode 1440x480p60 (VIC 14,
54 MHz): a CEA lookup that knows it makes `inno_hdmi_connector_mode_valid` return
MODE_OK, and the pre-PLL lookup for 54 000 000 Hz fails with `-EINVAL`. -/
theorem mode_valid_accepts_unsupported_rate :
    inno_hdmi_connector_mode_valid cea_with_vic14 mode_1440x480p60 = drm_mode_status.MODE_OK ∧
    int_to_ulong (wrap_int (mode_1440x480p60.clock * 1000)) = 54000000 ∧
    inno_hdmi_phy_get_pre_pll_cfg (int_to_ulong (wrap_int (mode_1440x480p60.clock * 1000)))
      = .error (-EINVAL) := by
  decide

/-- C20 (amended): `inno_hdmi_connector_mode_valid` looks at the VIC alone: it
returns MODE_OK if and only if the CEA lookup gives the mode a VIC of at least 1,
and MODE_BAD otherwise, whatever the clock.  The pre-PLL lookup for the rate
mode-set derives from the mode, `mode->clock * 1000`, succeeds if and only if
that rate, truncated to whole kHz, is one of the fifteen rates that are both
pixclock and tmdsclock of a table row; so an accepted mode meets no
UnsupportedRate exactly when its rate is one of those. -/
theorem mode_valid_accepts_by_vic (cea : drm_display_mode → Nat) (mode : drm_display_mode) :
    (inno_hdmi_connector_mode_valid cea mode = drm_mode_status.MODE_OK ↔ 1 ≤ cea mode % 256) ∧
    (inno_hdmi_connector_mode_valid cea mode = drm_mode_status.MODE_BAD ↔ cea mode % 256 = 0) ∧
    ((∃ i, inno_hdmi_phy_get_pre_pll_cfg (int_to_ulong (wrap_int (mode.clock * 1000))) = .ok i) ↔
      int_to_ulong (wrap_int (mode.clock * 1000)) / 1000 * 1000 ∈ supported_rates) := by
  refine ⟨?_, ?_, get_pre_pll_cfg_ok_iff_supported _⟩
  · unfold inno_hdmi_connector_mode_valid
    by_cases h : cea mode % 256 ≥ 1
    · simp [h]
    · simp [h]
  · unfold inno_hdmi_connector_mode_valid
    by_cases h : cea mode % 256 ≥ 1
    · have hne : cea mode % 256 ≠ 0 := by omega
      simp [h, hne]
    · have hz : cea mode % 256 = 0 := by omega
      simp [hz]

/-! ## Bind: the error paths -/

/-- C21, evaluated at the failing inputs.  With both supplies, the three clocks
and the reset brought up, `inno_hdmi_bind` fails at the interrupt lookup
(`platform_get_irq` returns `-ENXIO`): it returns `-ENXIO` having disabled
`hdmi_1p8` only, so `hdmi_0p9`, `sys_clk`, `mclk` and `bclk` stay enabled.  The same
is left behind when the adapter creation, the registration or the interrupt
request fails.  A failure to enable `hdmi_0p9` is unwound in full, and
`inno_hdmi_unbind` after a successful bind releases both supplies and the three
clocks. -/
theorem bind_error_leaves_0p9_and_clocks_on :
    Option.map (fun r => (r.1, r.2.calls))
        (inno_hdmi_bind hw_ones sample_h sample_h_reset false env_irq_fails 0) =
      some (- ENXIO,
        [ res_event.regulator_enable regulator_id.hdmi_1p8,
          res_event.regulator_enable regulator_id.hdmi_0p9,
          res_event.clk_prepare_enable clk_id.sys_clk,
          res_event.clk_prepare_enable clk_id.mclk,
          res_event.clk_prepare_enable clk_id.bclk,
          res_event.reset_control_deassert,
          res_event.regulator_disable regulator_id.hdmi_1p8 ]) ∧
    Option.map (fun r => (r.1, res_counts r.2.calls))
        (inno_hdmi_bind hw_ones sample_h sample_h_reset false env_irq_fails 0) =
      some (- ENXIO, [0, 1, 1, 1, 1]) ∧
    Option.map (fun r => (r.1, res_counts r.2.calls))
        (inno_hdmi_bind hw_ones sample_h sample_h_reset false env_adapter_fails 0) =
      some (-ENOMEM, [0, 1, 1, 1, 1]) ∧
    Option.map (fun r => (r.1, res_counts r.2.calls))
        (inno_hdmi_bind hw_ones sample_h sample_h_reset false env_register_fails 0) =
      some (-EPROBE_DEFER, [0, 1, 1, 1, 1]) ∧
    Option.map (fun r => (r.1, res_counts r.2.calls))
        (inno_hdmi_bind hw_ones sample_h sample_h_reset false env_request_irq_fails 0) =
      some (-EINVAL, [0, 1, 1, 1, 1]) ∧
    Option.map (fun r => (r.1, res_counts r.2.calls))
        (inno_hdmi_bind hw_ones sample_h sample_h_reset false env_0p9_fails 0) =
      some (-EINVAL, [0, 0, 0, 0, 0]) ∧
    Option.map (fun r => (r.1, res_counts r.2.calls, res_counts (inno_hdmi_unbind r.2).calls))
        (inno_hdmi_bind hw_ones sample_h sample_h_reset false env_ok 0) =
      some (0, [1, 1, 1, 1, 1], [0, 0, 0, 0, 0]) := by
  decide

/-! ## Mode-set: the write trace, and where the pre-PLL bytes come from -/

/-- The fields of the rows the pre-PLL lookup can return stay inside the bit
fields `inno_hdmi_config_pll` packs them into. -/
lemma pre_row_fields_fit : ∀ i, i < 28 → (pre_row i).pixclock = (pre_row i).tmdsclock →
    (pre_row i).fbdiv < 256 ∧ (0xf0 ||| (pre_row i).fbdiv >>> 8) = 0xf0 ∧
    (pre_row i).tmds_div_a ≤ 15 ∧ (pre_row i).tmds_div_b ≤ 3 ∧ (pre_row i).tmds_div_c ≤ 3 ∧
    (pre_row i).pclk_div_a ≤ 31 ∧ (pre_row i).pclk_div_b ≤ 7 ∧
    (pre_row i).pclk_div_c ≤ 7 ∧ (pre_row i).pclk_div_d ≤ 31 := by
  decide

/-- Every row of the post-PLL table, the sentinel included, has byte-sized
`fbdiv` and `postdiv`. -/
lemma post_row_fbdiv_postdiv : ∀ j, j ≤ 7 →
    (post_row j).fbdiv ≤ 255 ∧ (post_row j).postdiv ≤ 255 := by
  decide

/-- A poll on a register whose bit 0 always reads as set ends after one load. -/
lemma while_not_bit0_set (hw : hw_model) (a : Nat) (rd : inno_hdmi → Nat × inno_hdmi)
    (hrd : is_read_of hw a rd) (hset : ∀ t, hw t a % 2 = 1) (fuel : Nat) (h : inno_hdmi) :
    while_not_bit0 rd (fuel + 1) h =
      some { h with regs := h.regs ++ [io_event.read a (hw h.regs a % 2 ^ 32)] } := by
  obtain ⟨hst, hbit⟩ := hrd h
  have hb : (rd h).1 &&& 1 = 1 := by rw [hbit, hset]
  simp [while_not_bit0, hb, hst]

/-- The set-up before its polls, for a rate the pre-PLL lookup finds in row `i`. -/
lemma setup_prelude_ok (hw : hw_model) (cea : drm_display_mode → Nat)
    (hdmi : inno_hdmi) (mode : drm_display_mode) (i : Nat)
    (hget : inno_hdmi_phy_get_pre_pll_cfg (int_to_ulong (wrap_int (mode.clock * 1000))) = .ok i) :
    setup_prelude hw cea hdmi mode =
      { hdmi with
          regs := hdmi.regs ++
            ([ io_event.read (0x1b0 * 0x04) (hw hdmi.regs (0x1b0 * 0x04) % 2 ^ 32),
               io_event.write (0x1b0 * 0x04)
                ((((hw hdmi.regs (0x1b0 * 0x04) % 2 ^ 32) % 256 ||| 0x4) % 256) % 2 ^ 32),
               io_event.write (0x1cc * 0x04) 0xf ] ++
              reg_value_events (cfg_pll_data (pre_row i)
                (post_row (post_pll_scan (int_to_ulong (wrap_int (mode.clock * 1000)))
                  post_pll_cfg_table 0))
                ((cea mode % 256 : Nat) : Int)))
          hdmi_data := { hdmi.hdmi_data with vic := ((cea mode % 256 : Nat) : Int) }
          tmds_rate := int_to_ulong (wrap_int (mode.clock * 1000))
          pre_cfg := some (.ok i)
          post_cfg := some (post_pll_scan (int_to_ulong (wrap_int (mode.clock * 1000)))
            post_pll_cfg_table 0) } := by
  unfold setup_prelude
  simp only []
  rw [clk_set_rate_ok _ _ i (by simpa using hget)]
  simp [hdmi_writeb, writel_relaxed, readl_relaxed]

/-- The set-up after its polls: thirteen stores. -/
lemma setup_tail_eq (hdmi : inno_hdmi) :
    setup_tail hdmi =
      { hdmi with regs := hdmi.regs ++ setup_tail_events hdmi.hdmi_data.vic } := by
  simp only [setup_tail, inno_hdmi_tx_phy_power_down, inno_hdmi_tx_ctrl,
    inno_hdmi_tx_phy_power_on, inno_hdmi_tmds_driver_on, write_reg_values_eq,
    hdmi_writeb, writel_relaxed, List.append_assoc]
  rfl

/-- The stores of a `reg_value_t` array, as pairs. -/
lemma writes_reg_value_events (l : List reg_value_t) :
    writes (reg_value_events l) = l.map (fun e => (e.reg * 0x04, e.value % 2 ^ 32)) := by
  induction l with
  | nil => rfl
  | cons e rest ih =>
    simp only [reg_value_events, List.map_cons, reg_write, writes] at ih ⊢
    rw [ih]

/-- The stores of `inno_hdmi_config_pll`, for a row the pre-PLL lookup can return
and a row the post-PLL scan can leave, are the thirteen pairs of `pll_writes`. -/
lemma pll_writes_eq (i j : Nat) (vic : Int) (hi : i < 28)
    (hdiag : (pre_row i).pixclock = (pre_row i).tmdsclock) (hj : j ≤ 7) :
    writes (reg_value_events (cfg_pll_data (pre_row i) (post_row j) vic)) =
      pll_writes (pre_row i) (post_row j) vic := by
  obtain ⟨p1, p2, p3, p4, p5, p6⟩ := pre_row_bytes i hi hdiag
  obtain ⟨q1, q2⟩ := post_row_bytes j hj
  have q3 : ((post_row j).fbdiv &&& 0xff) < 256 :=
    Nat.lt_of_le_of_lt Nat.and_le_right (by decide)
  have h1ad := reg_1ad_value_eq (post_row j) vic q2
  have q4 : reg_1ad_value (post_row j) vic < 256 := by
    rw [h1ad]; split_ifs <;> omega
  have q5 : reg_1aa_value (post_row j) < 256 := by
    unfold reg_1aa_value; split_ifs <;> omega
  simp only [reg_value_events, cfg_pll_data, List.map_cons, List.map_nil]
  rw [reg_value_event_of_lt _ _ (by decide : 0x01 < 256),
    reg_value_event_of_lt _ _ (by decide : 0x0f < 256),
    reg_value_event_of_lt _ _ p1, reg_value_event_of_lt _ _ p2, reg_value_event_of_lt _ _ p3,
    reg_value_event_of_lt _ _ p4, reg_value_event_of_lt _ _ p5, reg_value_event_of_lt _ _ p6,
    reg_value_event_of_lt _ _ q1, reg_value_event_of_lt _ _ q3, reg_value_event_of_lt _ _ q4,
    reg_value_event_of_lt _ _ q5, reg_value_event_of_lt _ _ (by decide : 0x00 < 256), h1ad]
  rfl

/-- The closing stores of the set-up for a byte-sized VIC. -/
lemma setup_tail_writes_eq (v : Nat) (hv : v < 256) :
    writes (setup_tail_events (v : Int)) = setup_tail_writes v := by
  have h : ((v : Int) % 2 ^ 32).toNat % 2 ^ 32 = v := by
    have : (2 : Nat) ^ 32 = 4294967296 := by norm_num
    omega
  simp only [setup_tail_events, setup_tail_writes, writes, reg_write, h]

/-- The byte the set-up stores to register 0x1b0. -/
lemma reg_1b0_value (x : Nat) :
    (((x % 2 ^ 32) % 256 ||| 0x4) % 256) % 2 ^ 32 = x % 256 ||| 0x4 := by
  have h1 : x % 2 ^ 32 % 256 = x % 256 := Nat.mod_mod_of_dvd _ (by decide)
  have h2 : x % 256 ||| 0x4 < 2 ^ 8 := Nat.or_lt_two_pow (Nat.mod_lt _ (by decide)) (by decide)
  rw [h1, Nat.mod_eq_of_lt (by omega : x % 256 ||| 0x4 < 256),
    Nat.mod_eq_of_lt (by omega : x % 256 ||| 0x4 < 2 ^ 32)]

/-- A set-up that returns, for a rate the pre-PLL lookup finds in row `i`: it
returns 0, its stores are the two opening ones, the thirteen of the PLL
programming and the thirteen closing ones, and it leaves the VIC, the rate and
the two row pointers in the handle. -/
lemma setup_ok_writes (hw : hw_model) (cea : drm_display_mode → Nat) (fuel : Nat)
    (hdmi : inno_hdmi) (mode : drm_display_mode) (i : Nat) (r : Int × inno_hdmi)
    (hget : inno_hdmi_phy_get_pre_pll_cfg (int_to_ulong (wrap_int (mode.clock * 1000))) = .ok i)
    (hret : inno_hdmi_setup hw cea fuel hdmi mode = some r) :
    r.1 = 0 ∧
    writes (new_events hdmi r.2) =
      (0x1b0 * 0x04, (hw hdmi.regs (0x1b0 * 0x04) % 256) ||| 0x4) :: (0x1cc * 0x04, 0xf) ::
        (pll_writes (pre_row i)
          (post_row (post_pll_scan (int_to_ulong (wrap_int (mode.clock * 1000)))
            post_pll_cfg_table 0)) ((cea mode % 256 : Nat) : Int) ++
          setup_tail_writes (cea mode % 256)) ∧
    r.2.hdmi_data.vic = ((cea mode % 256 : Nat) : Int) ∧
    r.2.tmds_rate = int_to_ulong (wrap_int (mode.clock * 1000)) ∧
    r.2.pre_cfg = some (.ok i) ∧
    r.2.post_cfg = some (post_pll_scan (int_to_ulong (wrap_int (mode.clock * 1000)))
      post_pll_cfg_table 0) := by
  have hi := (get_pre_pll_cfg_ok_iff _ i).1 hget
  have hj : post_pll_scan (int_to_ulong (wrap_int (mode.clock * 1000))) post_pll_cfg_table 0 ≤ 7 := by
    have h := post_pll_scan_table (int_to_ulong (wrap_int (mode.clock * 1000)))
    by_cases hr : int_to_ulong (wrap_int (mode.clock * 1000)) ≤ 594000000
    · have := (h.1 hr).1; omega
    · rw [h.2 (by omega)]
  rw [setup_eq] at hret
  cases h1 : while_not_bit0 (fun h => hdmi_readb hw h 0x1a9) fuel (setup_prelude hw cea hdmi mode) with
  | none => rw [h1] at hret; cases hret
  | some s1 =>
    rw [h1] at hret
    simp only [Option.bind] at hret
    cases h2 : while_not_bit0 (fun h => hdmi_readb hw h 0x1af) fuel s1 with
    | none => rw [h2] at hret; cases hret
    | some s2 =>
      rw [h2] at hret
      simp only [Option.some.injEq] at hret
      obtain ⟨evs1, v1, hs1, _, hall1⟩ :=
        while_not_bit0_some hw _ _ (is_read_of_readb hw 0x1a9) fuel _ _ h1
      obtain ⟨evs2, v2, hs2, _, hall2⟩ :=
        while_not_bit0_some hw _ _ (is_read_of_readb hw 0x1af) fuel _ _ h2
      have hw1 : writes (evs1 ++ [io_event.read (0x1a9 * 0x04) v1]) = [] := by
        rw [writes_append, writes_of_reads _ _ hall1]; rfl
      have hw2 : writes (evs2 ++ [io_event.read (0x1af * 0x04) v2]) = [] := by
        rw [writes_append, writes_of_reads _ _ hall2]; rfl
      subst hret
      rw [setup_tail_eq, hs2, hs1, setup_prelude_ok hw cea hdmi mode i hget]
      refine ⟨rfl, ?_, rfl, rfl, rfl, rfl⟩
      rw [new_events_of_append hdmi _
        (([ io_event.read (0x1b0 * 0x04) (hw hdmi.regs (0x1b0 * 0x04) % 2 ^ 32),
            io_event.write (0x1b0 * 0x04)
              ((((hw hdmi.regs (0x1b0 * 0x04) % 2 ^ 32) % 256 ||| 0x4) % 256) % 2 ^ 32),
            io_event.write (0x1cc * 0x04) 0xf ] ++
          reg_value_events (cfg_pll_data (pre_row i)
            (post_row (post_pll_scan (int_to_ulong (wrap_int (mode.clock * 1000)))
              post_pll_cfg_table 0))
            ((cea mode % 256 : Nat) : Int))) ++
          (evs1 ++ [io_event.read (0x1a9 * 0x04) v1]) ++
          (evs2 ++ [io_event.read (0x1af * 0x04) v2]) ++
          setup_tail_events ((cea mode % 256 : Nat) : Int))
        (by simp only [List.append_assoc])]
      rw [writes_append, writes_append, writes_append, writes_append, hw1, hw2,
        pll_writes_eq i _ _ hi.1 (by rw [hi.2.1, hi.2.2]) hj,
        setup_tail_writes_eq _ (Nat.mod_lt _ (by decide))]
      simp only [writes, reg_1b0_value, List.append_nil, List.cons_append, List.nil_append]

/-- The values stored to an offset, from the stores of the trace. -/
lemma writes_to_eq_stores_to (a : Nat) (l : List io_event) :
    writes_to a l = stores_to a (writes l) := by
  induction l with
  | nil => rfl
  | cons e rest ih =>
    cases e with
    | read b v => simpa [writes, writes_to] using ih
    | write b v =>
      by_cases hb : b = a
      · simp [writes, writes_to, stores_to, hb] at ih ⊢
        exact ih
      · simp [writes, writes_to, stores_to, hb] at ih ⊢
        exact ih

/-- Every real row of the pre-PLL table has a `pixclock` of at most 594 MHz. -/
lemma pre_row_pixclock_le : ∀ i, i < 28 → (pre_row i).pixclock ≤ 594000000 := by
  decide

/-- An `int` value between 0 and `INT_MAX` survives the wrap and the conversion
to `unsigned long`. -/
lemma no_wrap_aux (x : Int) (h0 : 0 ≤ x) (h1 : x < 2147483648) :
    int_to_ulong (wrap_int x) = x.toNat := by
  have hw : wrap_int x = x := by
    unfold wrap_int
    norm_num
    omega
  rw [hw]
  unfold int_to_ulong
  norm_num
  omega

/-- For a mode whose rate the pre-PLL lookup finds, the clock is positive and the
`int` product `mode->clock * 1000` does not wrap. -/
lemma rate_no_wrap (clock : Int) (i : Nat)
    (hrow : inno_hdmi_phy_get_pre_pll_cfg (clock * 1000).toNat = .ok i) :
    int_to_ulong (wrap_int (clock * 1000)) = (clock * 1000).toNat ∧
    (((clock * 1000).toNat : Nat) : Int) = clock * 1000 := by
  obtain ⟨hi, hp, _⟩ := (get_pre_pll_cfg_ok_iff _ i).1 hrow
  have hle := pre_row_pixclock_le i hi
  have hne := pre_row_pixclock_ne_zero i hi
  rw [hp] at hle hne
  have hlt : clock * 1000 < 2147483648 := by omega
  exact ⟨no_wrap_aux _ (by omega) hlt, by omega⟩

/-- C22: for every mode whose rate `mode->clock * 1000` the pre-PLL lookup finds
(row `i`), on hardware whose two lock bits read 1, `inno_hdmi_setup` returns 0 and
its stores are, in this order and with no other store: 0x1b0 <- (low byte loaded
from 0x1b0) | 0x04, 0x1cc <- 0x0f, the thirteen stores of `inno_hdmi_config_pll`
for row `i`, the post-PLL row selected and the VIC, then 0x1b4 <- 0x07,
0x1be <- 0x70, 0x00 <- 0x63, 0x9f <- 0x06, 0xa7 <- VIC, 0x35 <- 0x01, 0x38 <- 0x04,
0x40 <- 0x18, 0x41 <- 0x80, 0x00 <- 0x61, 0x1b2 <- 0x8f, 0xce <- 0, 0xce <- 1.  So the
one value stored to 0xa7 is the VIC, which is what `hdmi_data.vic` holds, and
`tmds_rate` equals `mode->clock * 1000`. -/
theorem setup_write_trace (hw : hw_model) (cea : drm_display_mode → Nat) (fuel : Nat)
    (hdmi : inno_hdmi) (mode : drm_display_mode) (i : Nat)
    (hrow : inno_hdmi_phy_get_pre_pll_cfg (mode.clock * 1000).toNat = .ok i)
    (h9 : ∀ t, hw t (0x1a9 * 0x04) % 2 = 1) (hf : ∀ t, hw t (0x1af * 0x04) % 2 = 1)
    (hfuel : 0 < fuel) :
    ∃ r, inno_hdmi_setup hw cea fuel hdmi mode = some r ∧ r.1 = 0 ∧
      writes (new_events hdmi r.2) =
        (0x1b0 * 0x04, (hw hdmi.regs (0x1b0 * 0x04) % 256) ||| 0x04) :: (0x1cc * 0x04, 0x0f) ::
          (pll_writes (pre_row i)
            (post_row (post_pll_scan (mode.clock * 1000).toNat post_pll_cfg_table 0))
            ((cea mode % 256 : Nat) : Int) ++
          [ (0x1b4 * 0x04, 0x07), (0x1be * 0x04, 0x70), (0x00 * 0x04, 0x63), (0x9f * 0x04, 0x06),
            (0xa7 * 0x04, cea mode % 256), (0x35 * 0x04, 0x01), (0x38 * 0x04, 0x04),
            (0x40 * 0x04, 0x18), (0x41 * 0x04, 0x80), (0x00 * 0x04, 0x61), (0x1b2 * 0x04, 0x8f),
            (0xce * 0x04, 0), (0xce * 0x04, 1) ]) ∧
      writes_to (0xa7 * 0x04) (new_events hdmi r.2) = [cea mode % 256] ∧
      r.2.hdmi_data.vic = ((cea mode % 256 : Nat) : Int) ∧
      (r.2.tmds_rate : Int) = mode.clock * 1000 := by
  obtain ⟨hnw, hcast⟩ := rate_no_wrap mode.clock i hrow
  obtain ⟨n, rfl⟩ : ∃ n, fuel = n + 1 := ⟨fuel - 1, by omega⟩
  have hrun : inno_hdmi_setup hw cea (n + 1) hdmi mode =
      some (0, setup_tail
        { (setup_prelude hw cea hdmi mode) with
          regs := ((setup_prelude hw cea hdmi mode).regs ++
            [io_event.read (0x1a9 * 0x04)
              (hw (setup_prelude hw cea hdmi mode).regs (0x1a9 * 0x04) % 2 ^ 32)]) ++
            [io_event.read (0x1af * 0x04)
              (hw ((setup_prelude hw cea hdmi mode).regs ++
                [io_event.read (0x1a9 * 0x04)
                  (hw (setup_prelude hw cea hdmi mode).regs (0x1a9 * 0x04) % 2 ^ 32)])
                (0x1af * 0x04) % 2 ^ 32)] }) := by
    rw [setup_eq, while_not_bit0_set hw _ _ (is_read_of_readb hw 0x1a9) h9]
    simp only [Option.bind]
    rw [while_not_bit0_set hw _ _ (is_read_of_readb hw 0x1af) hf]
  obtain ⟨hr0, hwr, hvic, hrate, _, _⟩ :=
    setup_ok_writes hw cea (n + 1) hdmi mode i _ (by rw [hnw]; exact hrow) hrun
  refine ⟨_, hrun, hr0, ?_, ?_, hvic, ?_⟩
  · rw [hwr, hnw]
    rfl
  · rw [writes_to_eq_stores_to, hwr]
    simp [stores_to, pll_writes, setup_tail_writes]
  · rw [hrate, hnw, hcast]

/-- C22 witness: 1080p60 (148 500 kHz, VIC 16) on hardware whose lock bits read
1: the set-up returns 0, register 0xa7 is stored 16 once, and the handle holds
VIC 16 and 148 500 000 Hz. -/
theorem setup_write_trace_witness :
    ∃ r, inno_hdmi_setup hw_ones cea_by_clock 1 inno_hdmi_zero (mode_of_clock 148500) = some r ∧
      r.1 = 0 ∧ writes_to (0xa7 * 0x04) (new_events inno_hdmi_zero r.2) = [16] ∧
      r.2.hdmi_data.vic = 16 ∧ r.2.tmds_rate = 148500000 :=
  (setup_write_trace hw_ones cea_by_clock 1 inno_hdmi_zero (mode_of_clock 148500) 15
    (by decide) (fun _ => rfl) (fun _ => rfl) (by decide)).imp
    (fun _ h => ⟨h.1, h.2.1, h.2.2.2.1, h.2.2.2.2.1, by
      have h5 := h.2.2.2.2.2
      have hc : (mode_of_clock 148500).clock = 148500 := rfl
      omega⟩)

/-- Writing out a `reg_value_t` array with bare stores appends one store per
entry and touches nothing else. -/
lemma writel_reg_values_eq (l : List reg_value_t) :
    ∀ hdmi : inno_hdmi,
      writel_reg_values hdmi l = { hdmi with regs := hdmi.regs ++ reg_value_events l } := by
  induction l with
  | nil => intro hdmi; simp [writel_reg_values, reg_value_events]
  | cons e rest ih =>
    intro hdmi
    simp [writel_reg_values, ih, reg_value_events, writel_relaxed, reg_write]

/-- The stores of `inno_hdmi_config_1920x1080p60`. -/
lemma config_1080p60_writes (hdmi : inno_hdmi) :
    writes (new_events hdmi (inno_hdmi_config_1920x1080p60 hdmi)) =
      [ (0x1a0 * 0x04, 0x01), (0x1aa * 0x04, 0x0f), (0x1a1 * 0x04, 0x01), (0x1a2 * 0x04, 0xf0),
        (0x1a3 * 0x04, 0x63), (0x1a4 * 0x04, 0x15), (0x1a5 * 0x04, 0x41), (0x1a6 * 0x04, 0x42),
        (0x1ab * 0x04, 0x01), (0x1ac * 0x04, 0x0a), (0x1ad * 0x04, 0x00), (0x1aa * 0x04, 0x0e),
        (0x1a0 * 0x04, 0x00) ] := by
  rw [new_events_of_append hdmi _ _ (by rw [inno_hdmi_config_1920x1080p60, writel_reg_values_eq]),
    writes_reg_value_events]
  rfl

/-- Among the rows the pre-PLL lookup can return, only the 148.5 MHz row packs
to the five bytes 0x01, 0x63, 0x15, 0x41, 0x42. -/
lemma pre_row_1080p60_bytes : ∀ i, i < 28 → (pre_row i).pixclock = (pre_row i).tmdsclock →
    ((pre_row i).prediv = 0x01 ∧ (pre_row i).fbdiv = 0x63 ∧
      (((pre_row i).tmds_div_a <<< 4) ||| ((pre_row i).tmds_div_b <<< 2) |||
        (pre_row i).tmds_div_c) = 0x15 ∧
      (((pre_row i).pclk_div_b <<< 5) ||| (pre_row i).pclk_div_a) = 0x41 ∧
      (((pre_row i).pclk_div_c <<< 5) ||| (pre_row i).pclk_div_d) = 0x42 ↔ i = 15) := by
  decide

/-- The stores the set-up has made when its lock polls begin, for a rate the
pre-PLL lookup finds in row `i`: the two opening ones and the thirteen of the
PLL programming. -/
lemma setup_prelude_writes (hw : hw_model) (cea : drm_display_mode → Nat)
    (hdmi : inno_hdmi) (mode : drm_display_mode) (i : Nat)
    (hget : inno_hdmi_phy_get_pre_pll_cfg (int_to_ulong (wrap_int (mode.clock * 1000))) = .ok i) :
    writes (new_events hdmi (setup_prelude hw cea hdmi mode)) =
      (0x1b0 * 0x04, (hw hdmi.regs (0x1b0 * 0x04) % 256) ||| 0x4) :: (0x1cc * 0x04, 0xf) ::
        pll_writes (pre_row i)
          (post_row (post_pll_scan (int_to_ulong (wrap_int (mode.clock * 1000)))
            post_pll_cfg_table 0)) ((cea mode % 256 : Nat) : Int) := by
  have hi := (get_pre_pll_cfg_ok_iff _ i).1 hget
  have hj : post_pll_scan (int_to_ulong (wrap_int (mode.clock * 1000))) post_pll_cfg_table 0 ≤ 7 := by
    have h := post_pll_scan_table (int_to_ulong (wrap_int (mode.clock * 1000)))
    by_cases hr : int_to_ulong (wrap_int (mode.clock * 1000)) ≤ 594000000
    · have := (h.1 hr).1; omega
    · rw [h.2 (by omega)]
  rw [setup_prelude_ok hw cea hdmi mode i hget]
  rw [new_events_of_append hdmi _ _ rfl, writes_append,
    pll_writes_eq i _ _ hi.1 (by rw [hi.2.1, hi.2.2]) hj]
  simp only [writes, reg_1b0_value, List.cons_append, List.nil_append]

/-- The values a list of stores that begins with the two opening stores of the
set-up and the thirteen of the PLL programming holds for the pre-PLL and the
post-PLL registers, whatever stores to other registers follow. -/
lemma pll_stores_of_writes (evs : List io_event) (a b : Nat × Nat) (p : pre_pll_config)
    (q : post_pll_config) (vic : Int) (T : List (Nat × Nat))
    (ha : a.1 = 0x1b0 * 0x04) (hb : b.1 = 0x1cc * 0x04)
    (hT : ∀ w ∈ T, w.1 < 0x1a0 * 0x04 ∨ 0x1ad * 0x04 < w.1)
    (hw : writes evs = a :: b :: (pll_writes p q vic ++ T)) :
    pre_pll_stores evs =
      [ [p.prediv], [0xf0 ||| p.fbdiv >>> 8], [p.fbdiv],
        [(p.tmds_div_a <<< 4) ||| (p.tmds_div_b <<< 2) ||| p.tmds_div_c],
        [(p.pclk_div_b <<< 5) ||| p.pclk_div_a], [(p.pclk_div_c <<< 5) ||| p.pclk_div_d] ] ∧
    post_pll_stores evs =
      [ [q.prediv], [q.fbdiv &&& 0xff],
        [if vic = 1 then 0x0d else if q.post_div_en ≠ 0 then q.postdiv else 0],
        [0x0f, if q.post_div_en ≠ 0 then 0x0e else 0x02] ] := by
  have hnil : ∀ x, 0x1a0 * 0x04 ≤ x → x ≤ 0x1ad * 0x04 → stores_to x T = [] := by
    intro x h1 h2
    unfold stores_to
    rw [List.filterMap_eq_nil_iff]
    intro w hwT
    have := hT w hwT
    have hne : w.1 ≠ x := by omega
    simp [hne]
  have happ : ∀ x l, stores_to x (l ++ T) = stores_to x l ++ stores_to x T := by
    intro x l
    simp [stores_to, List.filterMap_append]
  have hcons : ∀ x (w : Nat × Nat) l, stores_to x (w :: l) =
      (if w.1 = x then [w.2] else []) ++ stores_to x l := by
    intro x w l
    by_cases h : w.1 = x <;> simp [stores_to, h]
  constructor
  · simp only [pre_pll_stores, writes_to_eq_stores_to, hw, hcons, happ, ha, hb]
    rw [hnil _ (by decide) (by decide), hnil _ (by decide) (by decide),
      hnil _ (by decide) (by decide), hnil _ (by decide) (by decide),
      hnil _ (by decide) (by decide), hnil _ (by decide) (by decide)]
    simp [stores_to, pll_writes]
  · simp only [post_pll_stores, writes_to_eq_stores_to, hw, hcons, happ, ha, hb]
    rw [hnil _ (by decide) (by decide), hnil _ (by decide) (by decide),
      hnil _ (by decide) (by decide), hnil _ (by decide) (by decide)]
    simp [stores_to, pll_writes]


/-- C26, as the claim states it, fails for 640x480p60 (25 175 kHz, a supported
rate, row 0): `inno_hdmi_setup` stores 0x64, 0x2f, 0x6c, 0x64 to registers
0x1a3 .. 0x1a6, the values of table row 0, where `inno_hdmi_config_1920x1080p60`
stores 0x63, 0x15, 0x41, 0x42. -/
theorem setup_pre_pll_not_hard_coded :
    Option.map (fun r => pre_pll_stores (new_events inno_hdmi_zero r.2))
        (inno_hdmi_setup hw_ones cea_by_clock 1 inno_hdmi_zero (mode_of_clock 25175)) =
      some [[0x01], [0xf0], [0x64], [0x2f], [0x6c], [0x64]] ∧
    pre_pll_stores (new_events inno_hdmi_zero (inno_hdmi_config_1920x1080p60 inno_hdmi_zero)) =
      [[0x01], [0xf0], [0x63], [0x15], [0x41], [0x42]] ∧
    inno_hdmi_phy_get_pre_pll_cfg
      (int_to_ulong (wrap_int ((mode_of_clock 25175).clock * 1000))) = .ok 0 := by
  decide

/-- C26 (amended): on the mode-set path the pre-PLL registers are written from
the table, and they are written before the lock polls begin.  `inno_hdmi_setup`
is its opening part `setup_prelude`, the two polls and its closing part.  For
every mode whose rate the pre-PLL lookup finds (row `i`), on every hardware and
from every handle: (1) when the first poll begins, whether or not the polls ever
end, the one value stored to each of 0x1a1 .. 0x1a6 is that of row `i`: prediv,
0xf0, fbdiv, the packed TMDS dividers, and the two packed pixel-clock divider
bytes; and the registers 0x1ab, 0x1ac, 0x1ad and 0x1aa hold the values of the
post-PLL row selected for the rate (0x1ad: 0x0d for VIC 1); (2) whenever
`inno_hdmi_setup` returns, the whole call has stored exactly these values to
these registers; (3) it does return, with 0, once both lock bits read 1 and
there is fuel for one load of each; (4) the pre-PLL bytes are those of
`inno_hdmi_config_1920x1080p60` (0x01, 0xf0, 0x63, 0x15, 0x41, 0x42) exactly when
the row is the 148.5 MHz one. -/
theorem setup_pre_pll_from_table (hw : hw_model) (cea : drm_display_mode → Nat) (fuel : Nat)
    (hdmi : inno_hdmi) (mode : drm_display_mode) (i : Nat)
    (hget : inno_hdmi_phy_get_pre_pll_cfg (int_to_ulong (wrap_int (mode.clock * 1000))) = .ok i) :
    inno_hdmi_setup hw cea fuel hdmi mode =
      (while_not_bit0 (fun h => hdmi_readb hw h 0x1a9) fuel (setup_prelude hw cea hdmi mode)).bind
        (fun h1 => (while_not_bit0 (fun h => hdmi_readb hw h 0x1af) fuel h1).bind
          (fun h2 => some (0, setup_tail h2))) ∧
    pre_pll_stores (new_events hdmi (setup_prelude hw cea hdmi mode)) =
      [ [(pre_row i).prediv], [0xf0], [(pre_row i).fbdiv],
        [((pre_row i).tmds_div_a <<< 4) ||| ((pre_row i).tmds_div_b <<< 2) |||
          (pre_row i).tmds_div_c],
        [((pre_row i).pclk_div_b <<< 5) ||| (pre_row i).pclk_div_a],
        [((pre_row i).pclk_div_c <<< 5) ||| (pre_row i).pclk_div_d] ] ∧
    post_pll_stores (new_events hdmi (setup_prelude hw cea hdmi mode)) =
      [ [(post_row (post_pll_scan (int_to_ulong (wrap_int (mode.clock * 1000)))
          post_pll_cfg_table 0)).prediv],
        [(post_row (post_pll_scan (int_to_ulong (wrap_int (mode.clock * 1000)))
          post_pll_cfg_table 0)).fbdiv],
        [if ((cea mode % 256 : Nat) : Int) = 1 then 0x0d
          else if (post_row (post_pll_scan (int_to_ulong (wrap_int (mode.clock * 1000)))
              post_pll_cfg_table 0)).post_div_en ≠ 0
            then (post_row (post_pll_scan (int_to_ulong (wrap_int (mode.clock * 1000)))
              post_pll_cfg_table 0)).postdiv else 0],
        [0x0f, if (post_row (post_pll_scan (int_to_ulong (wrap_int (mode.clock * 1000)))
            post_pll_cfg_table 0)).post_div_en ≠ 0 then 0x0e else 0x02] ] ∧
    (∀ r : Int × inno_hdmi, inno_hdmi_setup hw cea fuel hdmi mode = some r →
      pre_pll_stores (new_events hdmi r.2) =
        pre_pll_stores (new_events hdmi (setup_prelude hw cea hdmi mode)) ∧
      post_pll_stores (new_events hdmi r.2) =
        post_pll_stores (new_events hdmi (setup_prelude hw cea hdmi mode)) ∧
      r.2.tmds_rate = int_to_ulong (wrap_int (mode.clock * 1000)) ∧
      r.2.hdmi_data.vic = ((cea mode % 256 : Nat) : Int)) ∧
    ((∀ t, hw t (0x1a9 * 0x04) % 2 = 1) → (∀ t, hw t (0x1af * 0x04) % 2 = 1) → 0 < fuel →
      ∃ r : Int × inno_hdmi, inno_hdmi_setup hw cea fuel hdmi mode = some r ∧ r.1 = 0) ∧
    pre_pll_stores (new_events hdmi (inno_hdmi_config_1920x1080p60 hdmi)) =
      [[0x01], [0xf0], [0x63], [0x15], [0x41], [0x42]] ∧
    (pre_pll_stores (new_events hdmi (setup_prelude hw cea hdmi mode)) =
        pre_pll_stores (new_events hdmi (inno_hdmi_config_1920x1080p60 hdmi)) ↔
      (pre_row i).pixclock = 148500000) := by
  obtain ⟨hi, hp, ht⟩ := (get_pre_pll_cfg_ok_iff _ i).1 hget
  have hdiag : (pre_row i).pixclock = (pre_row i).tmdsclock := by rw [hp, ht]
  obtain ⟨_, f2, _⟩ := pre_row_fields_fit i hi hdiag
  have hj : post_pll_scan (int_to_ulong (wrap_int (mode.clock * 1000))) post_pll_cfg_table 0 ≤ 7 := by
    have h := post_pll_scan_table (int_to_ulong (wrap_int (mode.clock * 1000)))
    by_cases hr : int_to_ulong (wrap_int (mode.clock * 1000)) ≤ 594000000
    · have := (h.1 hr).1; omega
    · rw [h.2 (by omega)]
  obtain ⟨a1, _⟩ := post_row_fbdiv_postdiv _ hj
  have h3 : (post_row (post_pll_scan (int_to_ulong (wrap_int (mode.clock * 1000)))
      post_pll_cfg_table 0)).fbdiv &&& 0xff =
      (post_row (post_pll_scan (int_to_ulong (wrap_int (mode.clock * 1000)))
        post_pll_cfg_table 0)).fbdiv := by
    have h255 : (0xff : Nat) = 2 ^ 8 - 1 := by norm_num
    rw [h255, Nat.and_pow_two_sub_one_eq_mod, Nat.mod_eq_of_lt (by omega)]
  have hpl := pll_stores_of_writes (new_events hdmi (setup_prelude hw cea hdmi mode)) _ _ _ _ _ []
    rfl rfl (by simp) (by rw [setup_prelude_writes hw cea hdmi mode i hget, List.append_nil])
  rw [f2, h3] at hpl
  have hfix : pre_pll_stores (new_events hdmi (inno_hdmi_config_1920x1080p60 hdmi)) =
      [[0x01], [0xf0], [0x63], [0x15], [0x41], [0x42]] := by
    simp only [pre_pll_stores, writes_to_eq_stores_to, config_1080p60_writes]
    simp [stores_to]
  refine ⟨rfl, hpl.1, hpl.2, ?_, ?_, hfix, ?_⟩
  · intro r hret
    obtain ⟨_, hwr, hvic, hrate, _, _⟩ := setup_ok_writes hw cea fuel hdmi mode i r hget hret
    have hfin := pll_stores_of_writes (new_events hdmi r.2) _ _ _ _ _
      (setup_tail_writes (cea mode % 256)) rfl rfl
      (by intro w hw'; simp only [setup_tail_writes, List.mem_cons, List.mem_singleton,
            List.not_mem_nil, or_false] at hw'
          rcases hw' with h | h | h | h | h | h | h | h | h | h | h | h | h <;>
            (rw [h]; simp))
      hwr
    rw [f2, h3] at hfin
    exact ⟨hfin.1.trans hpl.1.symm, hfin.2.trans hpl.2.symm, hrate, hvic⟩
  · intro h9 hf hfuel
    obtain ⟨n, rfl⟩ : ∃ n, fuel = n + 1 := ⟨fuel - 1, by omega⟩
    rw [setup_eq, while_not_bit0_set hw _ _ (is_read_of_readb hw 0x1a9) h9]
    simp only [Option.bind]
    rw [while_not_bit0_set hw _ _ (is_read_of_readb hw 0x1af) hf]
    exact ⟨_, rfl, rfl⟩
  · rw [hpl.1, hfix]
    have h15 := pre_row_1080p60_bytes i hi hdiag
    have hrate15 : ∀ j, j < 28 → (pre_row j).pixclock = (pre_row j).tmdsclock →
        ((pre_row j).pixclock = 148500000 ↔ j = 15) := by decide
    rw [hrate15 i hi hdiag, ← h15]
    simp

/-- C26 witness: 640x480p60 (25 175 kHz, table row 0) on hardware whose lock bits
never read 1.  The rate is supported, registers 0x1a1 .. 0x1a6 have been given
0x01, 0xf0, 0x64, 0x2f, 0x6c, 0x64 when the first poll begins, and the set-up never
returns. -/
theorem setup_pre_pll_from_table_witness :
    inno_hdmi_phy_get_pre_pll_cfg
        (int_to_ulong (wrap_int ((mode_of_clock 25175).clock * 1000))) = .ok 0 ∧
      pre_pll_stores (new_events inno_hdmi_zero
          (setup_prelude hw_zeros cea_by_clock inno_hdmi_zero (mode_of_clock 25175))) =
        [[0x01], [0xf0], [0x64], [0x2f], [0x6c], [0x64]] ∧
      inno_hdmi_setup hw_zeros cea_by_clock 8 inno_hdmi_zero (mode_of_clock 25175) = none :=
  ⟨by decide,
    (setup_pre_pll_from_table hw_zeros cea_by_clock 8 inno_hdmi_zero (mode_of_clock 25175) 0
      (by decide)).2.1,
    by decide⟩

/-! ## DDC master: the two address writes -/

/-- What `inno_hdmi_i2c_init` does: four stores, the first two being the two low
bytes of the divider, whatever the TMDS rate. -/
lemma i2c_init_eq (k : inno_hdmi_h) (hdmi : inno_hdmi) :
    inno_hdmi_i2c_init k hdmi =
      { hdmi with regs := hdmi.regs ++
        [ reg_write k.DDC_BUS_FREQ_L ((hdmi.tmds_rate >>> 2) / k.HDMI_SCL_RATE % 256),
          reg_write k.DDC_BUS_FREQ_H ((hdmi.tmds_rate >>> 2) / k.HDMI_SCL_RATE / 256 % 256),
          reg_write k.HDMI_INTERRUPT_MASK1 0,
          reg_write k.HDMI_INTERRUPT_STATUS1 (k.m_INT_EDID_READY % 2 ^ 32) ] } := by
  simp only [inno_hdmi_i2c_init]
  generalize (hdmi.tmds_rate >>> 2) / k.HDMI_SCL_RATE = d
  have h1 : (((wrap_int (d : Int)) % 256).toNat) % 2 ^ 32 = d % 256 := by
    unfold wrap_int
    have : (2 : Nat) ^ 32 = 4294967296 := by norm_num
    omega
  have h2 : ((((wrap_int (d : Int)) / 256) % 256).toNat) % 2 ^ 32 = d / 256 % 256 := by
    unfold wrap_int
    have : (2 : Nat) ^ 32 = 4294967296 := by norm_num
    omega
  simp only [hdmi_writeb, writel_relaxed, reg_write, List.append_assoc, h1, h2,
    Nat.zero_mod]
  rfl

/-- The two low bytes of a number, by mask and shift and by remainder. -/
lemma low_bytes_eq (d : Nat) :
    d &&& 0xff = d % 256 ∧ (d >>> 8) &&& 0xff = d / 256 % 256 := by
  have h255 : (0xff : Nat) = 2 ^ 8 - 1 := by norm_num
  constructor
  · rw [h255, Nat.and_pow_two_sub_one_eq_mod]
  · rw [h255, Nat.and_pow_two_sub_one_eq_mod, Nat.shiftRight_eq_div_pow]

/-- C25: with HDMI_SCL_RATE = 100 000, `inno_hdmi_i2c_init` computes
div = (tmds_rate >> 2) / 100 000 and stores DDC_BUS_FREQ_L <- div & 0xff, then
DDC_BUS_FREQ_H <- (div >> 8) & 0xff, then masks and clears the EDID interrupt.
For a TMDS rate of 51 200 000 div is 128, the bytes 0x80 and 0x00; for every
rate up to 594 000 000 div is below 65536 and L + 256 * H = div.  A bind in which
every call succeeds reaches the function with 51 200 000 Hz: it stores 0x80 and
0x00 to the two registers, once each. -/
theorem i2c_init_bus_freq (k : inno_hdmi_h) (hdmi : inno_hdmi)
    (hscl : k.HDMI_SCL_RATE = 100000) :
    (inno_hdmi_i2c_init k hdmi).regs = hdmi.regs ++
      [ reg_write k.DDC_BUS_FREQ_L (((hdmi.tmds_rate >>> 2) / 100000) &&& 0xff),
        reg_write k.DDC_BUS_FREQ_H ((((hdmi.tmds_rate >>> 2) / 100000) >>> 8) &&& 0xff),
        reg_write k.HDMI_INTERRUPT_MASK1 0,
        reg_write k.HDMI_INTERRUPT_STATUS1 (k.m_INT_EDID_READY % 2 ^ 32) ] ∧
    (hdmi.tmds_rate = 51200000 →
      (hdmi.tmds_rate >>> 2) / 100000 = 128 ∧
      ((hdmi.tmds_rate >>> 2) / 100000) &&& 0xff = 0x80 ∧
      (((hdmi.tmds_rate >>> 2) / 100000) >>> 8) &&& 0xff = 0x00) ∧
    (hdmi.tmds_rate ≤ 594000000 →
      (hdmi.tmds_rate >>> 2) / 100000 < 65536 ∧
      (((hdmi.tmds_rate >>> 2) / 100000) &&& 0xff) +
        256 * ((((hdmi.tmds_rate >>> 2) / 100000) >>> 8) &&& 0xff) =
          (hdmi.tmds_rate >>> 2) / 100000) ∧
    Option.map (fun r => (r.1, r.2.hdmi.tmds_rate,
        writes_to (sample_h.DDC_BUS_FREQ_L * 0x04) r.2.hdmi.regs,
        writes_to (sample_h.DDC_BUS_FREQ_H * 0x04) r.2.hdmi.regs))
      (inno_hdmi_bind hw_ones sample_h sample_h_reset false env_ok 0) =
        some (0, 51200000, [0x80], [0x00]) := by
  refine ⟨?_, ?_, ?_, by decide⟩
  · rw [i2c_init_eq, hscl, (low_bytes_eq _).1, (low_bytes_eq _).2]
  · intro h
    rw [h]
    decide
  · intro h
    rw [(low_bytes_eq _).1, (low_bytes_eq _).2, Nat.shiftRight_eq_div_pow]
    omega

/-- C25 witness: the bind-time rate of 51 200 000 Hz. -/
theorem i2c_init_bus_freq_witness :
    (inno_hdmi_i2c_init sample_h { inno_hdmi_with_i2c 0 with tmds_rate := 51200000 }).regs =
      [ reg_write sample_h.DDC_BUS_FREQ_L 0x80, reg_write sample_h.DDC_BUS_FREQ_H 0x00,
        reg_write sample_h.HDMI_INTERRUPT_MASK1 0,
        reg_write sample_h.HDMI_INTERRUPT_STATUS1 sample_h.m_INT_EDID_READY ] :=
  (i2c_init_bus_freq sample_h { inno_hdmi_with_i2c 0 with tmds_rate := 51200000 } rfl).1


/-! ## DDC master: what the transfer returns -/

/-- One message on a handle with an adapter: it succeeds and leaves an adapter,
or it is an invalid write answered with `-EINVAL`, or a read that times out
answered with `-EAGAIN`; a failing message leaves handle and message as they
were. -/
lemma xfer_msg_cases (hw : hw_model) (irq : List io_event → Bool) (k : inno_hdmi_h)
    (hdmi : inno_hdmi) (c : inno_hdmi_i2c) (m : i2c_msg) (hi2c : hdmi.i2c = some c) :
    (∃ h' c' m', xfer_msg hw irq k hdmi m = some (0, h', m') ∧ h'.i2c = some c') ∨
    (xfer_msg hw irq k hdmi m = some (-EINVAL, hdmi, m) ∧ m.flags &&& I2C_M_RD = 0) ∨
    (xfer_msg hw irq k hdmi m = some (-EAGAIN, hdmi, m) ∧ m.flags &&& I2C_M_RD ≠ 0) := by
  by_cases hrd : m.flags &&& I2C_M_RD ≠ 0
  · by_cases hto : c.cmp = 0 ∧ irq hdmi.regs = false
    · right; right
      refine ⟨?_, hrd⟩
      unfold xfer_msg
      rw [if_pos hrd]
      exact i2c_read_timeout hw irq k hdmi c m hi2c hto
    · left
      have hsig : c.cmp ≠ 0 ∨ irq hdmi.regs = true := by
        by_cases h0 : c.cmp = 0
        · right
          cases hb : irq hdmi.regs
          · exact absurd ⟨h0, hb⟩ hto
          · rfl
        · exact Or.inl h0
      obtain ⟨evs, hrun, _, _⟩ := i2c_read_signalled hw irq k hdmi c m hi2c hsig
      refine ⟨{ hdmi with regs := hdmi.regs ++ evs, i2c := some { c with cmp := c.cmp - 1 } },
        { c with cmp := c.cmp - 1 },
        { m with
            buf := (reads_of (k.HDMI_EDID_FIFO_ADDR * 0x04) evs).map (fun v => v % 256) ++
              m.buf.drop m.len }, ?_, rfl⟩
      unfold xfer_msg
      rw [if_pos hrd]
      exact hrun
  · have hrd0 : m.flags &&& I2C_M_RD = 0 := by
      by_contra h
      exact hrd h
    by_cases hbad : m.len ≠ 1 ∨ (m.addr ≠ k.DDC_ADDR ∧ m.addr ≠ k.DDC_SEGMENT_ADDR)
    · right; left
      refine ⟨?_, hrd0⟩
      unfold xfer_msg inno_hdmi_i2c_write
      rw [if_neg hrd, if_pos hbad]
      rfl
    · left
      obtain ⟨hrun, _, _⟩ := i2c_write_ok k hdmi c m hi2c hbad
      refine ⟨{ hdmi with
                  i2c := some (i2c_latch k c m)
                  regs := hdmi.regs ++
                    [reg_write k.HDMI_EDID_FIFO_OFFSET 0,
                     reg_write k.HDMI_EDID_WORD_ADDR ((i2c_latch k c m).ddc_addr % 2 ^ 32),
                     reg_write k.HDMI_EDID_SEGMENT_POINTER
                      ((i2c_latch k c m).segment_addr % 2 ^ 32)] },
        i2c_latch k c m, m, ?_, rfl⟩
      unfold xfer_msg
      rw [if_neg hrd, hrun]
      rfl

/-- One turn of the message loop, by the loop body. -/
lemma xfer_loop_cons (hw : hw_model) (irq : List io_event → Bool) (k : inno_hdmi_h)
    (m : i2c_msg) (rest : List i2c_msg) (ret : Int) (hdmi : inno_hdmi) :
    xfer_loop hw irq k (m :: rest) ret hdmi =
      match xfer_msg hw irq k hdmi m with
      | none => none
      | some r =>
        if r.1 < 0 then some (r.1, r.2.1, r.2.2 :: rest)
        else
          match xfer_loop hw irq k rest r.1 r.2.1 with
          | none => none
          | some t => some (t.1, t.2.1, r.2.2 :: t.2.2) := by
  unfold xfer_msg
  by_cases hrd : m.flags &&& I2C_M_RD ≠ 0
  · rw [xfer_loop, if_pos hrd, if_pos hrd]
  · rw [xfer_loop, if_neg hrd, if_neg hrd]
    cases inno_hdmi_i2c_write k hdmi m <;> rfl

/-- The message loop entered with `ret = 0` on a handle with an adapter.  When
every message succeeds it ends with `ret = 0` on the handle the last message
left.  Otherwise the list splits at the first failing message: those before it
succeed, it returns `-EINVAL` (a write) or `-EAGAIN` (a read) on the handle they
left, and the loop ends there with that value and that handle, the messages
after it untouched. -/
lemma xfer_loop_result (hw : hw_model) (irq : List io_event → Bool) (k : inno_hdmi_h) :
    ∀ (msgs : List i2c_msg) (hdmi : inno_hdmi) (c : inno_hdmi_i2c), hdmi.i2c = some c →
      (∀ h1, run_ok hw irq k msgs hdmi = some h1 →
        ∃ msgs', xfer_loop hw irq k msgs 0 hdmi = some (0, h1, msgs')) ∧
      (run_ok hw irq k msgs hdmi = none →
        ∃ pre m post h1 e pre', msgs = pre ++ m :: post ∧
          run_ok hw irq k pre hdmi = some h1 ∧
          xfer_msg hw irq k h1 m = some (e, h1, m) ∧
          ((e = -EINVAL ∧ m.flags &&& I2C_M_RD = 0) ∨
            (e = -EAGAIN ∧ m.flags &&& I2C_M_RD ≠ 0)) ∧
          pre'.length = pre.length ∧
          xfer_loop hw irq k msgs 0 hdmi = some (e, h1, pre' ++ m :: post)) := by
  intro msgs
  induction msgs with
  | nil =>
    intro hdmi c _
    refine ⟨fun h1 h => ⟨[], ?_⟩, fun h => ?_⟩
    · simp only [run_ok, Option.some.injEq] at h
      subst h
      rfl
    · simp [run_ok] at h
  | cons m rest ih =>
    intro hdmi c hi2c
    rcases xfer_msg_cases hw irq k hdmi c m hi2c with ⟨h', c', m', hm, hi'⟩ | ⟨hm, hf⟩ | ⟨hm, hf⟩
    · obtain ⟨ih1, ih2⟩ := ih h' c' hi'
      have hrun : run_ok hw irq k (m :: rest) hdmi = run_ok hw irq k rest h' := by
        simp [run_ok, hm]
      constructor
      · intro h1 hok
        rw [hrun] at hok
        obtain ⟨msgs', hl⟩ := ih1 h1 hok
        refine ⟨m' :: msgs', ?_⟩
        rw [xfer_loop_cons, hm]
        simp [hl]
      · intro hnone
        rw [hrun] at hnone
        obtain ⟨pre, mf, post, h1, e, pre', hsplit, hpre, hmf, he, hlen, hl⟩ := ih2 hnone
        refine ⟨m :: pre, mf, post, h1, e, m' :: pre', by simp [hsplit], ?_, hmf, he,
          by simp [hlen], ?_⟩
        · simp [run_ok, hm, hpre]
        · rw [xfer_loop_cons, hm]
          simp [hl]
    · constructor
      · intro h1 hok
        simp [run_ok, hm, EINVAL] at hok
      · intro _
        refine ⟨[], m, rest, hdmi, -EINVAL, [], rfl, rfl, hm, Or.inl ⟨rfl, hf⟩, rfl, ?_⟩
        rw [xfer_loop_cons, hm]
        simp [EINVAL]
    · constructor
      · intro h1 hok
        simp [run_ok, hm, EAGAIN] at hok
      · intro _
        refine ⟨[], m, rest, hdmi, -EAGAIN, [], rfl, rfl, hm, Or.inr ⟨rfl, hf⟩, rfl, ?_⟩
        rw [xfer_loop_cons, hm]
        simp [EAGAIN]

/-- The transfer, by its opening statements, its loop and its closing
statements. -/
lemma xfer_eq (hw : hw_model) (irq : List io_event → Bool) (k : inno_hdmi_h)
    (hdmi : inno_hdmi) (c : inno_hdmi_i2c) (msgs : List i2c_msg)
    (hi2c : hdmi.i2c = some c) (hlock : c.lock = false) :
    inno_hdmi_i2c_xfer hw irq k hdmi msgs =
      match xfer_loop hw irq k msgs 0 (xfer_open k hdmi c) with
      | none => none
      | some r => some (if r.1 = 0 then (msgs.length : Int) else r.1, xfer_close k r.2.1, r.2.2) := by
  unfold inno_hdmi_i2c_xfer
  rw [hi2c]
  simp only [hlock, Bool.false_eq_true, if_false]
  rfl

/-- C27: for every message array, `inno_hdmi_i2c_xfer` on an adapter whose lock is
free returns `num`, the length of the array, when every message succeeds (0 for
the empty array).  Otherwise the array splits at the first failing message:
those before it succeed, it is answered `-EINVAL` (a write) or `-EAGAIN` (a read)
and leaves the handle as it found it, and the transfer returns that value with
nothing done after it but the closing store and the unlock, the messages behind
it untouched.  The value returned is `num`, `-EINVAL` or `-EAGAIN`, so never a
positive value other than `num`. -/
theorem xfer_return_value (hw : hw_model) (irq : List io_event → Bool) (k : inno_hdmi_h)
    (hdmi : inno_hdmi) (c : inno_hdmi_i2c) (msgs : List i2c_msg)
    (hi2c : hdmi.i2c = some c) (hlock : c.lock = false) :
    (∀ h1, run_ok hw irq k msgs (xfer_open k hdmi c) = some h1 →
      ∃ msgs', inno_hdmi_i2c_xfer hw irq k hdmi msgs =
        some ((msgs.length : Int), xfer_close k h1, msgs')) ∧
    (run_ok hw irq k msgs (xfer_open k hdmi c) = none →
      ∃ pre m post h1 e pre', msgs = pre ++ m :: post ∧
        run_ok hw irq k pre (xfer_open k hdmi c) = some h1 ∧
        xfer_msg hw irq k h1 m = some (e, h1, m) ∧
        ((e = -EINVAL ∧ m.flags &&& I2C_M_RD = 0) ∨
          (e = -EAGAIN ∧ m.flags &&& I2C_M_RD ≠ 0)) ∧
        pre'.length = pre.length ∧
        inno_hdmi_i2c_xfer hw irq k hdmi msgs = some (e, xfer_close k h1, pre' ++ m :: post)) ∧
    (∃ ret hdmi' msgs', inno_hdmi_i2c_xfer hw irq k hdmi msgs = some (ret, hdmi', msgs') ∧
      (ret = (msgs.length : Int) ∨ ret = -EINVAL ∨ ret = -EAGAIN)) ∧
    inno_hdmi_i2c_xfer hw irq k hdmi [] =
      some (0, xfer_close k (xfer_open k hdmi c), []) := by
  obtain ⟨h1, h2⟩ := xfer_loop_result hw irq k msgs (xfer_open k hdmi c) { c with lock := true } rfl
  have hx := xfer_eq hw irq k hdmi c msgs hi2c hlock
  have p1 : ∀ h1, run_ok hw irq k msgs (xfer_open k hdmi c) = some h1 →
      ∃ msgs', inno_hdmi_i2c_xfer hw irq k hdmi msgs =
        some ((msgs.length : Int), xfer_close k h1, msgs') := by
    intro s hok
    obtain ⟨msgs', hl⟩ := h1 s hok
    exact ⟨msgs', by rw [hx, hl]; simp⟩
  have p2 : run_ok hw irq k msgs (xfer_open k hdmi c) = none →
      ∃ pre m post h1 e pre', msgs = pre ++ m :: post ∧
        run_ok hw irq k pre (xfer_open k hdmi c) = some h1 ∧
        xfer_msg hw irq k h1 m = some (e, h1, m) ∧
        ((e = -EINVAL ∧ m.flags &&& I2C_M_RD = 0) ∨
          (e = -EAGAIN ∧ m.flags &&& I2C_M_RD ≠ 0)) ∧
        pre'.length = pre.length ∧
        inno_hdmi_i2c_xfer hw irq k hdmi msgs = some (e, xfer_close k h1, pre' ++ m :: post) := by
    intro hnone
    obtain ⟨pre, m, post, s, e, pre', hsplit, hpre, hm, he, hlen, hl⟩ := h2 hnone
    refine ⟨pre, m, post, s, e, pre', hsplit, hpre, hm, he, hlen, ?_⟩
    rw [hx, hl]
    have hne : e ≠ 0 := by
      rcases he with ⟨he, _⟩ | ⟨he, _⟩ <;> rw [he] <;> decide
    simp [hne]
  refine ⟨p1, p2, ?_, by rw [xfer_eq hw irq k hdmi c [] hi2c hlock]; rfl⟩
  cases hr : run_ok hw irq k msgs (xfer_open k hdmi c) with
  | some s =>
    obtain ⟨msgs', hrun⟩ := p1 s hr
    exact ⟨_, _, _, hrun, Or.inl rfl⟩
  | none =>
    obtain ⟨pre, m, post, s, e, pre', _, _, _, he, _, hrun⟩ := p2 hr
    refine ⟨_, _, _, hrun, Or.inr ?_⟩
    rcases he with ⟨he, _⟩ | ⟨he, _⟩
    · exact Or.inl he
    · exact Or.inr he

/-- C27 witness: an offset write, a read that times out and a write that is
never reached: the transfer returns the error of the read. -/
theorem xfer_return_value_witness :
    ∃ pre m post h1 e pre',
      [(⟨0x50, 0, 1, [0x80]⟩ : i2c_msg), ⟨0x50, I2C_M_RD, 4, [0, 0, 0, 0]⟩, ⟨0x50, 0, 1, [0x00]⟩] =
        pre ++ m :: post ∧
      run_ok hw_ones irq_never sample_h pre
        (xfer_open sample_h (inno_hdmi_with_i2c 0) ⟨0, 0, false, 0⟩) = some h1 ∧
      xfer_msg hw_ones irq_never sample_h h1 m = some (e, h1, m) ∧
      ((e = -EINVAL ∧ m.flags &&& I2C_M_RD = 0) ∨ (e = -EAGAIN ∧ m.flags &&& I2C_M_RD ≠ 0)) ∧
      pre'.length = pre.length ∧
      inno_hdmi_i2c_xfer hw_ones irq_never sample_h (inno_hdmi_with_i2c 0)
        [⟨0x50, 0, 1, [0x80]⟩, ⟨0x50, I2C_M_RD, 4, [0, 0, 0, 0]⟩, ⟨0x50, 0, 1, [0x00]⟩] =
          some (e, xfer_close sample_h h1, pre' ++ m :: post) :=
  (xfer_return_value hw_ones irq_never sample_h (inno_hdmi_with_i2c 0) ⟨0, 0, false, 0⟩
    [⟨0x50, 0, 1, [0x80]⟩, ⟨0x50, I2C_M_RD, 4, [0, 0, 0, 0]⟩, ⟨0x50, 0, 1, [0x00]⟩]
    rfl rfl).2.1 (by decide)

/-! ## Pre-PLL lookup: the kHz bucket -/

/-- No two real rows of the pre-PLL table carry the same pair of clocks. -/
lemma pre_row_pair_unique : ∀ i, i < 28 → ∀ j, j < 28 →
    (pre_row i).pixclock = (pre_row j).pixclock →
    (pre_row i).tmdsclock = (pre_row j).tmdsclock → i = j := by
  decide

/-- C28: the result of `inno_hdmi_phy_get_pre_pll_cfg` depends on the rate through
`rate / 1000` alone: two rates in the same kHz bucket get the same result.  It
returns a row exactly when some table row has pixclock and tmdsclock both equal
to `rate / 1000 * 1000`, and `-EINVAL` otherwise.  The row returned has
pixclock = tmdsclock and is the only row with its pair of clocks; no two rows of
the table share a pair; a row whose two clocks differ is returned for no
rate. -/
theorem pre_pll_lookup_khz_bucket (r1 r2 : Nat) :
    (r1 / 1000 = r2 / 1000 →
      inno_hdmi_phy_get_pre_pll_cfg r1 = inno_hdmi_phy_get_pre_pll_cfg r2) ∧
    ((∃ i, inno_hdmi_phy_get_pre_pll_cfg r1 = .ok i) ↔
      ∃ j, j < 28 ∧ (pre_row j).pixclock = r1 / 1000 * 1000 ∧
        (pre_row j).tmdsclock = r1 / 1000 * 1000) ∧
    (∀ i, inno_hdmi_phy_get_pre_pll_cfg r1 = .ok i →
      i < 28 ∧ (pre_row i).pixclock = (pre_row i).tmdsclock ∧
      (pre_row i).pixclock = r1 / 1000 * 1000 ∧
      ∀ j, j < 28 → (pre_row j).pixclock = (pre_row i).pixclock →
        (pre_row j).tmdsclock = (pre_row i).tmdsclock → j = i) ∧
    (∀ i j, i < 28 → j < 28 → (pre_row i).pixclock = (pre_row j).pixclock →
      (pre_row i).tmdsclock = (pre_row j).tmdsclock → i = j) ∧
    (∀ j, (pre_row j).pixclock ≠ (pre_row j).tmdsclock →
      inno_hdmi_phy_get_pre_pll_cfg r1 ≠ .ok j) ∧
    ((∀ j, j < 28 → ¬ ((pre_row j).pixclock = r1 / 1000 * 1000 ∧
        (pre_row j).tmdsclock = r1 / 1000 * 1000)) →
      inno_hdmi_phy_get_pre_pll_cfg r1 = .error (-EINVAL)) := by
  refine ⟨?_, ?_, ?_, ?_, ?_, ?_⟩
  · intro h
    unfold inno_hdmi_phy_get_pre_pll_cfg
    rw [h]
  · constructor
    · rintro ⟨i, hok⟩
      exact ⟨i, (get_pre_pll_cfg_ok_iff r1 i).1 hok⟩
    · rintro ⟨j, hj⟩
      exact ⟨j, (get_pre_pll_cfg_ok_iff r1 j).2 hj⟩
  · intro i hok
    obtain ⟨hi, hp, ht⟩ := (get_pre_pll_cfg_ok_iff r1 i).1 hok
    exact ⟨hi, by rw [hp, ht], hp, fun j hj h1 h2 => pre_row_pair_unique j hj i hi h1 h2⟩
  · intro i j hi hj h1 h2
    exact pre_row_pair_unique i hi j hj h1 h2
  · intro j hne hok
    obtain ⟨_, hp, ht⟩ := (get_pre_pll_cfg_ok_iff r1 j).1 hok
    exact hne (by rw [hp, ht])
  · intro hnone
    rcases get_pre_pll_cfg_cases r1 with h | ⟨i, hok⟩
    · exact h
    · obtain ⟨hi, hp, ht⟩ := (get_pre_pll_cfg_ok_iff r1 i).1 hok
      exact absurd ⟨hp, ht⟩ (hnone i hi)

/-! ## PLL programming: the values fit their registers -/

/-- The TMDS dividers of a row the pre-PLL lookup can return unpack from the
byte stored to register 0x1a4. -/
lemma pre_row_unpack_1a4 : ∀ i, i < 28 → (pre_row i).pixclock = (pre_row i).tmdsclock →
    (((pre_row i).tmds_div_a <<< 4) ||| ((pre_row i).tmds_div_b <<< 2) |||
      (pre_row i).tmds_div_c) >>> 4 = (pre_row i).tmds_div_a ∧
    ((((pre_row i).tmds_div_a <<< 4) ||| ((pre_row i).tmds_div_b <<< 2) |||
      (pre_row i).tmds_div_c) >>> 2) &&& 0x3 = (pre_row i).tmds_div_b ∧
    (((pre_row i).tmds_div_a <<< 4) ||| ((pre_row i).tmds_div_b <<< 2) |||
      (pre_row i).tmds_div_c) &&& 0x3 = (pre_row i).tmds_div_c := by
  decide

/-- The pixel-clock dividers of a row the pre-PLL lookup can return unpack from
the bytes stored to registers 0x1a5 and 0x1a6. -/
lemma pre_row_unpack_1a5_1a6 : ∀ i, i < 28 → (pre_row i).pixclock = (pre_row i).tmdsclock →
    (((pre_row i).pclk_div_b <<< 5) ||| (pre_row i).pclk_div_a) >>> 5 = (pre_row i).pclk_div_b ∧
    (((pre_row i).pclk_div_b <<< 5) ||| (pre_row i).pclk_div_a) &&& 0x1f =
      (pre_row i).pclk_div_a ∧
    (((pre_row i).pclk_div_c <<< 5) ||| (pre_row i).pclk_div_d) >>> 5 = (pre_row i).pclk_div_c ∧
    (((pre_row i).pclk_div_c <<< 5) ||| (pre_row i).pclk_div_d) &&& 0x1f =
      (pre_row i).pclk_div_d := by
  decide

/-- C30: for every pre-PLL row the lookup can return (a real row with
pixclock = tmdsclock) the values `inno_hdmi_config_pll` stores fit their registers.
fbdiv is below 256, so the entry for 0x1a2 is exactly 0xf0 and that for 0x1a3 the
whole fbdiv; tmds_div_a <= 15, tmds_div_b <= 3, tmds_div_c <= 3, pclk_div_a <= 31,
pclk_div_b <= 7, pclk_div_c <= 7, pclk_div_d <= 31, so the six entries for
0x1a1 .. 0x1a6 carry the values unreduced, each packed byte is below 256, and
every divider is recovered from its byte by shift and mask.  Every post-PLL row,
the sentinel included, has fbdiv <= 255 and postdiv <= 255, so the entry for
0x1ac is the whole fbdiv. -/
theorem config_pll_values_fit (i : Nat) (hi : i < 28)
    (hdiag : (pre_row i).pixclock = (pre_row i).tmdsclock) :
    ((pre_row i).fbdiv < 256 ∧ (0xf0 ||| (pre_row i).fbdiv >>> 8) = 0xf0 ∧
      (pre_row i).tmds_div_a ≤ 15 ∧ (pre_row i).tmds_div_b ≤ 3 ∧ (pre_row i).tmds_div_c ≤ 3 ∧
      (pre_row i).pclk_div_a ≤ 31 ∧ (pre_row i).pclk_div_b ≤ 7 ∧
      (pre_row i).pclk_div_c ≤ 7 ∧ (pre_row i).pclk_div_d ≤ 31) ∧
    (∀ (q : post_pll_config) (vic : Int),
      ((cfg_pll_data (pre_row i) q vic).drop 2).take 6 =
        [ ⟨0x1a1, (pre_row i).prediv⟩, ⟨0x1a2, 0xf0⟩, ⟨0x1a3, (pre_row i).fbdiv⟩,
          ⟨0x1a4, ((pre_row i).tmds_div_a <<< 4) ||| ((pre_row i).tmds_div_b <<< 2) |||
            (pre_row i).tmds_div_c⟩,
          ⟨0x1a5, ((pre_row i).pclk_div_b <<< 5) ||| (pre_row i).pclk_div_a⟩,
          ⟨0x1a6, ((pre_row i).pclk_div_c <<< 5) ||| (pre_row i).pclk_div_d⟩ ]) ∧
    ((((pre_row i).tmds_div_a <<< 4) ||| ((pre_row i).tmds_div_b <<< 2) |||
        (pre_row i).tmds_div_c) < 256 ∧
      (((pre_row i).pclk_div_b <<< 5) ||| (pre_row i).pclk_div_a) < 256 ∧
      (((pre_row i).pclk_div_c <<< 5) ||| (pre_row i).pclk_div_d) < 256) ∧
    ((((pre_row i).tmds_div_a <<< 4) ||| ((pre_row i).tmds_div_b <<< 2) |||
        (pre_row i).tmds_div_c) >>> 4 = (pre_row i).tmds_div_a ∧
      ((((pre_row i).tmds_div_a <<< 4) ||| ((pre_row i).tmds_div_b <<< 2) |||
        (pre_row i).tmds_div_c) >>> 2) &&& 0x3 = (pre_row i).tmds_div_b ∧
      (((pre_row i).tmds_div_a <<< 4) ||| ((pre_row i).tmds_div_b <<< 2) |||
        (pre_row i).tmds_div_c) &&& 0x3 = (pre_row i).tmds_div_c ∧
      (((pre_row i).pclk_div_b <<< 5) ||| (pre_row i).pclk_div_a) >>> 5 = (pre_row i).pclk_div_b ∧
      (((pre_row i).pclk_div_b <<< 5) ||| (pre_row i).pclk_div_a) &&& 0x1f =
        (pre_row i).pclk_div_a ∧
      (((pre_row i).pclk_div_c <<< 5) ||| (pre_row i).pclk_div_d) >>> 5 = (pre_row i).pclk_div_c ∧
      (((pre_row i).pclk_div_c <<< 5) ||| (pre_row i).pclk_div_d) &&& 0x1f =
        (pre_row i).pclk_div_d) ∧
    (∀ j, j ≤ 7 → (post_row j).fbdiv ≤ 255 ∧ (post_row j).postdiv ≤ 255 ∧
      ∀ (p : pre_pll_config) (vic : Int),
        ((cfg_pll_data p (post_row j) vic).drop 9).take 1 = [⟨0x1ac, (post_row j).fbdiv⟩]) := by
  obtain ⟨f1, f2, a1, a2, a3, a4, a5, a6, a7⟩ := pre_row_fields_fit i hi hdiag
  obtain ⟨r1, r2, r3⟩ := pre_row_unpack_1a4 i hi hdiag
  obtain ⟨r4, r5, r6, r7⟩ := pre_row_unpack_1a5_1a6 i hi hdiag
  obtain ⟨p1, p2, p3, p4, p5, p6⟩ := pre_row_bytes i hi hdiag
  refine ⟨⟨f1, f2, a1, a2, a3, a4, a5, a6, a7⟩, ?_, ⟨p4, p5, p6⟩,
    ⟨r1, r2, r3, r4, r5, r6, r7⟩, ?_⟩
  · intro q vic
    simp only [cfg_pll_data, reg_value, List.drop_succ_cons, List.drop_zero, List.take_succ_cons,
      List.take_zero, f2, Nat.mod_eq_of_lt p1, Nat.mod_eq_of_lt p3, Nat.mod_eq_of_lt p4,
      Nat.mod_eq_of_lt p5, Nat.mod_eq_of_lt p6]
  · intro j hj
    obtain ⟨h1, h2⟩ := post_row_fbdiv_postdiv j hj
    refine ⟨h1, h2, ?_⟩
    intro p vic
    have h3 : (post_row j).fbdiv &&& 0xff = (post_row j).fbdiv := by
      have : (post_row j).fbdiv < 2 ^ 8 := by omega
      have h255 : (0xff : Nat) = 2 ^ 8 - 1 := by norm_num
      rw [h255, Nat.and_pow_two_sub_one_eq_mod, Nat.mod_eq_of_lt this]
    simp only [cfg_pll_data, reg_value, List.drop_succ_cons, List.drop_zero, List.take_succ_cons,
      List.take_zero, h3]
    have h4 : (post_row j).fbdiv % 256 = (post_row j).fbdiv := Nat.mod_eq_of_lt (by omega)
    rw [h4]

/-- C30 witness: the 148.5 MHz row. -/
theorem config_pll_values_fit_witness :
    (pre_row 15).fbdiv < 256 ∧ (0xf0 ||| (pre_row 15).fbdiv >>> 8) = 0xf0 ∧
      (pre_row 15).tmds_div_a ≤ 15 ∧ (pre_row 15).tmds_div_b ≤ 3 ∧ (pre_row 15).tmds_div_c ≤ 3 ∧
      (pre_row 15).pclk_div_a ≤ 31 ∧ (pre_row 15).pclk_div_b ≤ 7 ∧
      (pre_row 15).pclk_div_c ≤ 7 ∧ (pre_row 15).pclk_div_d ≤ 31 :=
  (config_pll_values_fit 15 (by decide) (by decide)).1

end InnoHdmi

/-! ## Tuning of the StarFive SD/MMC host -/

namespace DwMciStarfive

/-- The events of trying the first `n` delays depend on the values returned at
those delays only. -/
lemma tried_events_congr (priv : starfive_priv) (e e' : Nat → Int) :
    ∀ n, (∀ j, j < n → e' j = e j) → tried_events priv e' n = tried_events priv e n := by
  intro n
  induction n with
  | zero => intro _; rfl
  | succ n ih =>
    intro h
    simp only [tried_events]
    rw [ih (fun j hj => h j (by omega)), h n (by omega)]

/-- One turn of the loop when the syscon update succeeds. -/
lemma tuning_loop_step (priv : starfive_priv) (env : tuning_env)
    (hreg : ∀ l v, env.regmap_update_bits l v = 0)
    (n i : Nat) (v : tuning_locals) (log : List tuning_event) (x : Int)
    (hx : x = env.mmc_send_tuning (log ++
      [ tuning_event.regmap_update_bits priv.syscon_offset priv.syscon_mask (delay_regval priv i),
        tuning_event.mci_writel_RINTSTS ALL_INT_CLR ])) :
    tuning_loop priv env (n + 1) i v log =
      if (if 0 < i ∧ x = 0 ∧ v.prev_err ≠ 0 then (i : Int) else v.raise_point) ≠ -1 ∧
          (if 0 < i ∧ x ≠ 0 ∧ v.prev_err = 0 then (i : Int) - 1 else v.fall_point) ≠ -1 then
        .ok ({ raise_point := if 0 < i ∧ x = 0 ∧ v.prev_err ≠ 0 then (i : Int) else v.raise_point,
               fall_point := if 0 < i ∧ x ≠ 0 ∧ v.prev_err = 0 then (i : Int) - 1
                 else v.fall_point,
               prev_err := v.prev_err, found := if x = 0 then 1 else v.found },
          log ++
            [ tuning_event.regmap_update_bits priv.syscon_offset priv.syscon_mask
                (delay_regval priv i),
              tuning_event.mci_writel_RINTSTS ALL_INT_CLR, tuning_event.mmc_send_tuning x ])
      else
        tuning_loop priv env n (i + 1)
          { raise_point := if 0 < i ∧ x = 0 ∧ v.prev_err ≠ 0 then (i : Int) else v.raise_point,
            fall_point := if 0 < i ∧ x ≠ 0 ∧ v.prev_err = 0 then (i : Int) - 1
              else v.fall_point,
            prev_err := x, found := if x = 0 then 1 else v.found }
          (log ++
            [ tuning_event.regmap_update_bits priv.syscon_offset priv.syscon_mask
                (delay_regval priv i),
              tuning_event.mci_writel_RINTSTS ALL_INT_CLR, tuning_event.mmc_send_tuning x ]) := by
  subst hx
  simp only [tuning_loop, hreg, ne_eq, not_true_eq_false, if_false, List.append_assoc,
    List.cons_append, List.nil_append]

/-- The loop, entered at delay `i` with the locals describing the delays tried so
far, reaches `tuning_out` when every syscon update succeeds: it has tried the
delays up to some `m`, and the locals describe them as `tuning_post` says. -/
lemma tuning_loop_spec (priv : starfive_priv) (env : tuning_env)
    (hreg : ∀ l v, env.regmap_update_bits l v = 0) :
    ∀ (n i : Nat) (v : tuning_locals) (e : Nat → Int), i + n = 32 → tuning_inv i v e →
      tuning_tied priv env e i →
      ∃ m v' e', i ≤ m ∧ m ≤ 32 ∧ (∀ j, j < i → e' j = e j) ∧
        tuning_loop priv env n i v (tried_events priv e i) =
          .ok (v', tried_events priv e' m) ∧
        tuning_post m v' e' ∧ tuning_tied priv env e' m := by
  intro n
  induction n with
  | zero =>
    intro i v e hi hinv htie
    have h32 : i = 32 := by omega
    subst h32
    exact ⟨32, v, e, le_refl _, le_refl _, fun _ _ => rfl, rfl, Or.inl ⟨rfl, hinv⟩, htie⟩
  | succ n ih =>
    intro i v e hi hinv htie
    generalize hx : env.mmc_send_tuning (tried_events priv e i ++
      [ tuning_event.regmap_update_bits priv.syscon_offset priv.syscon_mask (delay_regval priv i),
        tuning_event.mci_writel_RINTSTS ALL_INT_CLR ]) = x
    rw [tuning_loop_step priv env hreg n i v _ x hx.symm]
    have he1 : ∀ j, j < i → Function.update e i x j = e j :=
      fun j hj => Function.update_noteq (by omega) _ _
    have he1i : Function.update e i x i = x := Function.update_same _ _ _
    have hlog : tried_events priv e i ++
        [ tuning_event.regmap_update_bits priv.syscon_offset priv.syscon_mask
            (delay_regval priv i),
          tuning_event.mci_writel_RINTSTS ALL_INT_CLR, tuning_event.mmc_send_tuning x ] =
        tried_events priv (Function.update e i x) (i + 1) := by
      simp only [tried_events]
      rw [tried_events_congr priv e _ i he1, he1i]
    rw [hlog]
    have htie1 : tuning_tied priv env (Function.update e i x) (i + 1) := by
      intro j hj
      rw [tried_events_congr priv e _ j (fun l hl => he1 l (by omega))]
      by_cases hji : j = i
      · rw [hji, he1i, hx]
      · rw [he1 j (by omega)]
        exact htie j (by omega)
    have cont : ∀ R F FD : Int, ¬ (R ≠ -1 ∧ F ≠ -1) →
        tuning_inv (i + 1) ⟨R, F, x, FD⟩ (Function.update e i x) →
        ∃ m v' e', i ≤ m ∧ m ≤ 32 ∧ (∀ j, j < i → e' j = e j) ∧
          (if R ≠ -1 ∧ F ≠ -1 then
              (.ok (⟨R, F, v.prev_err, FD⟩, tried_events priv (Function.update e i x) (i + 1)) :
                Except (Int × List tuning_event) (tuning_locals × List tuning_event))
            else tuning_loop priv env n (i + 1) ⟨R, F, x, FD⟩
              (tried_events priv (Function.update e i x) (i + 1))) =
            .ok (v', tried_events priv e' m) ∧
          tuning_post m v' e' ∧ tuning_tied priv env e' m := by
      intro R F FD hne hinv1
      obtain ⟨m, v', e', him, hm, hagree, hrun, hpost, htie'⟩ :=
        ih (i + 1) ⟨R, F, x, FD⟩ (Function.update e i x) (by omega) hinv1 htie1
      refine ⟨m, v', e', by omega, hm, fun j hj => (hagree j (by omega)).trans (he1 j hj), ?_,
        hpost, htie'⟩
      rw [if_neg hne]
      exact hrun
    have leave : ∀ R F FD : Int, (R ≠ -1 ∧ F ≠ -1) →
        tuning_post (i + 1) ⟨R, F, v.prev_err, FD⟩ (Function.update e i x) →
        ∃ m v' e', i ≤ m ∧ m ≤ 32 ∧ (∀ j, j < i → e' j = e j) ∧
          (if R ≠ -1 ∧ F ≠ -1 then
              (.ok (⟨R, F, v.prev_err, FD⟩, tried_events priv (Function.update e i x) (i + 1)) :
                Except (Int × List tuning_event) (tuning_locals × List tuning_event))
            else tuning_loop priv env n (i + 1) ⟨R, F, x, FD⟩
              (tried_events priv (Function.update e i x) (i + 1))) =
            .ok (v', tried_events priv e' m) ∧
          tuning_post m v' e' ∧ tuning_tied priv env e' m := by
      intro R F FD hboth hpost
      refine ⟨i + 1, ⟨R, F, v.prev_err, FD⟩, Function.update e i x, by omega, by omega, he1, ?_,
        hpost, htie1⟩
      rw [if_pos hboth]
    obtain ⟨hprev, hshape⟩ := hinv
    have hprev0 : i = 0 → v.prev_err = -1 := fun h => by rw [hprev, if_pos h]
    have hprev1 : 0 < i → v.prev_err = e (i - 1) := fun h => by
      rw [hprev, if_neg (by omega)]
    have hprevx : x = if i + 1 = 0 then -1 else Function.update e i x (i + 1 - 1) := by
      rw [if_neg (by omega), Nat.add_sub_cancel, he1i]
    rcases hshape with ⟨hr, hf, hfound⟩ | ⟨r, hr, hf, hfd, hr0, hri, hfail, hpass⟩ |
      ⟨f, hf, hr, hfd, hfi, hpass, hfail⟩
    · -- no point set yet
      by_cases hx0 : x = 0
      · by_cases hc : 0 < i ∧ v.prev_err ≠ 0
        · -- a pass after failures: the rise point
          have hR : (if 0 < i ∧ x = 0 ∧ v.prev_err ≠ 0 then (i : Int) else v.raise_point) = i :=
            if_pos ⟨hc.1, hx0, hc.2⟩
          have hF : (if 0 < i ∧ x ≠ 0 ∧ v.prev_err = 0 then (i : Int) - 1 else v.fall_point) = -1 := by
            rw [if_neg (fun h => h.2.1 hx0), hf]
          have hFD : (if x = 0 then 1 else v.found) = 1 := if_pos hx0
          rw [hR, hF, hFD]
          refine cont _ _ _ (fun h => h.2 rfl) ⟨hprevx, Or.inr (Or.inl ⟨i, rfl, rfl, rfl, hc.1,
            by omega, ?_, ?_⟩)⟩
          · intro j hj
            rw [he1 j hj]
            rcases hfound with ⟨_, hall⟩ | ⟨_, _, hall⟩
            · exact hall j hj
            · exact absurd (by rw [hprev1 hc.1]; exact hall (i - 1) (by omega)) hc.2
          · intro j hj1 hj2
            have hji : j = i := by omega
            rw [hji, he1i]
            exact hx0
        · -- a pass with no failure before it
          have hR : (if 0 < i ∧ x = 0 ∧ v.prev_err ≠ 0 then (i : Int) else v.raise_point) = -1 := by
            rw [if_neg (fun h => hc ⟨h.1, h.2.2⟩), hr]
          have hF : (if 0 < i ∧ x ≠ 0 ∧ v.prev_err = 0 then (i : Int) - 1 else v.fall_point) = -1 := by
            rw [if_neg (fun h => h.2.1 hx0), hf]
          have hFD : (if x = 0 then 1 else v.found) = 1 := if_pos hx0
          rw [hR, hF, hFD]
          refine cont _ _ _ (fun h => h.2 rfl) ⟨hprevx, Or.inl ⟨rfl, rfl, Or.inr ⟨rfl, by omega, ?_⟩⟩⟩
          intro j hj
          by_cases hji : j = i
          · rw [hji, he1i]; exact hx0
          · have hlt : j < i := by omega
            rw [he1 j hlt]
            rcases hfound with ⟨_, hall⟩ | ⟨_, _, hall⟩
            · exfalso
              have hi0 : 0 < i := by omega
              have hp : v.prev_err = 0 := by
                by_contra hne
                exact hc ⟨hi0, hne⟩
              rw [hprev1 hi0] at hp
              exact hall (i - 1) (by omega) hp
            · exact hall j hlt
      · by_cases hc : 0 < i ∧ v.prev_err = 0
        · -- a failure after passes: the fall point
          have hR : (if 0 < i ∧ x = 0 ∧ v.prev_err ≠ 0 then (i : Int) else v.raise_point) = -1 := by
            rw [if_neg (fun h => hx0 h.2.1), hr]
          have hF : (if 0 < i ∧ x ≠ 0 ∧ v.prev_err = 0 then (i : Int) - 1 else v.fall_point) =
              ((i - 1 : Nat) : Int) := by
            rw [if_pos ⟨hc.1, hx0, hc.2⟩]
            omega
          have hFD : (if x = 0 then 1 else v.found) = v.found := if_neg hx0
          rw [hR, hF, hFD]
          have hallpass : v.found = 1 ∧ ∀ j, j < i → e j = 0 := by
            rcases hfound with ⟨_, hall⟩ | ⟨h1, _, hall⟩
            · exact absurd (by rw [← hprev1 hc.1]; exact hc.2) (hall (i - 1) (by omega))
            · exact ⟨h1, hall⟩
          refine cont _ _ _ (fun h => h.1 rfl) ⟨hprevx, Or.inr (Or.inr ⟨i - 1, rfl, rfl,
            hallpass.1, by omega, ?_, ?_⟩)⟩
          · intro j hj
            rw [he1 j (by omega)]
            exact hallpass.2 j (by omega)
          · intro j hj1 hj2
            have hji : j = i := by omega
            rw [hji, he1i]
            exact hx0
        · -- a failure with no pass before it
          have hR : (if 0 < i ∧ x = 0 ∧ v.prev_err ≠ 0 then (i : Int) else v.raise_point) = -1 := by
            rw [if_neg (fun h => hx0 h.2.1), hr]
          have hF : (if 0 < i ∧ x ≠ 0 ∧ v.prev_err = 0 then (i : Int) - 1 else v.fall_point) = -1 := by
            rw [if_neg (fun h => hc ⟨h.1, h.2.2⟩), hf]
          have hFD : (if x = 0 then 1 else v.found) = v.found := if_neg hx0
          rw [hR, hF, hFD]
          have hallfail : v.found = 0 ∧ ∀ j, j < i → e j ≠ 0 := by
            rcases hfound with ⟨h0, hall⟩ | ⟨_, hi0, hall⟩
            · exact ⟨h0, hall⟩
            · exact absurd ⟨hi0, by rw [hprev1 hi0]; exact hall (i - 1) (by omega)⟩ hc
          refine cont _ _ _ (fun h => h.1 rfl) ⟨hprevx, Or.inl ⟨rfl, rfl, Or.inl ⟨hallfail.1, ?_⟩⟩⟩
          intro j hj
          by_cases hji : j = i
          · rw [hji, he1i]; exact hx0
          · rw [he1 j (by omega)]
            exact hallfail.2 j (by omega)
    · -- the rise point is set; the previous delay passed
      have hp : v.prev_err = 0 := by
        rw [hprev1 (by omega)]
        exact hpass (i - 1) (by omega) (by omega)
      by_cases hx0 : x = 0
      · have hR : (if 0 < i ∧ x = 0 ∧ v.prev_err ≠ 0 then (i : Int) else v.raise_point) = r := by
          rw [if_neg (fun h => h.2.2 hp), hr]
        have hF : (if 0 < i ∧ x ≠ 0 ∧ v.prev_err = 0 then (i : Int) - 1 else v.fall_point) = -1 := by
          rw [if_neg (fun h => h.2.1 hx0), hf]
        have hFD : (if x = 0 then 1 else v.found) = 1 := if_pos hx0
        rw [hR, hF, hFD]
        refine cont _ _ _ (fun h => h.2 rfl) ⟨hprevx, Or.inr (Or.inl ⟨r, rfl, rfl, rfl, hr0,
          by omega, ?_, ?_⟩)⟩
        · intro j hj
          rw [he1 j (by omega)]
          exact hfail j hj
        · intro j hj1 hj2
          by_cases hji : j = i
          · rw [hji, he1i]; exact hx0
          · rw [he1 j (by omega)]
            exact hpass j hj1 (by omega)
      · have hR : (if 0 < i ∧ x = 0 ∧ v.prev_err ≠ 0 then (i : Int) else v.raise_point) = r := by
          rw [if_neg (fun h => hx0 h.2.1), hr]
        have hF : (if 0 < i ∧ x ≠ 0 ∧ v.prev_err = 0 then (i : Int) - 1 else v.fall_point) =
            ((i - 1 : Nat) : Int) := by
          rw [if_pos ⟨by omega, hx0, hp⟩]
          omega
        have hFD : (if x = 0 then 1 else v.found) = 1 := by rw [if_neg hx0, hfd]
        rw [hR, hF, hFD]
        refine leave _ _ _ ⟨by omega, by omega⟩ (Or.inr (Or.inl ⟨r, i - 1, rfl, rfl, rfl, hr0,
          by omega, by omega, by omega, ?_, ?_, ?_⟩))
        · intro j hj
          rw [he1 j (by omega)]
          exact hfail j hj
        · intro j hj1 hj2
          rw [he1 j (by omega)]
          exact hpass j hj1 (by omega)
        · have hii : i - 1 + 1 = i := by omega
          rw [hii, he1i]
          exact hx0
    · -- the fall point is set; the previous delay failed
      have hp : v.prev_err ≠ 0 := by
        rw [hprev1 (by omega)]
        exact hfail (i - 1) (by omega) (by omega)
      by_cases hx0 : x = 0
      · have hR : (if 0 < i ∧ x = 0 ∧ v.prev_err ≠ 0 then (i : Int) else v.raise_point) = i :=
          if_pos ⟨by omega, hx0, hp⟩
        have hF : (if 0 < i ∧ x ≠ 0 ∧ v.prev_err = 0 then (i : Int) - 1 else v.fall_point) = f := by
          rw [if_neg (fun h => h.2.1 hx0), hf]
        have hFD : (if x = 0 then 1 else v.found) = 1 := if_pos hx0
        rw [hR, hF, hFD]
        refine leave _ _ _ ⟨by omega, by omega⟩ (Or.inr (Or.inr ⟨i, f, rfl, rfl, rfl,
          by omega, rfl, by omega, ?_, ?_, ?_⟩))
        · intro j hj
          rw [he1 j (by omega)]
          exact hpass j hj
        · intro j hj1 hj2
          rw [he1 j hj2]
          exact hfail j hj1 hj2
        · rw [he1i]
          exact hx0
      · have hR : (if 0 < i ∧ x = 0 ∧ v.prev_err ≠ 0 then (i : Int) else v.raise_point) = -1 := by
          rw [if_neg (fun h => hx0 h.2.1), hr]
        have hF : (if 0 < i ∧ x ≠ 0 ∧ v.prev_err = 0 then (i : Int) - 1 else v.fall_point) = f := by
          rw [if_neg (fun h => hp h.2.2), hf]
        have hFD : (if x = 0 then 1 else v.found) = 1 := by rw [if_neg hx0, hfd]
        rw [hR, hF, hFD]
        refine cont _ _ _ (fun h => h.1 rfl) ⟨hprevx, Or.inr (Or.inr ⟨f, rfl, rfl, rfl,
          by omega, ?_, ?_⟩)⟩
        · intro j hj
          rw [he1 j (by omega)]
          exact hpass j hj
        · intro j hj1 hj2
          by_cases hji : j = i
          · rw [hji, he1i]; exact hx0
          · rw [he1 j (by omega)]
            exact hfail j hj1 (by omega)

/-- The delay chosen at `tuning_out`, and why it is safe: for locals that describe
the `m` delays tried and report a pass, the delay lies in 0..31 and either was
not tried or passed. -/
lemma tuning_delay_spec (m : Nat) (v : tuning_locals) (e : Nat → Int)
    (hpost : tuning_post m v e) (hfound : v.found ≠ 0) :
    ∃ d : Nat, tuning_delay v = (d : Int) ∧ d ≤ 31 ∧ (m ≤ d ∨ e d = 0) := by
  have hdiv : ∀ a : Nat, Int.tdiv (a : Int) 2 = ((a / 2 : Nat) : Int) := by
    intro a
    rw [Int.tdiv_eq_ediv (by omega) (by norm_num)]
    omega
  rcases hpost with ⟨hm, _, hshape⟩ | ⟨r, f, hr, hf, _, hr0, hrf, hfm, hm, _, hpass, _⟩ |
    ⟨r, f, hr, hf, _, hfr, hrm, hm, hpass, _, her⟩
  · rcases hshape with ⟨hr, hf, hfd⟩ | ⟨r, hr, hf, _, hr0, hri, _, hpass⟩ |
      ⟨f, hf, hr, _, hfi, hpass, _⟩
    · rcases hfd with ⟨h0, _⟩ | ⟨_, _, hall⟩
      · exact absurd h0 hfound
      · refine ⟨15, ?_, by omega, Or.inr (hall 15 (by omega))⟩
        simp only [tuning_delay, MAX_DELAY_CHAIN, hr, hf]
        decide
    · refine ⟨(r + 31) / 2, ?_, by omega, Or.inr (hpass _ (by omega) (by omega))⟩
      have h1 : ((r : Int) = -1) = False := by simp
      have h2 : ¬ ((32 : Int) - 1 < (r : Int)) := by omega
      simp only [tuning_delay, MAX_DELAY_CHAIN, hr, hf, h1, if_false, if_true, h2]
      have h3 : (r : Int) + (32 - 1) = ((r + 31 : Nat) : Int) := by omega
      rw [h3, hdiv]
    · refine ⟨f / 2, ?_, by omega, Or.inr (hpass _ (by omega))⟩
      have h1 : ((f : Int) = -1) = False := by simp
      have h2 : ¬ ((f : Int) < 0) := by omega
      simp only [tuning_delay, MAX_DELAY_CHAIN, hr, hf, h1, if_false, if_true, h2]
      have h3 : (0 : Int) + (f : Int) = ((f : Nat) : Int) := by omega
      rw [h3, hdiv]
  · refine ⟨(r + f) / 2, ?_, by omega, Or.inr (hpass _ (by omega) (by omega))⟩
    have h1 : ((r : Int) = -1) = False := by simp
    have h1' : ((f : Int) = -1) = False := by simp
    have h2 : ¬ ((f : Int) < (r : Int)) := by omega
    simp only [tuning_delay, MAX_DELAY_CHAIN, hr, hf, h1, h1', if_false, h2]
    have h3 : (r : Int) + (f : Int) = ((r + f : Nat) : Int) := by omega
    rw [h3, hdiv]
  · have h1 : ((r : Int) = -1) = False := by simp
    have h1' : ((f : Int) = -1) = False := by simp
    have h2 : (f : Int) < (r : Int) := by omega
    by_cases hsum : (r : Int) + (f : Int) > 32 - 1
    · refine ⟨f / 2, ?_, by omega, Or.inr (hpass _ (by omega))⟩
      simp only [tuning_delay, MAX_DELAY_CHAIN, hr, hf, h1, h1', if_false, h2, if_true, hsum]
      rw [hdiv]
    · refine ⟨(r + 31) / 2, ?_, by omega, ?_⟩
      · simp only [tuning_delay, MAX_DELAY_CHAIN, hr, hf, h1, h1', if_false, h2, if_true, hsum]
        have h3 : (r : Int) + 32 - 1 = ((r + 31 : Nat) : Int) := by omega
        rw [h3, hdiv]
      · by_cases hd : (r + 31) / 2 = r
        · right; rw [hd]; exact her
        · left; omega

/-- C29: for every behaviour of the tuning command `env.mmc_send_tuning`, when the
syscon updates succeed, `dw_mci_starfive_execute_tuning` tries the delays 0, 1, ..
in turn, `m` of them (at most 32), and `e j` is the value the tuning command
returned at delay `j`, that is `env.mmc_send_tuning` applied to the events up to
that command (`tuning_tied`).  If none of the delays tried passes, all 32 were
tried and it returns `-EINVAL` having programmed no further delay.  If one passes
it returns 0 after programming a final delay `d` with `d <= 31` that is no delay
tried and failed: `d` passed, or was not tried.  In particular, on a card whose
tuning command fails whenever it is sent the function returns `-EINVAL`, and on a
card whose tuning command always passes it tries all 32 delays, programs delay
15 and returns 0. -/
theorem execute_tuning_picks_safe_delay (priv : starfive_priv) (env : tuning_env)
    (hreg : ∀ l v, env.regmap_update_bits l v = 0) :
    (∃ (m : Nat) (e : Nat → Int), m ≤ 32 ∧ tuning_tied priv env e m ∧
      (((∀ j, j < m → e j ≠ 0) ∧ m = 32 ∧
          dw_mci_starfive_execute_tuning priv env =
            (-EINVAL, tried_events priv e m ++ [tuning_event.mci_writel_RINTSTS ALL_INT_CLR])) ∨
        ((∃ j, j < m ∧ e j = 0) ∧
          ∃ d : Nat, d ≤ 31 ∧
            dw_mci_starfive_execute_tuning priv env =
              (0, tried_events priv e m ++
                [ tuning_event.regmap_update_bits priv.syscon_offset priv.syscon_mask
                    (delay_regval priv d),
                  tuning_event.mci_writel_RINTSTS ALL_INT_CLR ]) ∧
            ∀ j, j < m → e j ≠ 0 → d ≠ j))) ∧
    ((∀ log, env.mmc_send_tuning log ≠ 0) →
      (dw_mci_starfive_execute_tuning priv env).1 = -EINVAL) ∧
    ((∀ log, env.mmc_send_tuning log = 0) →
      dw_mci_starfive_execute_tuning priv env =
        (0, tried_events priv (fun _ => 0) 32 ++
          [ tuning_event.regmap_update_bits priv.syscon_offset priv.syscon_mask
              (delay_regval priv 15),
            tuning_event.mci_writel_RINTSTS ALL_INT_CLR ])) := by
  obtain ⟨m, v, e, _, hm, _, hrun, hpost, htie⟩ :=
    tuning_loop_spec priv env hreg 32 0 ⟨-1, -1, -1, 0⟩ (fun _ => 0) rfl
      ⟨rfl, Or.inl ⟨rfl, rfl, Or.inl ⟨rfl, fun j hj => absurd hj (Nat.not_lt_zero j)⟩⟩⟩
      (fun j hj => absurd hj (Nat.not_lt_zero j))
  have hrun' : tuning_loop priv env MAX_DELAY_CHAIN.toNat 0 ⟨-1, -1, -1, 0⟩ [] =
      .ok (v, tried_events priv e m) := hrun
  have main : ((∀ j, j < m → e j ≠ 0) ∧ m = 32 ∧
          dw_mci_starfive_execute_tuning priv env =
            (-EINVAL, tried_events priv e m ++ [tuning_event.mci_writel_RINTSTS ALL_INT_CLR])) ∨
        ((∃ j, j < m ∧ e j = 0) ∧
          ∃ d : Nat, d ≤ 31 ∧
            dw_mci_starfive_execute_tuning priv env =
              (0, tried_events priv e m ++
                [ tuning_event.regmap_update_bits priv.syscon_offset priv.syscon_mask
                    (delay_regval priv d),
                  tuning_event.mci_writel_RINTSTS ALL_INT_CLR ]) ∧
            ∀ j, j < m → e j ≠ 0 → d ≠ j) := by
    by_cases hfound : v.found ≠ 0
    · right
      obtain ⟨d, hd, hd31, hsafe⟩ := tuning_delay_spec m v e hpost hfound
      have hex : ∃ j, j < m ∧ e j = 0 := by
        rcases hpost with ⟨hm32, _, hshape⟩ | ⟨r, f, _, _, _, _, hrf, hfm, _, _, hpass, _⟩ |
          ⟨r, f, _, _, _, hfr, hrm, _, hpass, _, _⟩
        · rcases hshape with ⟨_, _, hfd⟩ | ⟨r, _, _, _, _, hri, _, hpass⟩ |
            ⟨f, _, _, _, hfi, hpass, _⟩
          · rcases hfd with ⟨h0, _⟩ | ⟨_, _, hall⟩
            · exact absurd h0 hfound
            · exact ⟨0, by omega, hall 0 (by omega)⟩
          · exact ⟨r, by omega, hpass r (le_refl _) hri⟩
          · exact ⟨0, by omega, hpass 0 (by omega)⟩
        · exact ⟨r, by omega, hpass r (le_refl _) hrf⟩
        · exact ⟨0, by omega, hpass 0 (by omega)⟩
      refine ⟨hex, d, hd31, ?_, ?_⟩
      · unfold dw_mci_starfive_execute_tuning
        rw [hrun']
        simp only [hfound, ne_eq, not_false_eq_true, if_true, hreg, not_true_eq_false, if_false,
          hd, List.append_assoc, List.cons_append, List.nil_append]
      · intro j hj hfail hdj
        rcases hsafe with h | h
        · omega
        · rw [hdj] at h
          exact hfail h
    · left
      have h0 : v.found = 0 := by
        by_contra h
        exact hfound h
      have hall : (∀ j, j < m → e j ≠ 0) ∧ m = 32 := by
        rcases hpost with ⟨hm32, _, hshape⟩ | ⟨r, f, _, _, h1, _⟩ | ⟨r, f, _, _, h1, _⟩
        · rcases hshape with ⟨_, _, hfd⟩ | ⟨r, _, _, h1, _⟩ | ⟨f, _, _, h1, _⟩
          · rcases hfd with ⟨_, hall⟩ | ⟨h1, _⟩
            · exact ⟨fun j hj => hall j (by omega), hm32⟩
            · rw [h0] at h1; exact absurd h1 (by decide)
          · rw [h0] at h1; exact absurd h1 (by decide)
          · rw [h0] at h1; exact absurd h1 (by decide)
        · rw [h0] at h1; exact absurd h1 (by decide)
        · rw [h0] at h1; exact absurd h1 (by decide)
      refine ⟨hall.1, hall.2, ?_⟩
      unfold dw_mci_starfive_execute_tuning
      rw [hrun']
      simp only [h0, ne_eq, not_true_eq_false, if_false]
  refine ⟨⟨m, e, hm, htie, main⟩, ?_, ?_⟩
  · intro hfail
    rcases main with ⟨_, _, hres⟩ | ⟨⟨j, hj, hpass⟩, _⟩
    · rw [hres]
    · rw [htie j hj] at hpass
      exact absurd hpass (hfail _)
  · intro hpass
    have hzero : ∀ j, j < m → e j = 0 := fun j hj => by rw [htie j hj]; exact hpass _
    rcases main with ⟨hall, hm32, _⟩ | ⟨_, d, _, hres, hsafe⟩
    · exact absurd (hzero 0 (by omega)) (hall 0 (by omega))
    · -- the scan found no failure, so it ran through all 32 delays and chose 15
      have hm32 : m = 32 := by
        rcases hpost with ⟨hm32, _⟩ | ⟨r, f, _, _, _, _, _, hfm, _, _, _, hf1⟩ |
          ⟨r, f, _, _, _, hfr, hrm, _, _, hfail, _⟩
        · exact hm32
        · exact absurd (hzero (f + 1) (by omega)) hf1
        · exact absurd (hzero (f + 1) (by omega)) (hfail (f + 1) (by omega) (by omega))
      subst hm32
      have hv : tuning_delay v = 15 := by
        rcases hpost with ⟨_, _, hshape⟩ | ⟨r, f, _, _, _, _, _, hfm, _, _, _, hf1⟩ |
          ⟨r, f, _, _, _, hfr, hrm, _, _, hfail, _⟩
        · rcases hshape with ⟨hr, hf, _⟩ | ⟨r, _, _, _, hr0, _, hfail, _⟩ |
            ⟨f, _, _, _, hfi, _, hfail⟩
          · simp only [tuning_delay, MAX_DELAY_CHAIN, hr, hf]
            decide
          · exact absurd (hzero 0 (by omega)) (hfail 0 hr0)
          · exact absurd (hzero (f + 1) (by omega)) (hfail (f + 1) (by omega) hfi)
        · exact absurd (hzero (f + 1) (by omega)) hf1
        · exact absurd (hzero (f + 1) (by omega)) (hfail (f + 1) (by omega) (by omega))
      have hfound : v.found ≠ 0 := by
        intro h0
        rcases hpost with ⟨_, _, hshape⟩ | ⟨r, f, _, _, h1, _⟩ | ⟨r, f, _, _, h1, _⟩
        · rcases hshape with ⟨_, _, hfd⟩ | ⟨r, _, _, h1, _⟩ | ⟨f, _, _, h1, _⟩
          · rcases hfd with ⟨_, hall⟩ | ⟨h1, _⟩
            · exact hall 0 (by omega) (hzero 0 (by omega))
            · rw [h0] at h1; exact absurd h1 (by decide)
          · rw [h0] at h1; exact absurd h1 (by decide)
          · rw [h0] at h1; exact absurd h1 (by decide)
        · rw [h0] at h1; exact absurd h1 (by decide)
        · rw [h0] at h1; exact absurd h1 (by decide)
      unfold dw_mci_starfive_execute_tuning
      rw [hrun', tried_events_congr priv (fun _ => 0) e 32 (fun j hj => hzero j hj)]
      simp only [hfound, ne_eq, not_false_eq_true, if_true, hreg, not_true_eq_false, if_false,
        hv, List.append_assoc, List.cons_append, List.nil_append]

/-- On the card that passes nowhere every tuning command fails. -/
lemma env_passing_nil (priv : starfive_priv) (log : List tuning_event) :
    (env_passing priv []).mmc_send_tuning log ≠ 0 := by
  simp only [env_passing]
  split <;> simp

set_option maxRecDepth 100000 in
/-- C29 witness: on the card that passes at no delay the function returns
`-EINVAL`, after the 32 delays (97 events); on the card that passes at the delays
3 to 7 it returns 0 and the delay it programs last is 5. -/
theorem execute_tuning_picks_safe_delay_witness :
    (dw_mci_starfive_execute_tuning sample_priv (env_passing sample_priv [])).1 = -EINVAL ∧
    (dw_mci_starfive_execute_tuning sample_priv (env_passing sample_priv [])).2.length = 97 ∧
    (dw_mci_starfive_execute_tuning sample_priv (env_passing sample_priv [3, 4, 5, 6, 7])).1 = 0 ∧
    (dw_mci_starfive_execute_tuning sample_priv
        (env_passing sample_priv [3, 4, 5, 6, 7])).2.reverse.take 2 =
      [ tuning_event.mci_writel_RINTSTS ALL_INT_CLR,
        tuning_event.regmap_update_bits sample_priv.syscon_offset sample_priv.syscon_mask
          (delay_regval sample_priv 5) ] := by
  refine ⟨?_, ?_, ?_, ?_⟩
  · exact (execute_tuning_picks_safe_delay sample_priv (env_passing sample_priv [])
      (fun _ _ => rfl)).2.1 (env_passing_nil sample_priv)
  · decide
  · decide
  · decide

end DwMciStarfive
